import Mathlib

/-!
# Enhanced Code Flow: scheduler core (`UECFSubsystem::AddAction`) and the colour timeline

A shallow embedding of

* `Source/EnhancedCodeFlow/Public/ECFSubsystem.h` (`UECFSubsystem::AddAction`),
* `Source/EnhancedCodeFlow/Public/ECFActionSettings.h` (`FECFActionSettings`, its
  constructors and the preset macros),
* `Source/EnhancedCodeFlow/Private/EnhancedCodeFlow.cpp` (the facade `FEnhancedCodeFlow`),
* `Source/EnhancedCodeFlow/Public/CodeFlowActions/ECFTimelineLinearColor.h`
  (`GetValue`, `Setup`, `Reset`, `Tick`, `Complete`).

Conventions of the embedding.

* `uint64` is `Nat` with an explicit `% 2 ^ 64` at the one place where the code does
  arithmetic on it (`++LastHandleId`).
* A `float` value is a rational (`ℚ`), and every `float` operation of the code (`+`, `-`,
  `*`, `/`) is the exact operation followed by an explicit rounding to binary32
  (`Binary32.Round`: 24 significant bits, round to nearest, ties to even), as IEEE 754
  prescribes for these operations. The exponent range is not bounded: overflow to an
  infinity, underflow to a subnormal number, NaN and division by zero are outside the model.
  Comparisons are exact. A `float` variable ranges over all rationals; a statement that needs
  its value to be a binary32 value says so (`Binary32.IsValue`).
* A `TUniqueFunction` is opaque user code.  It is represented by whether it is bound, and
  calling it is recorded as an event in a trace; calling an unbound function is a failure
  (`none`).  User callbacks are assumed not to re-enter the object they are called from.
* `TArray` is `List`, `Add` appends at the end.
* An object reached through a pointer is a value in a map from object identities to object
  states (`ECFWorld`); a method call through the pointer updates the map at that identity. A
  `UObject*` is `Option Nat`, `none` being `nullptr`.
-/

namespace ECF

/-! ## Handles, settings, actions -/

/-- Modelled from the spec: `FECFHandle` (ECFHandle.h is not among the sources). A handle is
a `uint64` id, and the value zero is the sentinel for "invalid / no action". -/
structure FECFHandle where
  Handle : Nat
deriving DecidableEq, Repr

namespace FECFHandle

/-- Modelled from the spec: the default-constructed handle `FECFHandle()`, the zero
sentinel. -/
def Invalid : FECFHandle := ⟨0⟩

/-- Modelled from the spec: `FECFHandle::IsValid`, "id not equal to sentinel zero". -/
def IsValid (h : FECFHandle) : Bool := h.Handle != 0

/-- Modelled from the spec: the pre-increment `++LastHandleId` of the `uint64` counter
("monotonically assigned", exhaustion "is not handled"): one is added modulo `2 ^ 64`. -/
def Increment (h : FECFHandle) : FECFHandle := ⟨(h.Handle + 1) % 2 ^ 64⟩

end FECFHandle

/-- The struct `FECFActionSettings` of ECFActionSettings.h with its in-class default member
initialisers. -/
structure FECFActionSettings where
  TickInterval : ℚ := 0
  FirstDelay : ℚ := 0
  bIgnorePause : Bool := false
  bIgnoreGlobalTimeDilation : Bool := false
  bStartPaused : Bool := false
deriving DecidableEq, Repr

/-- Modelled from the spec: the part of `UECFActionBase` (ECFActionBase.h is not among the
sources) that `SetAction(InOwner, HandleId, InstanceId, Settings)` fills in, together with
the flavour-specific payload `P` of the derived class. `Owner` is the `UObject*`, `none`
being `nullptr`. -/
structure UECFActionBase (P : Type) where
  Owner : Option Nat
  HandleId : FECFHandle
  InstanceId : Int
  Settings : FECFActionSettings
  Payload : P

/-- The interface that `AddAction<T, Ts...>` requires of a flavour `T`: default construction
(`NewObject<T>`), `Setup(Args...)` returning success, and `Init()`. `Setup` and `Init` see the
fields written by `SetAction` but can only change the payload (the handle is "assigned at
creation, immutable thereafter"). -/
structure ActionClass (Args P : Type) where
  NewObject : P
  Setup : Args → UECFActionBase P → Bool × P
  Init : UECFActionBase P → P

/-- The data members of `UECFSubsystem` declared in ECFSubsystem.h. -/
structure UECFSubsystem (P : Type) where
  Actions : List (UECFActionBase P)
  PendingAddActions : List (UECFActionBase P)
  LastHandleId : FECFHandle

/-- The calls `AddAction` makes on the object it constructs, in program order. -/
inductive AddActionCall where
  | NewObject
  | SetAction
  | Setup
  | Init
deriving DecidableEq, Repr

/-- What a call of `AddAction` leaves behind: the returned handle, the subsystem afterwards
and the calls made on a newly constructed action. -/
structure AddActionResult (P : Type) where
  Result : FECFHandle
  Subsystem : UECFSubsystem P
  Calls : List AddActionCall

namespace UECFSubsystem

variable {Args P : Type}

/-- A subsystem right after construction: no actions and an invalid `LastHandleId`. -/
def Fresh : UECFSubsystem P := { Actions := [], PendingAddActions := [], LastHandleId := FECFHandle.Invalid }

/-- The action `NewAction` as it is after `NewObject<T>(this)` and
`SetAction(InOwner, ++LastHandleId, InstanceId, Settings)`. -/
def NewAction (T : ActionClass Args P) (self : UECFSubsystem P) (InOwner : Option Nat)
    (Settings : FECFActionSettings) (InstanceId : Int) : UECFActionBase P :=
  { Owner := InOwner, HandleId := self.LastHandleId.Increment, InstanceId := InstanceId,
    Settings := Settings, Payload := T.NewObject }

/-- The action that `AddAction` enqueues when `Setup` returns true: `NewAction` after
`Setup(Args...)` and `Init()` have updated its payload. -/
def InitAction (T : ActionClass Args P) (self : UECFSubsystem P) (InOwner : Option Nat)
    (Settings : FECFActionSettings) (InstanceId : Int) (args : Args) : UECFActionBase P :=
  let Created := NewAction T self InOwner Settings InstanceId
  let AfterSetup := { Created with Payload := (T.Setup args Created).2 }
  { AfterSetup with Payload := T.Init AfterSetup }

/-- The template `UECFSubsystem::AddAction<T>` of ECFSubsystem.h. The lookup
`GetInstancedAction` is only declared in the header; it is taken as a parameter (a function
of the subsystem state and the instance id, without side effects). -/
def AddAction (GetInstancedAction : UECFSubsystem P → Int → FECFHandle) (T : ActionClass Args P)
    (self : UECFSubsystem P) (InOwner : Option Nat) (Settings : FECFActionSettings)
    (InstanceId : Int) (args : Args) : AddActionResult P :=
  let PossibleInstancedActionHandle := GetInstancedAction self InstanceId
  if PossibleInstancedActionHandle.IsValid then
    { Result := PossibleInstancedActionHandle, Subsystem := self, Calls := [] }
  else
    let Incremented := { self with LastHandleId := self.LastHandleId.Increment }
    if (T.Setup args (NewAction T self InOwner Settings InstanceId)).1 then
      let Enqueued := InitAction T self InOwner Settings InstanceId args
      { Result := Enqueued.HandleId,
        Subsystem := { Incremented with
          PendingAddActions := Incremented.PendingAddActions ++ [Enqueued] },
        Calls := [.NewObject, .SetAction, .Setup, .Init] }
    else
      { Result := FECFHandle.Invalid, Subsystem := Incremented,
        Calls := [.NewObject, .SetAction, .Setup] }

/-- The actions held by the subsystem: the live collection followed by the pending queue. -/
def HeldActions (self : UECFSubsystem P) : List (UECFActionBase P) :=
  self.Actions ++ self.PendingAddActions

/-- How many held actions carry the instance id `InstanceId`. -/
def InstanceCount (self : UECFSubsystem P) (InstanceId : Int) : Nat :=
  (HeldActions self).countP (fun a => a.InstanceId == InstanceId)

/-- Modelled from the spec: `UECFSubsystem::GetInstancedAction`, which ECFSubsystem.h only
declares (its body is in ECFSubsystem.cpp, not among the sources). "If `instanceId` is set and
a live action already owns it, returns that action's existing handle", and an invalid handle
otherwise. Whether an id is set (not "none") is the parameter `IsSet`. The action is looked
for in `Actions` and then in `PendingAddActions`: the spec's dedup property is about two adds
"before the first instance finishes", so an action that is still pending owns its id. -/
def GetInstancedAction (IsSet : Int → Bool) (self : UECFSubsystem P) (InstanceId : Int) :
    FECFHandle :=
  if IsSet InstanceId then
    match (HeldActions self).find? (fun a => a.InstanceId == InstanceId) with
    | some a => a.HandleId
    | none => FECFHandle.Invalid
  else
    FECFHandle.Invalid

/-- The arguments of one call of `AddAction`: the flavour `T` and the actual parameters. -/
structure AddActionArgs (Args P : Type) where
  T : ActionClass Args P
  InOwner : Option Nat
  Settings : FECFActionSettings
  InstanceId : Int
  args : Args

/-- One call of `AddAction` with bundled arguments. -/
def AddActionWith (G : UECFSubsystem P → Int → FECFHandle) (self : UECFSubsystem P)
    (c : AddActionArgs Args P) : AddActionResult P :=
  AddAction G c.T self c.InOwner c.Settings c.InstanceId c.args

/-- The subsystem after a finite sequence of `AddAction` calls, made one after the other. -/
def AddActions (G : UECFSubsystem P → Int → FECFHandle) :
    UECFSubsystem P → List (AddActionArgs Args P) → UECFSubsystem P
  | self, [] => self
  | self, c :: cs => AddActions G (AddActionWith G self c).Subsystem cs

/-- The handles of the actions created by a finite sequence of `AddAction` calls, in creation
order: the handles returned by those calls that went as far as `Init()` and enqueued their
action. -/
def CreatedHandles (G : UECFSubsystem P → Int → FECFHandle) :
    UECFSubsystem P → List (AddActionArgs Args P) → List FECFHandle
  | _, [] => []
  | self, c :: cs =>
    (if AddActionCall.Init ∈ (AddActionWith G self c).Calls then [(AddActionWith G self c).Result]
      else []) ++ CreatedHandles G (AddActionWith G self c).Subsystem cs

/-- A sample flavour used for concrete evaluations: its `Setup(bool)` succeeds exactly when
its argument is true, and the payload counts the calls made on the object. -/
def SampleClass : ActionClass Bool Nat :=
  { NewObject := 0, Setup := fun ok a => (ok, a.Payload + 1), Init := fun a => a.Payload + 1 }

/-- A sample subsystem state whose counter is at the last `uint64` value. -/
def Exhausted : UECFSubsystem Nat :=
  { Actions := [], PendingAddActions := [], LastHandleId := ⟨2 ^ 64 - 1⟩ }

/-- A sample subsystem state: one live and one pending action, three handles handed out. -/
def SampleSubsystem : UECFSubsystem Nat :=
  { Actions := [{ Owner := some 1, HandleId := ⟨1⟩, InstanceId := 0, Settings := {}, Payload := 2 }],
    PendingAddActions :=
      [{ Owner := some 1, HandleId := ⟨3⟩, InstanceId := 7, Settings := {}, Payload := 2 }],
    LastHandleId := ⟨3⟩ }

/-- A sample sequence of calls: a successful add, a failing one, and a successful one. -/
def SampleCalls : List (AddActionArgs Bool Nat) :=
  [{ T := SampleClass, InOwner := some 1, Settings := {}, InstanceId := 0, args := true },
   { T := SampleClass, InOwner := some 1, Settings := {}, InstanceId := 0, args := false },
   { T := SampleClass, InOwner := some 2, Settings := {}, InstanceId := 0, args := true }]

end UECFSubsystem

/-! ## Binary32 arithmetic -/

namespace Binary32

/-- Rounding of a rational to the nearest integer, a tie going to the even integer. -/
def RoundHalfEven (q : ℚ) : ℤ :=
  if q - ⌊q⌋ < 1 / 2 then ⌊q⌋
  else if 1 / 2 < q - ⌊q⌋ then ⌊q⌋ + 1
  else if ⌊q⌋ % 2 = 0 then ⌊q⌋ else ⌊q⌋ + 1

/-- The unit in the last place of the binade `[2^e, 2^(e+1))` that holds `|x|`, for a
significand of 24 bits: `2^(e - 23)`. -/
def Ulp (x : ℚ) : ℚ := 2 ^ (Int.log 2 |x| - 23)

/-- Rounding of a rational to the nearest binary32 value, ties to even: the nearest multiple
of the unit in the last place of its binade. -/
def Round (x : ℚ) : ℚ := (RoundHalfEven (x / Ulp x) : ℚ) * Ulp x

/-- The `float` addition `a + b`. -/
def Add (a b : ℚ) : ℚ := Round (a + b)

/-- The `float` subtraction `a - b`. -/
def Sub (a b : ℚ) : ℚ := Round (a - b)

/-- The `float` multiplication `a * b`. -/
def Mul (a b : ℚ) : ℚ := Round (a * b)

/-- The `float` division `a / b`. -/
def Div (a b : ℚ) : ℚ := Round (a / b)

/-- The rational `x` is a binary32 value: rounding leaves it as it is. -/
abbrev IsValue (x : ℚ) : Prop := Round x = x

/-- The accumulated time of a sequence of deltas as the code accumulates it from a clock at
zero: `((0 + d1) + d2) + ...` in `float` arithmetic. -/
def Sum (deltas : List ℚ) : ℚ := deltas.foldl Add 0

end Binary32

/-! ## The colour timeline -/

/-- Modelled from the spec: the engine type `FLinearColor`, four `float` channels. -/
structure FLinearColor where
  R : ℚ
  G : ℚ
  B : ℚ
  A : ℚ
deriving DecidableEq, Repr

namespace FLinearColor

/-- Modelled from the spec: the engine constant `FLinearColor::Black`, opaque black. -/
def Black : FLinearColor := ⟨0, 0, 0, 1⟩

/-- Modelled from the spec: `operator+` of the engine type, the `float` addition channel by
channel. -/
def Add (a b : FLinearColor) : FLinearColor :=
  ⟨Binary32.Add a.R b.R, Binary32.Add a.G b.G, Binary32.Add a.B b.B, Binary32.Add a.A b.A⟩

/-- Modelled from the spec: `operator-` of the engine type, the `float` subtraction channel by
channel. -/
def Sub (a b : FLinearColor) : FLinearColor :=
  ⟨Binary32.Sub a.R b.R, Binary32.Sub a.G b.G, Binary32.Sub a.B b.B, Binary32.Sub a.A b.A⟩

/-- Modelled from the spec: multiplication of a colour by a scalar, the `float` multiplication
channel by channel. -/
def Scale (x : ℚ) (a : FLinearColor) : FLinearColor :=
  ⟨Binary32.Mul x a.R, Binary32.Mul x a.G, Binary32.Mul x a.B, Binary32.Mul x a.A⟩

/-- Every channel of the colour is a binary32 value. -/
abbrev IsBinary32 (a : FLinearColor) : Prop :=
  Binary32.IsValue a.R ∧ Binary32.IsValue a.G ∧ Binary32.IsValue a.B ∧ Binary32.IsValue a.A

/-- Modelled from the spec: `operator!=` of the engine type: some channel differs. -/
def NotEqual (a b : FLinearColor) : Bool := a.R != b.R || a.G != b.G || a.B != b.B || a.A != b.A

end FLinearColor

namespace FMath

/-- Modelled from the spec: the engine's `FMath::Clamp(X, Min, Max)` ("clamped to
duration"). -/
def Clamp (X Min Max : ℚ) : ℚ := if X < Min then Min else if X < Max then X else Max

/-- Modelled from the spec: the engine's `FMath::Lerp(A, B, Alpha)`, that is
`A + Alpha * (B - A)` on every colour channel, each of the three operations being a `float`
operation. -/
def Lerp (A B : FLinearColor) (Alpha : ℚ) : FLinearColor := A.Add ((B.Sub A).Scale Alpha)

/-- Modelled from the spec: the engine's `FMath::CubicInterp(P0, T0, P1, T1, A)`
("cubicInterp(start, 0, stop, 0, t)"), the cubic Hermite interpolation between the points
`P0` and `P1` with the tangents `T0` and `T1`, on every colour channel:
`(2 A^3 - 3 A^2 + 1) P0 + (A^3 - 2 A^2 + A) T0 + (A^3 - A^2) T1 + (-2 A^3 + 3 A^2) P1`, every
operation being a `float` operation. -/
def CubicInterp (P0 T0 P1 T1 : FLinearColor) (A : ℚ) : FLinearColor :=
  let A2 := Binary32.Mul A A
  let A3 := Binary32.Mul A2 A
  (((P0.Scale (Binary32.Add (Binary32.Sub (Binary32.Mul 2 A3) (Binary32.Mul 3 A2)) 1)).Add
      (T0.Scale (Binary32.Add (Binary32.Sub A3 (Binary32.Mul 2 A2)) A))).Add
    (T1.Scale (Binary32.Sub A3 A2))).Add
    (P1.Scale (Binary32.Add (Binary32.Mul (-2) A3) (Binary32.Mul 3 A2)))

end FMath

/-- The engine routines used by `GetValue` whose definition is neither in the sources nor in
the spec; they are parameters of the embedding. -/
structure EngineMath where
  Pow : ℚ → ℚ → ℚ
  CubicInterp : FLinearColor → FLinearColor → FLinearColor → FLinearColor → ℚ → FLinearColor
  InterpEaseInOut : FLinearColor → FLinearColor → ℚ → ℚ → FLinearColor

/-- Modelled from the spec: the enumeration `EECFBlendFunc` (ECFTypes.h is not among the
sources), with the five enumerators that `GetValue` switches on. -/
inductive EECFBlendFunc where
  | ECFBlend_Linear
  | ECFBlend_Cubic
  | ECFBlend_EaseIn
  | ECFBlend_EaseOut
  | ECFBlend_EaseInOut
deriving DecidableEq, Repr

/-- What the member `CallbackFunc` of the timeline holds: nothing (`nullptr`), a function
supplied by the caller, or the lambda that the second `Setup` overload builds around
`CallbackFunc_NoStopped`. -/
inductive CallbackBinding where
  | Unbound
  | User
  | ForwardNoStopped
deriving DecidableEq, Repr

/-- The calls a timeline makes into code outside the class, with their actual arguments. -/
inductive TimelineEvent where
  | TickFunc (Value : FLinearColor) (Time : ℚ)
  | CallbackFunc (Value : FLinearColor) (Time : ℚ) (bStopped : Bool)
  | CallbackFunc_NoStopped (Value : FLinearColor) (Time : ℚ)
  | MarkAsFinished
deriving DecidableEq, Repr

namespace TimelineEvent

/-- Whether the event is a call of the tick callback. -/
def IsTickFunc : TimelineEvent → Bool
  | .TickFunc _ _ => true
  | _ => false

/-- Whether the event is a call of a completion callback (either signature). -/
def IsCallbackFunc : TimelineEvent → Bool
  | .CallbackFunc _ _ _ => true
  | .CallbackFunc_NoStopped _ _ => true
  | _ => false

/-- The time reported to a callback, if the event is a callback call. -/
def ReportedTime : TimelineEvent → Option ℚ
  | .TickFunc _ t => some t
  | .CallbackFunc _ t _ => some t
  | .CallbackFunc_NoStopped _ t => some t
  | .MarkAsFinished => none

end TimelineEvent

/-- The data members of `UECFTimelineLinearColor`. A `TUniqueFunction` member is represented
by its binding. `MaxActionTime` and `bHasFinished` stand for the state of the base class
that `SetMaxActionTime` and `MarkAsFinished` write (modelled from the spec: the action
"transitions to Finished"). -/
structure UECFTimelineLinearColor where
  TickFunc : Bool
  CallbackFunc : CallbackBinding
  CallbackFunc_NoStopped : Bool
  StartValue : FLinearColor
  StopValue : FLinearColor
  Time : ℚ
  BlendFunc : EECFBlendFunc
  BlendExp : ℚ
  CurrentTime : ℚ
  CurrentValue : FLinearColor
  MaxActionTime : ℚ
  bHasFinished : Bool
deriving DecidableEq, Repr

namespace UECFTimelineLinearColor

/-- The method `UECFTimelineLinearColor::GetValue`. The quotients `CurrentTime / Time` and
`1.f / BlendExp` are `float` divisions. -/
def GetValue (M : EngineMath) (self : UECFTimelineLinearColor) : FLinearColor :=
  match self.BlendFunc with
  | .ECFBlend_Linear =>
    FMath.Lerp self.StartValue self.StopValue (Binary32.Div self.CurrentTime self.Time)
  | .ECFBlend_Cubic =>
    M.CubicInterp self.StartValue FLinearColor.Black self.StopValue FLinearColor.Black
      (Binary32.Div self.CurrentTime self.Time)
  | .ECFBlend_EaseIn =>
    FMath.Lerp self.StartValue self.StopValue
      (M.Pow (Binary32.Div self.CurrentTime self.Time) self.BlendExp)
  | .ECFBlend_EaseOut =>
    FMath.Lerp self.StartValue self.StopValue
      (M.Pow (Binary32.Div self.CurrentTime self.Time) (Binary32.Div 1 self.BlendExp))
  | .ECFBlend_EaseInOut =>
    M.InterpEaseInOut self.StartValue self.StopValue (Binary32.Div self.CurrentTime self.Time)
      self.BlendExp

/-- The method `UECFTimelineLinearColor::Setup`, the overload whose completion callback takes the
`bStopped` flag. The `ensureMsgf` of the failure branch only reports a diagnostic. -/
def Setup (self : UECFTimelineLinearColor) (InStartValue InStopValue : FLinearColor) (InTime : ℚ)
    (InTickFunc : Bool) (InCallbackFunc : CallbackBinding) (InBlendFunc : EECFBlendFunc)
    (InBlendExp : ℚ) : Bool × UECFTimelineLinearColor :=
  let Assigned := { self with
    StartValue := InStartValue, StopValue := InStopValue, Time := InTime,
    TickFunc := InTickFunc, CallbackFunc := InCallbackFunc,
    BlendFunc := InBlendFunc, BlendExp := InBlendExp }
  if Assigned.TickFunc && decide (Assigned.Time > 0) && decide (Assigned.BlendExp ≠ 0)
      && Assigned.StartValue.NotEqual Assigned.StopValue then
    (true, { Assigned with MaxActionTime := Assigned.Time, CurrentTime := 0 })
  else
    (false, Assigned)

/-- The method `UECFTimelineLinearColor::Setup`, the overload whose completion callback takes no
`bStopped` flag: it stores the callback in `CallbackFunc_NoStopped` and passes a forwarding
lambda to the first overload. -/
def SetupNoStopped (self : UECFTimelineLinearColor) (InStartValue InStopValue : FLinearColor)
    (InTime : ℚ) (InTickFunc : Bool) (InCallbackFunc : Bool) (InBlendFunc : EECFBlendFunc)
    (InBlendExp : ℚ) : Bool × UECFTimelineLinearColor :=
  Setup { self with CallbackFunc_NoStopped := InCallbackFunc } InStartValue InStopValue InTime
    InTickFunc .ForwardNoStopped InBlendFunc InBlendExp

/-- The statement `if (CallbackFunc) CallbackFunc(Value, Time, bStopped);`: the calls it makes
into user code. The forwarding lambda calls `CallbackFunc_NoStopped(Value, Time)` when that
one is bound. -/
def InvokeCallbackFunc (self : UECFTimelineLinearColor) (Value : FLinearColor) (Time : ℚ)
    (bStopped : Bool) : List TimelineEvent :=
  match self.CallbackFunc with
  | .Unbound => []
  | .User => [.CallbackFunc Value Time bStopped]
  | .ForwardNoStopped =>
    if self.CallbackFunc_NoStopped then [.CallbackFunc_NoStopped Value Time] else []

/-- The method `UECFTimelineLinearColor::Complete`. -/
def Complete (self : UECFTimelineLinearColor) (bStopped : Bool) :
    UECFTimelineLinearColor × List TimelineEvent :=
  (self, InvokeCallbackFunc self self.CurrentValue self.CurrentTime bStopped)

/-- The first two statements of `Reset`: `CurrentTime = 0.f; CurrentValue = GetValue();`. -/
def Rewound (M : EngineMath) (self : UECFTimelineLinearColor) : UECFTimelineLinearColor :=
  let Zero := { self with CurrentTime := 0 }
  { Zero with CurrentValue := GetValue M Zero }

/-- The method `UECFTimelineLinearColor::Reset`. Calling the tick function when it is unbound fails. -/
def Reset (M : EngineMath) (self : UECFTimelineLinearColor) (bCallUpdate : Bool) :
    Option (UECFTimelineLinearColor × List TimelineEvent) :=
  let Valued := Rewound M self
  if bCallUpdate then
    if Valued.TickFunc then some (Valued, [.TickFunc Valued.CurrentValue Valued.CurrentTime])
    else none
  else
    some (Valued, [])

/-- The first two statements of `Tick`:
`CurrentTime = FMath::Clamp(CurrentTime + DeltaTime, 0.f, Time); CurrentValue = GetValue();`.
The sum is the `float` sum. -/
def Advanced (M : EngineMath) (self : UECFTimelineLinearColor) (DeltaTime : ℚ) :
    UECFTimelineLinearColor :=
  let Clamped := { self with
    CurrentTime := FMath.Clamp (Binary32.Add self.CurrentTime DeltaTime) 0 self.Time }
  { Clamped with CurrentValue := GetValue M Clamped }

/-- The method `UECFTimelineLinearColor::Tick`. Calling the tick function when it is unbound fails. -/
def Tick (M : EngineMath) (self : UECFTimelineLinearColor) (DeltaTime : ℚ) :
    Option (UECFTimelineLinearColor × List TimelineEvent) :=
  let Valued := Advanced M self DeltaTime
  if Valued.TickFunc then
    if Valued.CurrentTime ≥ Valued.Time then
      some ({ (Complete Valued false).1 with bHasFinished := true },
        [.TickFunc Valued.CurrentValue Valued.CurrentTime] ++ (Complete Valued false).2
          ++ [.MarkAsFinished])
    else
      some (Valued, [.TickFunc Valued.CurrentValue Valued.CurrentTime])
  else
    none

/-- A call of one of the three virtual methods of the timeline. -/
inductive Call where
  | Tick (DeltaTime : ℚ)
  | Reset (bCallUpdate : Bool)
  | Complete (bStopped : Bool)
deriving DecidableEq, Repr

/-- Performs one method call. -/
def Perform (M : EngineMath) (self : UECFTimelineLinearColor) :
    Call → Option (UECFTimelineLinearColor × List TimelineEvent)
  | .Tick DeltaTime => Tick M self DeltaTime
  | .Reset bCallUpdate => Reset M self bCallUpdate
  | .Complete bStopped => some (Complete self bStopped)

/-- Performs a sequence of method calls one after the other; the result is the final object
and, for every call in order, the events of that call. It fails when one of the calls
fails. -/
def PerformAll (M : EngineMath) :
    UECFTimelineLinearColor → List Call → Option (UECFTimelineLinearColor × List (List TimelineEvent))
  | self, [] => some (self, [])
  | self, c :: cs =>
    match Perform M self c with
    | none => none
    | some (next, events) =>
      match PerformAll M next cs with
      | none => none
      | some (final, rest) => some (final, events :: rest)

/-- The events of one tick of a linear timeline as the timeline-boundary property describes
them, for a tick that brings the accumulated time to `Elapsed`: the tick callback gets the
time `min(Elapsed, Time)` and the interpolated value at that time; if the accumulated time has
reached `Time`, the completion callback then gets the interpolated value at parameter one, the
time `Time` and `stopped = false`, and the action is marked finished. -/
def LinearTickEvents (self : UECFTimelineLinearColor) (Elapsed : ℚ) : List TimelineEvent :=
  .TickFunc
      (FMath.Lerp self.StartValue self.StopValue
        (Binary32.Div (min Elapsed self.Time) self.Time))
      (min Elapsed self.Time)
    :: (if self.Time ≤ Elapsed then
          InvokeCallbackFunc self (FMath.Lerp self.StartValue self.StopValue 1) self.Time false
            ++ [.MarkAsFinished]
        else [])

/-- The calls of the member `CallbackFunc` that `Complete(bStopped)` makes, each with its
three actual arguments: the guarded statement `if (CallbackFunc) CallbackFunc(CurrentValue,
CurrentTime, bStopped);` calls it once when it is bound and not at all otherwise. -/
def CompleteCalls (self : UECFTimelineLinearColor) (bStopped : Bool) :
    List (FLinearColor × ℚ × Bool) :=
  match self.CallbackFunc with
  | .Unbound => []
  | .User => [(self.CurrentValue, self.CurrentTime, bStopped)]
  | .ForwardNoStopped => [(self.CurrentValue, self.CurrentTime, bStopped)]

/-- What the function bound to the member `CallbackFunc` does when it is called with
`(FwdValue, FwdTime, bStopped)`: a caller-supplied function is user code receiving the three
arguments; the lambda of the second `Setup` overload calls
`CallbackFunc_NoStopped(FwdValue, FwdTime)` if that one is bound. -/
def RunCallbackFunc (self : UECFTimelineLinearColor) :
    FLinearColor × ℚ × Bool → List TimelineEvent
  | (FwdValue, FwdTime, bStopped) =>
    match self.CallbackFunc with
    | .Unbound => []
    | .User => [.CallbackFunc FwdValue FwdTime bStopped]
    | .ForwardNoStopped =>
      if self.CallbackFunc_NoStopped then [.CallbackFunc_NoStopped FwdValue FwdTime] else []

/-- The calls of the tick callback among the events of a method call. -/
def TickReports (events : List TimelineEvent) : List TimelineEvent :=
  events.filter TimelineEvent.IsTickFunc

/-- An object as `NewObject` leaves it (zero-initialised memory), used for concrete
evaluations. -/
def Zeroed : UECFTimelineLinearColor :=
  { TickFunc := false, CallbackFunc := .Unbound, CallbackFunc_NoStopped := false,
    StartValue := ⟨0, 0, 0, 0⟩, StopValue := ⟨0, 0, 0, 0⟩, Time := 0,
    BlendFunc := .ECFBlend_Linear, BlendExp := 0, CurrentTime := 0,
    CurrentValue := ⟨0, 0, 0, 0⟩, MaxActionTime := 0, bHasFinished := false }

/-- A linear timeline from 0 to 10 on every channel lasting 2 seconds, as `Setup` leaves it,
with a caller-supplied completion callback. -/
def SampleTimeline : UECFTimelineLinearColor :=
  { TickFunc := true, CallbackFunc := .User, CallbackFunc_NoStopped := false,
    StartValue := ⟨0, 0, 0, 0⟩, StopValue := ⟨10, 10, 10, 10⟩, Time := 2,
    BlendFunc := .ECFBlend_Linear, BlendExp := 1, CurrentTime := 0,
    CurrentValue := ⟨0, 0, 0, 0⟩, MaxActionTime := 2, bHasFinished := false }

/-- A sample sequence of method calls with a zero, a negative and an oversized delta. -/
def SampleCallSequence : List Call :=
  [.Tick 1, .Tick 0, .Reset true, .Tick 5, .Tick (-3), .Complete true]

/-- A timeline as `Setup` leaves a new object when the start value is not the zero colour:
from 1 to 2 on every channel in one second, linear, with a caller-supplied completion
callback. -/
def FreshlySetUp : UECFTimelineLinearColor :=
  (Setup Zeroed ⟨1, 1, 1, 1⟩ ⟨2, 2, 2, 2⟩ 1 true .User .ECFBlend_Linear 1).2

/-- A cubic timeline from opaque black to opaque white lasting one second, a quarter of a
second after its start. -/
def SampleCubicTimeline : UECFTimelineLinearColor :=
  { TickFunc := true, CallbackFunc := .User, CallbackFunc_NoStopped := false,
    StartValue := ⟨0, 0, 0, 1⟩, StopValue := ⟨1, 1, 1, 1⟩, Time := 1,
    BlendFunc := .ECFBlend_Cubic, BlendExp := 1, CurrentTime := 1 / 4,
    CurrentValue := ⟨0, 0, 0, 1⟩, MaxActionTime := 1, bHasFinished := false }

/-- Engine routines with the engine's cubic interpolation, for concrete evaluations of the
cubic blend. -/
def CubicMath : EngineMath :=
  { Pow := fun x _ => x, CubicInterp := FMath.CubicInterp,
    InterpEaseInOut := fun a _ _ _ => a }

/-- Sample engine routines for concrete evaluations of the linear blend, which uses none of
them. -/
def SampleMath : EngineMath :=
  { Pow := fun x _ => x, CubicInterp := fun p0 _ _ _ _ => p0, InterpEaseInOut := fun a _ _ _ => a }

/-- A linear timeline from 1 down to the binary32 value nearest to one tenth
(`0.1f = 13421773 / 2^27`) on every channel, lasting one second, as `Setup` leaves it, with a
caller-supplied completion callback. -/
def SampleRoundingTimeline : UECFTimelineLinearColor :=
  { TickFunc := true, CallbackFunc := .User, CallbackFunc_NoStopped := false,
    StartValue := ⟨1, 1, 1, 1⟩,
    StopValue := ⟨13421773 / 134217728, 13421773 / 134217728, 13421773 / 134217728,
      13421773 / 134217728⟩,
    Time := 1, BlendFunc := .ECFBlend_Linear, BlendExp := 1, CurrentTime := 0,
    CurrentValue := ⟨0, 0, 0, 0⟩, MaxActionTime := 1, bHasFinished := false }

/-- A linear timeline from 0 to 10 on every channel whose duration is the binary32 value
nearest to three tenths (`0.3f = 5033165 / 2^24`), as `Setup` leaves it, with a
caller-supplied completion callback. -/
def SampleTenthsTimeline : UECFTimelineLinearColor :=
  { TickFunc := true, CallbackFunc := .User, CallbackFunc_NoStopped := false,
    StartValue := ⟨0, 0, 0, 0⟩, StopValue := ⟨10, 10, 10, 10⟩, Time := 5033165 / 16777216,
    BlendFunc := .ECFBlend_Linear, BlendExp := 1, CurrentTime := 0,
    CurrentValue := ⟨0, 0, 0, 0⟩, MaxActionTime := 5033165 / 16777216, bHasFinished := false }

end UECFTimelineLinearColor

/-! ## Action settings: constructors and preset macros -/

namespace FECFActionSettings

/-- The default constructor `FECFActionSettings()` with its member initialiser list. -/
def Default : FECFActionSettings :=
  { TickInterval := 0, FirstDelay := 0, bIgnorePause := false,
    bIgnoreGlobalTimeDilation := false, bStartPaused := false }

/-- The five-argument constructor
`FECFActionSettings(InTickInterval, InFirstDelay, InIgnorePause, InIgnoreTimeDilation,
InStartPaused)` with its member initialiser list. -/
def Construct (InTickInterval InFirstDelay : ℚ)
    (InIgnorePause InIgnoreTimeDilation InStartPaused : Bool) : FECFActionSettings :=
  { TickInterval := InTickInterval, FirstDelay := InFirstDelay, bIgnorePause := InIgnorePause,
    bIgnoreGlobalTimeDilation := InIgnoreTimeDilation, bStartPaused := InStartPaused }

end FECFActionSettings

/-- The macro `ECF_TICKINTERVAL(_Interval)`. -/
def ECF_TICKINTERVAL (Interval : ℚ) : FECFActionSettings :=
  FECFActionSettings.Construct Interval 0 false false false

/-- The macro `ECF_DELAYFIRST(_Delay)`. -/
def ECF_DELAYFIRST (Delay : ℚ) : FECFActionSettings :=
  FECFActionSettings.Construct 0 Delay false false false

/-- The macro `ECF_IGNOREPAUSE`. -/
def ECF_IGNOREPAUSE : FECFActionSettings :=
  FECFActionSettings.Construct 0 0 true false false

/-- The macro `ECF_IGNORETIMEDILATION`. -/
def ECF_IGNORETIMEDILATION : FECFActionSettings :=
  FECFActionSettings.Construct 0 0 false true false

/-- The macro `ECF_IGNOREPAUSEDILATION`. -/
def ECF_IGNOREPAUSEDILATION : FECFActionSettings :=
  FECFActionSettings.Construct 0 0 true true false

/-- The macro `ECF_STARTPAUSED`. -/
def ECF_STARTPAUSED : FECFActionSettings :=
  FECFActionSettings.Construct 0 0 false false true

/-! ## The facade `FEnhancedCodeFlow` (`FFlow`) of EnhancedCodeFlow.cpp -/

/-- The subsystem object as EnhancedCodeFlow.cpp uses it: the members declared in
ECFSubsystem.h together with the global pause flag `bIsECFPaused`, which the facade reads and
writes although the header among the sources does not declare it. -/
structure UECFSubsystemObject (P : Type) where
  Declared : UECFSubsystem P
  bIsECFPaused : Bool

/-- The action classes named in EnhancedCodeFlow.cpp, as arguments of
`RemoveActionsOfClass<T>` (that is `T::StaticClass()`). -/
inductive ECFActionClass where
  | UECFTicker
  | UECFTicker_WithHandle
  | UECFDelay
  | UECFDelayTicks
  | UECFWaitAndExecute
  | UECFWaitAndExecute_WithDeltaTime
  | UECFWhileTrueExecute
  | UECFTimeline
  | UECFCustomTimeline
  | UECFTimeLock
  | UECFDoOnce
  | UECFDoNTimes
  | UECFDoNoMoreThanXTime
  | UECFWaitSeconds
  | UECFWaitTicks
  | UECFWaitUntil
deriving DecidableEq, Repr

/-- Everything EnhancedCodeFlow.cpp calls that is not defined among the sources, taken as
parameters: the resolution `UECFSubsystem::Get` of a world context object (a `UObject*`,
`none` being `nullptr`) to a subsystem object (`none` being `nullptr`), the
default-constructed `FECFInstanceId()`, the subsystem methods whose bodies are in
ECFSubsystem.cpp, and the action classes with their `Setup` argument lists. `F` is the type of
the function values (`TUniqueFunction`) handed through. A `Handle&` parameter is modelled by
returning the handle afterwards, the `bool& bIsPaused` parameter likewise. -/
structure ECFExternals (F P : Type) where
  Get : Option Nat → Option Nat
  DefaultInstanceId : Int
  GetInstancedAction : UECFSubsystem P → Int → FECFHandle
  HasAction : UECFSubsystemObject P → FECFHandle → Bool
  PauseAction : UECFSubsystemObject P → FECFHandle → UECFSubsystemObject P
  ResumeAction : UECFSubsystemObject P → FECFHandle → UECFSubsystemObject P
  IsActionPaused : UECFSubsystemObject P → FECFHandle → Bool → Bool × Bool
  RemoveAction : UECFSubsystemObject P → FECFHandle → Bool → UECFSubsystemObject P × FECFHandle
  RemoveInstancedAction : UECFSubsystemObject P → Int → Bool → UECFSubsystemObject P
  RemoveAllActions : UECFSubsystemObject P → Bool → Option Nat → UECFSubsystemObject P
  RemoveActionsOfClass :
    UECFSubsystemObject P → ECFActionClass → Bool → Option Nat → UECFSubsystemObject P
  UECFTicker : ActionClass (ℚ × F × F) P
  UECFTicker_WithHandle : ActionClass (ℚ × F × F) P
  UECFDelay : ActionClass (ℚ × F) P
  UECFDelayTicks : ActionClass (Int × F) P
  UECFWaitAndExecute : ActionClass (F × F × ℚ) P
  UECFWaitAndExecute_WithDeltaTime : ActionClass (F × F × ℚ) P
  UECFWhileTrueExecute : ActionClass (F × F × F × ℚ) P
  UECFTimeline : ActionClass (ℚ × ℚ × ℚ × F × F × EECFBlendFunc × ℚ) P
  UECFCustomTimeline : ActionClass (Option Nat × F × F) P
  UECFTimeLock : ActionClass (ℚ × F) P
  UECFDoOnce : ActionClass F P
  UECFDoNTimes : ActionClass (Nat × F) P
  UECFDoNoMoreThanXTime : ActionClass (F × ℚ × Int) P

/-- Modelled from the spec: what `UECFSubsystem::RemoveAction` (declared in ECFSubsystem.h,
its body is in ECFSubsystem.cpp, not among the sources) does to its `HandleId` reference
parameter: "Invalidates the caller's handle (set to sentinel) as an out-parameter", whether
or not the handle identified an action. -/
def RemoveActionInvalidates {F P : Type} (E : ECFExternals F P) : Prop :=
  ∀ (s : UECFSubsystemObject P) (h : FECFHandle) (b : Bool),
    (E.RemoveAction s h b).2.IsValid = false

/-- The subsystem objects of the running process, by identity. -/
abbrev ECFWorld (P : Type) : Type := Nat → UECFSubsystemObject P

namespace FEnhancedCodeFlow

variable {F P Args : Type}

/-- The call `ECF->AddAction<T>(InOwner, Settings, InstanceId, Args...)` on the subsystem
object `ECF`: the world afterwards and the handle returned. -/
def CallAddAction (E : ECFExternals F P) (T : ActionClass Args P) (World : ECFWorld P)
    (ECF : Nat) (InOwner : Option Nat) (Settings : FECFActionSettings) (InstanceId : Int)
    (args : Args) : ECFWorld P × FECFHandle :=
  let Added := UECFSubsystem.AddAction E.GetInstancedAction T (World ECF).Declared InOwner
    Settings InstanceId args
  (Function.update World ECF { World ECF with Declared := Added.Subsystem }, Added.Result)

/-- The function `FFlow::IsActionRunning`. -/
def IsActionRunning (E : ECFExternals F P) (World : ECFWorld P)
    (WorldContextObject : Option Nat) (Handle : FECFHandle) : Bool :=
  match E.Get WorldContextObject with
  | some ECF => E.HasAction (World ECF) Handle
  | none => false

/-- The function `FEnhancedCodeFlow::PauseAction`. -/
def PauseAction (E : ECFExternals F P) (World : ECFWorld P)
    (WorldContextObject : Option Nat) (Handle : FECFHandle) : ECFWorld P :=
  match E.Get WorldContextObject with
  | some ECF => Function.update World ECF (E.PauseAction (World ECF) Handle)
  | none => World

/-- The function `FEnhancedCodeFlow::ResumeAction`. -/
def ResumeAction (E : ECFExternals F P) (World : ECFWorld P)
    (WorldContextObject : Option Nat) (Handle : FECFHandle) : ECFWorld P :=
  match E.Get WorldContextObject with
  | some ECF => Function.update World ECF (E.ResumeAction (World ECF) Handle)
  | none => World

/-- The function `FEnhancedCodeFlow::IsActionPaused`: the value returned and the
out-parameter `bIsPaused` afterwards. -/
def IsActionPaused (E : ECFExternals F P) (World : ECFWorld P)
    (WorldContextObject : Option Nat) (Handle : FECFHandle) (bIsPaused : Bool) : Bool × Bool :=
  match E.Get WorldContextObject with
  | some ECF => E.IsActionPaused (World ECF) Handle bIsPaused
  | none => (false, bIsPaused)

/-- The function `FEnhancedCodeFlow::SetPause`. -/
def SetPause (E : ECFExternals F P) (World : ECFWorld P) (WorldContextObject : Option Nat)
    (bPaused : Bool) : ECFWorld P :=
  match E.Get WorldContextObject with
  | some ECF => Function.update World ECF { World ECF with bIsECFPaused := bPaused }
  | none => World

/-- The function `FEnhancedCodeFlow::GetPause`. -/
def GetPause (E : ECFExternals F P) (World : ECFWorld P) (WorldContextObject : Option Nat) :
    Bool :=
  match E.Get WorldContextObject with
  | some ECF => (World ECF).bIsECFPaused
  | none => false

/-- The function `FFlow::StopAction`: the world afterwards and the caller's `Handle`
afterwards. -/
def StopAction (E : ECFExternals F P) (World : ECFWorld P) (WorldContextObject : Option Nat)
    (Handle : FECFHandle) (bComplete : Bool) : ECFWorld P × FECFHandle :=
  match E.Get WorldContextObject with
  | some ECF =>
    (Function.update World ECF (E.RemoveAction (World ECF) Handle bComplete).1,
      (E.RemoveAction (World ECF) Handle bComplete).2)
  | none => (World, Handle)

/-- The function `FEnhancedCodeFlow::StopInstancedAction`. -/
def StopInstancedAction (E : ECFExternals F P) (World : ECFWorld P)
    (WorldContextObject : Option Nat) (InstanceId : Int) (bComplete : Bool) : ECFWorld P :=
  match E.Get WorldContextObject with
  | some ECF =>
    Function.update World ECF (E.RemoveInstancedAction (World ECF) InstanceId bComplete)
  | none => World

/-- The function `FFlow::StopAllActions`. -/
def StopAllActions (E : ECFExternals F P) (World : ECFWorld P)
    (WorldContextObject : Option Nat) (bComplete : Bool) (InOwner : Option Nat) : ECFWorld P :=
  match E.Get WorldContextObject with
  | some ECF => Function.update World ECF (E.RemoveAllActions (World ECF) bComplete InOwner)
  | none => World

/-- The body shared by the `RemoveAll...` functions that remove the actions of one class:
`if (ECF = Get(WorldContextObject)) ECF->RemoveActionsOfClass<T>(bComplete, InOwner);`. -/
def RemoveAllOfClass (E : ECFExternals F P) (World : ECFWorld P)
    (WorldContextObject : Option Nat) (T : ECFActionClass) (bComplete : Bool)
    (InOwner : Option Nat) : ECFWorld P :=
  match E.Get WorldContextObject with
  | some ECF =>
    Function.update World ECF (E.RemoveActionsOfClass (World ECF) T bComplete InOwner)
  | none => World

/-- The function `FFlow::AddTicker(InOwner, InTickingTime, InTickFunc, InCallbackFunc,
Settings)` whose tick function takes the delta time. -/
def AddTicker_Time (E : ECFExternals F P) (World : ECFWorld P) (InOwner : Option Nat)
    (InTickingTime : ℚ) (InTickFunc InCallbackFunc : F) (Settings : FECFActionSettings) :
    ECFWorld P × FECFHandle :=
  match E.Get InOwner with
  | some ECF =>
    CallAddAction E E.UECFTicker World ECF InOwner Settings E.DefaultInstanceId
      (InTickingTime, InTickFunc, InCallbackFunc)
  | none => (World, FECFHandle.Invalid)

/-- The function `FFlow::AddTicker(InOwner, InTickFunc, InCallbackFunc, Settings)` whose tick
function takes the delta time. -/
def AddTicker (E : ECFExternals F P) (World : ECFWorld P) (InOwner : Option Nat)
    (InTickFunc InCallbackFunc : F) (Settings : FECFActionSettings) : ECFWorld P × FECFHandle :=
  AddTicker_Time E World InOwner (-1) InTickFunc InCallbackFunc Settings

/-- The function `FFlow::AddTicker(InOwner, InTickingTime, InTickFunc, InCallbackFunc,
Settings)` whose tick function takes the delta time and the ticker's handle. -/
def AddTicker_Time_WithHandle (E : ECFExternals F P) (World : ECFWorld P)
    (InOwner : Option Nat) (InTickingTime : ℚ) (InTickFunc InCallbackFunc : F)
    (Settings : FECFActionSettings) : ECFWorld P × FECFHandle :=
  match E.Get InOwner with
  | some ECF =>
    CallAddAction E E.UECFTicker_WithHandle World ECF InOwner Settings E.DefaultInstanceId
      (InTickingTime, InTickFunc, InCallbackFunc)
  | none => (World, FECFHandle.Invalid)

/-- The function `FFlow::AddTicker(InOwner, InTickFunc, InCallbackFunc, Settings)` whose tick
function takes the delta time and the ticker's handle. -/
def AddTicker_WithHandle (E : ECFExternals F P) (World : ECFWorld P) (InOwner : Option Nat)
    (InTickFunc InCallbackFunc : F) (Settings : FECFActionSettings) : ECFWorld P × FECFHandle :=
  AddTicker_Time_WithHandle E World InOwner (-1) InTickFunc InCallbackFunc Settings

/-- The function `FFlow::RemoveAllTickers`. -/
def RemoveAllTickers (E : ECFExternals F P) (World : ECFWorld P)
    (WorldContextObject : Option Nat) (bComplete : Bool) (InOwner : Option Nat) : ECFWorld P :=
  match E.Get WorldContextObject with
  | some ECF =>
    Function.update World ECF
      (E.RemoveActionsOfClass
        (E.RemoveActionsOfClass (World ECF) .UECFTicker bComplete InOwner)
        .UECFTicker_WithHandle bComplete InOwner)
  | none => World

/-- The function `FFlow::Delay`. -/
def Delay (E : ECFExternals F P) (World : ECFWorld P) (InOwner : Option Nat)
    (InDelayTime : ℚ) (InCallbackFunc : F) (Settings : FECFActionSettings) :
    ECFWorld P × FECFHandle :=
  match E.Get InOwner with
  | some ECF =>
    CallAddAction E E.UECFDelay World ECF InOwner Settings E.DefaultInstanceId
      (InDelayTime, InCallbackFunc)
  | none => (World, FECFHandle.Invalid)

/-- The function `FFlow::RemoveAllDelays`. -/
def RemoveAllDelays (E : ECFExternals F P) (World : ECFWorld P)
    (WorldContextObject : Option Nat) (bComplete : Bool) (InOwner : Option Nat) : ECFWorld P :=
  RemoveAllOfClass E World WorldContextObject .UECFDelay bComplete InOwner

/-- The function `FEnhancedCodeFlow::DelayTicks`. -/
def DelayTicks (E : ECFExternals F P) (World : ECFWorld P) (InOwner : Option Nat)
    (InDelayTicks : Int) (InCallbackFunc : F) (Settings : FECFActionSettings) :
    ECFWorld P × FECFHandle :=
  match E.Get InOwner with
  | some ECF =>
    CallAddAction E E.UECFDelayTicks World ECF InOwner Settings E.DefaultInstanceId
      (InDelayTicks, InCallbackFunc)
  | none => (World, FECFHandle.Invalid)

/-- The function `FEnhancedCodeFlow::RemoveAllDelayTicks`. -/
def RemoveAllDelayTicks (E : ECFExternals F P) (World : ECFWorld P)
    (WorldContextObject : Option Nat) (bComplete : Bool) (InOwner : Option Nat) : ECFWorld P :=
  RemoveAllOfClass E World WorldContextObject .UECFDelayTicks bComplete InOwner

/-- The function `FFlow::WaitAndExecute` whose predicate takes no argument. -/
def WaitAndExecute (E : ECFExternals F P) (World : ECFWorld P) (InOwner : Option Nat)
    (InPredicate InCallbackFunc : F) (InTimeOut : ℚ) (Settings : FECFActionSettings) :
    ECFWorld P × FECFHandle :=
  match E.Get InOwner with
  | some ECF =>
    CallAddAction E E.UECFWaitAndExecute World ECF InOwner Settings E.DefaultInstanceId
      (InPredicate, InCallbackFunc, InTimeOut)
  | none => (World, FECFHandle.Invalid)

/-- The function `FFlow::WaitAndExecute` whose predicate takes the delta time. -/
def WaitAndExecute_WithDeltaTime (E : ECFExternals F P) (World : ECFWorld P)
    (InOwner : Option Nat) (InPredicate InCallbackFunc : F) (InTimeOut : ℚ)
    (Settings : FECFActionSettings) : ECFWorld P × FECFHandle :=
  match E.Get InOwner with
  | some ECF =>
    CallAddAction E E.UECFWaitAndExecute_WithDeltaTime World ECF InOwner Settings
      E.DefaultInstanceId (InPredicate, InCallbackFunc, InTimeOut)
  | none => (World, FECFHandle.Invalid)

/-- The function `FFlow::RemoveAllWaitAndExecutes`. -/
def RemoveAllWaitAndExecutes (E : ECFExternals F P) (World : ECFWorld P)
    (WorldContextObject : Option Nat) (bComplete : Bool) (InOwner : Option Nat) : ECFWorld P :=
  match E.Get WorldContextObject with
  | some ECF =>
    Function.update World ECF
      (E.RemoveActionsOfClass
        (E.RemoveActionsOfClass (World ECF) .UECFWaitAndExecute bComplete InOwner)
        .UECFWaitAndExecute_WithDeltaTime bComplete InOwner)
  | none => World

/-- The function `FFlow::WhileTrueExecute`. -/
def WhileTrueExecute (E : ECFExternals F P) (World : ECFWorld P) (InOwner : Option Nat)
    (InPredicate InTickFunc InCompleteFunc : F) (InTimeOut : ℚ)
    (Settings : FECFActionSettings) : ECFWorld P × FECFHandle :=
  match E.Get InOwner with
  | some ECF =>
    CallAddAction E E.UECFWhileTrueExecute World ECF InOwner Settings E.DefaultInstanceId
      (InPredicate, InTickFunc, InCompleteFunc, InTimeOut)
  | none => (World, FECFHandle.Invalid)

/-- The function `FFlow::RemoveAllWhileTrueExecutes`. -/
def RemoveAllWhileTrueExecutes (E : ECFExternals F P) (World : ECFWorld P)
    (WorldContextObject : Option Nat) (bComplete : Bool) (InOwner : Option Nat) : ECFWorld P :=
  RemoveAllOfClass E World WorldContextObject .UECFWhileTrueExecute bComplete InOwner

/-- The function `FFlow::AddTimeline`. -/
def AddTimeline (E : ECFExternals F P) (World : ECFWorld P) (InOwner : Option Nat)
    (InStartValue InStopValue InTime : ℚ) (InTickFunc InCallbackFunc : F)
    (InBlendFunc : EECFBlendFunc) (InBlendExp : ℚ) (Settings : FECFActionSettings) :
    ECFWorld P × FECFHandle :=
  match E.Get InOwner with
  | some ECF =>
    CallAddAction E E.UECFTimeline World ECF InOwner Settings E.DefaultInstanceId
      (InStartValue, InStopValue, InTime, InTickFunc, InCallbackFunc, InBlendFunc, InBlendExp)
  | none => (World, FECFHandle.Invalid)

/-- The function `FFlow::RemoveAllTimelines`. -/
def RemoveAllTimelines (E : ECFExternals F P) (World : ECFWorld P)
    (WorldContextObject : Option Nat) (bComplete : Bool) (InOwner : Option Nat) : ECFWorld P :=
  RemoveAllOfClass E World WorldContextObject .UECFTimeline bComplete InOwner

/-- The function `FFlow::AddCustomTimeline`; `CurveFloat` is the `UCurveFloat*`. -/
def AddCustomTimeline (E : ECFExternals F P) (World : ECFWorld P) (InOwner : Option Nat)
    (CurveFloat : Option Nat) (InTickFunc InCallbackFunc : F) (Settings : FECFActionSettings) :
    ECFWorld P × FECFHandle :=
  match E.Get InOwner with
  | some ECF =>
    CallAddAction E E.UECFCustomTimeline World ECF InOwner Settings E.DefaultInstanceId
      (CurveFloat, InTickFunc, InCallbackFunc)
  | none => (World, FECFHandle.Invalid)

/-- The function `FFlow::RemoveAllCustomTimelines`. -/
def RemoveAllCustomTimelines (E : ECFExternals F P) (World : ECFWorld P)
    (WorldContextObject : Option Nat) (bComplete : Bool) (InOwner : Option Nat) : ECFWorld P :=
  RemoveAllOfClass E World WorldContextObject .UECFCustomTimeline bComplete InOwner

/-- The function `FEnhancedCodeFlow::TimeLock`. -/
def TimeLock (E : ECFExternals F P) (World : ECFWorld P) (InOwner : Option Nat)
    (InLockTime : ℚ) (InExecFunc : F) (InstanceId : Int) (Settings : FECFActionSettings) :
    ECFWorld P × FECFHandle :=
  match E.Get InOwner with
  | some ECF =>
    CallAddAction E E.UECFTimeLock World ECF InOwner Settings InstanceId
      (InLockTime, InExecFunc)
  | none => (World, FECFHandle.Invalid)

/-- The function `FEnhancedCodeFlow::RemoveAllTimeLocks`. -/
def RemoveAllTimeLocks (E : ECFExternals F P) (World : ECFWorld P)
    (WorldContextObject : Option Nat) (InOwner : Option Nat) : ECFWorld P :=
  RemoveAllOfClass E World WorldContextObject .UECFTimeLock false InOwner

/-- The function `FEnhancedCodeFlow::DoOnce`; the settings argument `{}` is a
default-constructed `FECFActionSettings`. -/
def DoOnce (E : ECFExternals F P) (World : ECFWorld P) (InOwner : Option Nat)
    (InExecFunc : F) (InstanceId : Int) : ECFWorld P × FECFHandle :=
  match E.Get InOwner with
  | some ECF =>
    CallAddAction E E.UECFDoOnce World ECF InOwner FECFActionSettings.Default InstanceId
      InExecFunc
  | none => (World, FECFHandle.Invalid)

/-- The function `FEnhancedCodeFlow::RemoveAllDoOnce`. -/
def RemoveAllDoOnce (E : ECFExternals F P) (World : ECFWorld P)
    (WorldContextObject : Option Nat) (InOwner : Option Nat) : ECFWorld P :=
  RemoveAllOfClass E World WorldContextObject .UECFDoOnce false InOwner

/-- The function `FEnhancedCodeFlow::DoNTimes`; `InTimes` is a `uint32`. -/
def DoNTimes (E : ECFExternals F P) (World : ECFWorld P) (InOwner : Option Nat)
    (InTimes : Nat) (InExecFunc : F) (InstanceId : Int) : ECFWorld P × FECFHandle :=
  match E.Get InOwner with
  | some ECF =>
    CallAddAction E E.UECFDoNTimes World ECF InOwner FECFActionSettings.Default InstanceId
      (InTimes, InExecFunc)
  | none => (World, FECFHandle.Invalid)

/-- The function `FEnhancedCodeFlow::RemoveAllDoNTimes`. -/
def RemoveAllDoNTimes (E : ECFExternals F P) (World : ECFWorld P)
    (WorldContextObject : Option Nat) (InOwner : Option Nat) : ECFWorld P :=
  RemoveAllOfClass E World WorldContextObject .UECFDoNTimes false InOwner

/-- The function `FEnhancedCodeFlow::DoNoMoreThanXTime`. -/
def DoNoMoreThanXTime (E : ECFExternals F P) (World : ECFWorld P) (InOwner : Option Nat)
    (InExecFunc : F) (InTime : ℚ) (InMaxExecsEnqueue : Int) (InstanceId : Int)
    (Settings : FECFActionSettings) : ECFWorld P × FECFHandle :=
  match E.Get InOwner with
  | some ECF =>
    CallAddAction E E.UECFDoNoMoreThanXTime World ECF InOwner Settings InstanceId
      (InExecFunc, InTime, InMaxExecsEnqueue)
  | none => (World, FECFHandle.Invalid)

/-- The function `FEnhancedCodeFlow::RemoveAllDoNoMoreThanXTimes`. -/
def RemoveAllDoNoMoreThanXTimes (E : ECFExternals F P) (World : ECFWorld P)
    (WorldContextObject : Option Nat) (InOwner : Option Nat) : ECFWorld P :=
  RemoveAllOfClass E World WorldContextObject .UECFDoNoMoreThanXTime false InOwner

/-- The function `FEnhancedCodeFlow::RemoveAllWaitSeconds`. -/
def RemoveAllWaitSeconds (E : ECFExternals F P) (World : ECFWorld P)
    (WorldContextObject : Option Nat) (InOwner : Option Nat) : ECFWorld P :=
  RemoveAllOfClass E World WorldContextObject .UECFWaitSeconds false InOwner

/-- The function `FEnhancedCodeFlow::RemoveAllWaitTicks`. -/
def RemoveAllWaitTicks (E : ECFExternals F P) (World : ECFWorld P)
    (WorldContextObject : Option Nat) (InOwner : Option Nat) : ECFWorld P :=
  RemoveAllOfClass E World WorldContextObject .UECFWaitTicks false InOwner

/-- The function `FEnhancedCodeFlow::RemoveAllWaitUntil`. -/
def RemoveAllWaitUntil (E : ECFExternals F P) (World : ECFWorld P)
    (WorldContextObject : Option Nat) (InOwner : Option Nat) : ECFWorld P :=
  RemoveAllOfClass E World WorldContextObject .UECFWaitUntil false InOwner

end FEnhancedCodeFlow

/-! ## Sample externals for concrete evaluations of the facade -/

/-- A sample action class whose `Setup` always succeeds and changes nothing. -/
def AlwaysSetUp (A : Type) : ActionClass A Nat :=
  { NewObject := 0, Setup := fun _ a => (true, a.Payload), Init := fun a => a.Payload }

/-- Sample externals: the object 1 resolves to the subsystem object 0 and no other object
resolves; `RemoveAction` drops the action with the given handle and invalidates the handle;
the instance id 0 is the default one. -/
def SampleExternals : ECFExternals Nat Nat :=
  { Get := fun o => if o = some 1 then some 0 else none,
    DefaultInstanceId := 0,
    GetInstancedAction := UECFSubsystem.GetInstancedAction (fun i => i != 0),
    HasAction := fun s h =>
      (UECFSubsystem.HeldActions s.Declared).any (fun a => a.HandleId == h),
    PauseAction := fun s _ => s,
    ResumeAction := fun s _ => s,
    IsActionPaused := fun s h _ =>
      ((UECFSubsystem.HeldActions s.Declared).any (fun a => a.HandleId == h), false),
    RemoveAction := fun s h _ =>
      ({ s with Declared := { s.Declared with
          Actions := s.Declared.Actions.filter (fun a => a.HandleId != h),
          PendingAddActions := s.Declared.PendingAddActions.filter (fun a => a.HandleId != h) } },
        FECFHandle.Invalid),
    RemoveInstancedAction := fun s i _ =>
      { s with Declared := { s.Declared with
          Actions := s.Declared.Actions.filter (fun a => a.InstanceId != i),
          PendingAddActions := s.Declared.PendingAddActions.filter (fun a => a.InstanceId != i) } },
    RemoveAllActions := fun s _ _ =>
      { s with Declared := { s.Declared with Actions := [], PendingAddActions := [] } },
    RemoveActionsOfClass := fun s _ _ _ => s,
    UECFTicker := AlwaysSetUp _,
    UECFTicker_WithHandle := AlwaysSetUp _,
    UECFDelay := AlwaysSetUp _,
    UECFDelayTicks := AlwaysSetUp _,
    UECFWaitAndExecute := AlwaysSetUp _,
    UECFWaitAndExecute_WithDeltaTime := AlwaysSetUp _,
    UECFWhileTrueExecute := AlwaysSetUp _,
    UECFTimeline := AlwaysSetUp _,
    UECFCustomTimeline := AlwaysSetUp _,
    UECFTimeLock := AlwaysSetUp _,
    UECFDoOnce := AlwaysSetUp _,
    UECFDoNTimes := AlwaysSetUp _,
    UECFDoNoMoreThanXTime := AlwaysSetUp _ }

/-- A sample world: every subsystem object is the sample subsystem, not paused. -/
def SampleWorld : ECFWorld Nat :=
  fun _ => { Declared := UECFSubsystem.SampleSubsystem, bIsECFPaused := false }

/-! ## Theorems -/

namespace UECFSubsystem

variable {Args P : Type}

/-- Unfolding of `AddAction` on the early-return path. -/
theorem AddAction_of_found (G : UECFSubsystem P → Int → FECFHandle) (T : ActionClass Args P)
    (self : UECFSubsystem P) (InOwner : Option Nat) (Settings : FECFActionSettings)
    (InstanceId : Int) (args : Args) (hLookup : (G self InstanceId).IsValid = true) :
    AddAction G T self InOwner Settings InstanceId args
      = { Result := G self InstanceId, Subsystem := self, Calls := [] } := by
  simp only [AddAction, hLookup, if_true]

/-- Unfolding of `AddAction` on the path where `Setup` returns true. -/
theorem AddAction_of_setup_true (G : UECFSubsystem P → Int → FECFHandle) (T : ActionClass Args P)
    (self : UECFSubsystem P) (InOwner : Option Nat) (Settings : FECFActionSettings)
    (InstanceId : Int) (args : Args) (hLookup : (G self InstanceId).IsValid = false)
    (hSetup : (T.Setup args (NewAction T self InOwner Settings InstanceId)).1 = true) :
    AddAction G T self InOwner Settings InstanceId args
      = { Result := self.LastHandleId.Increment,
          Subsystem :=
            { Actions := self.Actions,
              PendingAddActions :=
                self.PendingAddActions ++ [InitAction T self InOwner Settings InstanceId args],
              LastHandleId := self.LastHandleId.Increment },
          Calls := [.NewObject, .SetAction, .Setup, .Init] } := by
  simp only [AddAction, hLookup, hSetup, Bool.false_eq_true, if_false, if_true]
  rfl

/-- Unfolding of `AddAction` on the path where `Setup` returns false. -/
theorem AddAction_of_setup_false (G : UECFSubsystem P → Int → FECFHandle) (T : ActionClass Args P)
    (self : UECFSubsystem P) (InOwner : Option Nat) (Settings : FECFActionSettings)
    (InstanceId : Int) (args : Args) (hLookup : (G self InstanceId).IsValid = false)
    (hSetup : (T.Setup args (NewAction T self InOwner Settings InstanceId)).1 = false) :
    AddAction G T self InOwner Settings InstanceId args
      = { Result := FECFHandle.Invalid,
          Subsystem :=
            { Actions := self.Actions, PendingAddActions := self.PendingAddActions,
              LastHandleId := self.LastHandleId.Increment },
          Calls := [.NewObject, .SetAction, .Setup] } := by
  simp only [AddAction, hLookup, hSetup, Bool.false_eq_true, if_false]

/-- Without exhaustion the incremented counter is the successor. -/
theorem Increment_Handle_of_lt (h : FECFHandle) (hlt : h.Handle + 1 < 2 ^ 64) :
    h.Increment.Handle = h.Handle + 1 := by
  simp only [FECFHandle.Increment]
  exact Nat.mod_eq_of_lt hlt

/-- C1 (as amended): when the instance lookup returns an invalid handle, Setup succeeds and
the counter is not exhausted, `AddAction` returns a valid handle equal to the previous
`LastHandleId` plus one, the new action carries that handle (and the given owner, instance id
and settings) and is appended as the last element of `PendingAddActions`, `Actions` is
unchanged and `LastHandleId` becomes the returned handle. -/
theorem AddAction_setup_success (G : UECFSubsystem P → Int → FECFHandle) (T : ActionClass Args P)
    (self : UECFSubsystem P) (InOwner : Option Nat) (Settings : FECFActionSettings)
    (InstanceId : Int) (args : Args)
    (hLookup : (G self InstanceId).IsValid = false)
    (hSetup : (T.Setup args (NewAction T self InOwner Settings InstanceId)).1 = true)
    (hCounter : self.LastHandleId.Handle + 1 < 2 ^ 64) :
    (AddAction G T self InOwner Settings InstanceId args).Result.IsValid = true ∧
    (AddAction G T self InOwner Settings InstanceId args).Result.Handle
      = self.LastHandleId.Handle + 1 ∧
    (InitAction T self InOwner Settings InstanceId args).HandleId
      = (AddAction G T self InOwner Settings InstanceId args).Result ∧
    (InitAction T self InOwner Settings InstanceId args).Owner = InOwner ∧
    (InitAction T self InOwner Settings InstanceId args).InstanceId = InstanceId ∧
    (InitAction T self InOwner Settings InstanceId args).Settings = Settings ∧
    (AddAction G T self InOwner Settings InstanceId args).Subsystem.PendingAddActions
      = self.PendingAddActions ++ [InitAction T self InOwner Settings InstanceId args] ∧
    (AddAction G T self InOwner Settings InstanceId args).Subsystem.PendingAddActions.getLast?
      = some (InitAction T self InOwner Settings InstanceId args) ∧
    (AddAction G T self InOwner Settings InstanceId args).Subsystem.Actions = self.Actions ∧
    (AddAction G T self InOwner Settings InstanceId args).Subsystem.LastHandleId
      = (AddAction G T self InOwner Settings InstanceId args).Result := by
  rw [AddAction_of_setup_true G T self InOwner Settings InstanceId args hLookup hSetup]
  have hinc := Increment_Handle_of_lt self.LastHandleId hCounter
  refine ⟨?_, hinc, rfl, rfl, rfl, rfl, rfl, ?_, rfl, rfl⟩
  · simp [FECFHandle.IsValid, hinc]
  · simp

/-- Witness for C1: a successful add on the sample subsystem returns handle 4. -/
theorem AddAction_setup_success_witness :
    (AddAction (fun _ _ => FECFHandle.Invalid) SampleClass SampleSubsystem (some 5) {} 0
      true).Result.Handle = 4 ∧
    (AddAction (fun _ _ => FECFHandle.Invalid) SampleClass SampleSubsystem (some 5) {} 0
      true).Subsystem.Actions = SampleSubsystem.Actions :=
  have h := AddAction_setup_success (fun _ _ => FECFHandle.Invalid) SampleClass SampleSubsystem
    (some 5) {} 0 true rfl rfl (by decide)
  ⟨h.2.1, h.2.2.2.2.2.2.2.2.1⟩

/-- Counterexample to C1 as stated (every subsystem state): with the `uint64` counter at its
last value the lookup finds nothing and Setup succeeds, yet the handle returned is the
zero sentinel, not a valid handle, and not the previous `LastHandleId` plus one. -/
theorem AddAction_setup_success_counterexample :
    ((fun (_ : UECFSubsystem Nat) (_ : Int) => FECFHandle.Invalid) Exhausted 0).IsValid = false ∧
    (SampleClass.Setup true (NewAction SampleClass Exhausted none {} 0)).1 = true ∧
    (AddAction (fun _ _ => FECFHandle.Invalid) SampleClass Exhausted none {} 0 true).Result.IsValid
      = false ∧
    (AddAction (fun _ _ => FECFHandle.Invalid) SampleClass Exhausted none {} 0 true).Result.Handle
      ≠ Exhausted.LastHandleId.Handle + 1 := by
  have h := AddAction_of_setup_true (fun _ _ => FECFHandle.Invalid) SampleClass Exhausted none
    {} 0 true rfl rfl
  rw [h]
  exact ⟨rfl, rfl, by decide, by decide⟩

/-- C2: when the instance lookup finds nothing and Setup fails, `AddAction` returns an invalid
handle and no action is created: `PendingAddActions` and `Actions` are what they were before
the call (and `Init` is never called). -/
theorem AddAction_setup_failure (G : UECFSubsystem P → Int → FECFHandle) (T : ActionClass Args P)
    (self : UECFSubsystem P) (InOwner : Option Nat) (Settings : FECFActionSettings)
    (InstanceId : Int) (args : Args)
    (hLookup : (G self InstanceId).IsValid = false)
    (hSetup : (T.Setup args (NewAction T self InOwner Settings InstanceId)).1 = false) :
    (AddAction G T self InOwner Settings InstanceId args).Result.IsValid = false ∧
    (AddAction G T self InOwner Settings InstanceId args).Subsystem.PendingAddActions
      = self.PendingAddActions ∧
    (AddAction G T self InOwner Settings InstanceId args).Subsystem.Actions = self.Actions ∧
    AddActionCall.Init ∉ (AddAction G T self InOwner Settings InstanceId args).Calls := by
  rw [AddAction_of_setup_false G T self InOwner Settings InstanceId args hLookup hSetup]
  exact ⟨rfl, rfl, rfl, by simp⟩

/-- Witness for C2: a failing Setup on the sample subsystem. -/
theorem AddAction_setup_failure_witness :
    (AddAction (fun _ _ => FECFHandle.Invalid) SampleClass SampleSubsystem (some 5) {} 0
      false).Result.IsValid = false ∧
    (AddAction (fun _ _ => FECFHandle.Invalid) SampleClass SampleSubsystem (some 5) {} 0
      false).Subsystem.PendingAddActions = SampleSubsystem.PendingAddActions :=
  have h := AddAction_setup_failure (fun _ _ => FECFHandle.Invalid) SampleClass SampleSubsystem
    (some 5) {} 0 false rfl rfl
  ⟨h.1, h.2.1⟩

/-- C3: when `GetInstancedAction(InstanceId)` returns a valid handle, `AddAction` returns
exactly that handle, makes no call on a new action (nothing is constructed, Setup does not
run), and leaves `PendingAddActions`, `Actions` and `LastHandleId` (the whole subsystem)
unchanged. -/
theorem AddAction_instance_found (G : UECFSubsystem P → Int → FECFHandle) (T : ActionClass Args P)
    (self : UECFSubsystem P) (InOwner : Option Nat) (Settings : FECFActionSettings)
    (InstanceId : Int) (args : Args)
    (hLookup : (G self InstanceId).IsValid = true) :
    (AddAction G T self InOwner Settings InstanceId args).Result = G self InstanceId ∧
    (AddAction G T self InOwner Settings InstanceId args).Calls = [] ∧
    (AddAction G T self InOwner Settings InstanceId args).Subsystem.PendingAddActions
      = self.PendingAddActions ∧
    (AddAction G T self InOwner Settings InstanceId args).Subsystem.Actions = self.Actions ∧
    (AddAction G T self InOwner Settings InstanceId args).Subsystem.LastHandleId
      = self.LastHandleId ∧
    (AddAction G T self InOwner Settings InstanceId args).Subsystem = self := by
  rw [AddAction_of_found G T self InOwner Settings InstanceId args hLookup]
  exact ⟨rfl, rfl, rfl, rfl, rfl, rfl⟩

/-- Witness for C3: instance id 7 is owned by the pending action with handle 3 of the sample
subsystem. -/
theorem AddAction_instance_found_witness :
    (AddAction (GetInstancedAction (fun i => i != 0)) SampleClass SampleSubsystem (some 5) {} 7
      true).Result = ⟨3⟩ ∧
    (AddAction (GetInstancedAction (fun i => i != 0)) SampleClass SampleSubsystem (some 5) {} 7
      true).Calls = [] :=
  have h := AddAction_instance_found (GetInstancedAction (fun i => i != 0)) SampleClass
    SampleSubsystem (some 5) {} 7 true (by decide)
  ⟨h.1.trans (by decide), h.2.1⟩

/-- The three ways a call of `AddAction` can go, as seen from the subsystem state. -/
theorem AddActionWith_cases (G : UECFSubsystem P → Int → FECFHandle) (self : UECFSubsystem P)
    (c : AddActionArgs Args P) :
    ((AddActionWith G self c).Subsystem = self ∧
      AddActionCall.Init ∉ (AddActionWith G self c).Calls) ∨
    ((AddActionWith G self c).Subsystem.LastHandleId = self.LastHandleId.Increment ∧
      (AddActionWith G self c).Subsystem.Actions = self.Actions ∧
      (AddActionWith G self c).Subsystem.PendingAddActions = self.PendingAddActions ∧
      AddActionCall.Init ∉ (AddActionWith G self c).Calls) ∨
    ((AddActionWith G self c).Subsystem.LastHandleId = self.LastHandleId.Increment ∧
      (AddActionWith G self c).Subsystem.Actions = self.Actions ∧
      (AddActionWith G self c).Subsystem.PendingAddActions.map (fun a => a.HandleId)
        = self.PendingAddActions.map (fun a => a.HandleId) ++ [self.LastHandleId.Increment] ∧
      AddActionCall.Init ∈ (AddActionWith G self c).Calls ∧
      (AddActionWith G self c).Result = self.LastHandleId.Increment) := by
  unfold AddActionWith
  cases hL : (G self c.InstanceId).IsValid with
  | true =>
    left
    rw [AddAction_of_found G c.T self c.InOwner c.Settings c.InstanceId c.args hL]
    exact ⟨rfl, by simp⟩
  | false =>
    right
    cases hS : (c.T.Setup c.args (NewAction c.T self c.InOwner c.Settings c.InstanceId)).1 with
    | false =>
      left
      rw [AddAction_of_setup_false G c.T self c.InOwner c.Settings c.InstanceId c.args hL hS]
      exact ⟨rfl, rfl, rfl, by simp⟩
    | true =>
      right
      rw [AddAction_of_setup_true G c.T self c.InOwner c.Settings c.InstanceId c.args hL hS]
      refine ⟨rfl, rfl, ?_, by simp, rfl⟩
      simp [InitAction, NewAction]

/-- Bookkeeping of the counter, the queue and the created handles along a sequence of
`AddAction` calls that does not exhaust the counter. -/
theorem AddActions_invariant (G : UECFSubsystem P → Int → FECFHandle) :
    ∀ (calls : List (AddActionArgs Args P)) (self : UECFSubsystem P),
      self.LastHandleId.Handle + calls.length < 2 ^ 64 →
      self.LastHandleId.Handle ≤ (AddActions G self calls).LastHandleId.Handle ∧
      (AddActions G self calls).LastHandleId.Handle ≤ self.LastHandleId.Handle + calls.length ∧
      (AddActions G self calls).Actions = self.Actions ∧
      (AddActions G self calls).PendingAddActions.map (fun a => a.HandleId)
        = self.PendingAddActions.map (fun a => a.HandleId) ++ CreatedHandles G self calls ∧
      ((CreatedHandles G self calls).map (fun h => h.Handle)).Pairwise (fun x y => x < y) ∧
      ∀ h ∈ CreatedHandles G self calls,
        self.LastHandleId.Handle < h.Handle ∧
        h.Handle ≤ (AddActions G self calls).LastHandleId.Handle := by
  intro calls
  induction calls with
  | nil =>
    intro self _
    simp [AddActions, CreatedHandles]
  | cons c cs ih =>
    intro self hlen
    simp only [List.length_cons] at hlen
    simp only [AddActions, CreatedHandles, List.length_cons]
    have hinc : self.LastHandleId.Increment.Handle = self.LastHandleId.Handle + 1 :=
      Increment_Handle_of_lt _ (by omega)
    rcases AddActionWith_cases G self c with ⟨hs, hno⟩ | ⟨hl, ha, hp, hno⟩ | ⟨hl, ha, hp, hyes, hr⟩
    · have := ih self (by omega)
      rw [hs, if_neg hno, List.nil_append]
      obtain ⟨h1, h2, h3, h4, h5, h6⟩ := this
      exact ⟨h1, by omega, h3, h4, h5, h6⟩
    · have := ih (AddActionWith G self c).Subsystem (by rw [hl, hinc]; omega)
      rw [hl, hinc, ha, hp] at this
      rw [if_neg hno, List.nil_append]
      obtain ⟨h1, h2, h3, h4, h5, h6⟩ := this
      refine ⟨by omega, by omega, h3, h4, h5, ?_⟩
      intro h hh
      have := h6 h hh
      omega
    · have := ih (AddActionWith G self c).Subsystem (by rw [hl, hinc]; omega)
      rw [hl, hinc, ha, hp] at this
      rw [if_pos hyes, hr]
      obtain ⟨h1, h2, h3, h4, h5, h6⟩ := this
      refine ⟨by omega, by omega, h3, ?_, ?_, ?_⟩
      · rw [h4]; simp
      · simp only [List.singleton_append, List.map_cons, List.pairwise_cons]
        refine ⟨?_, h5⟩
        intro x hx
        obtain ⟨h, hh, rfl⟩ := List.mem_map.1 hx
        have := h6 h hh
        omega
      · intro h hh
        simp only [List.singleton_append, List.mem_cons] at hh
        rcases hh with rfl | hh
        · omega
        · have := h6 h hh
          omega

/-- C4: for every finite sequence of `AddAction` calls on a fresh subsystem that does not
exhaust the 64-bit counter, the handles of the actions created are strictly increasing in
creation order, hence pairwise distinct (never reused) and valid; the pending queue holds
exactly the created actions, each with a handle not greater than `LastHandleId`; and no two
actions held by the subsystem share a handle. -/
theorem AddActions_handles_strictly_increasing (G : UECFSubsystem P → Int → FECFHandle)
    (calls : List (AddActionArgs Args P)) (hCounter : calls.length < 2 ^ 64) :
    ((CreatedHandles G Fresh calls).map (fun h => h.Handle)).Pairwise (fun x y => x < y) ∧
    (CreatedHandles G Fresh calls).Nodup ∧
    (∀ h ∈ CreatedHandles G Fresh calls, h.IsValid = true) ∧
    (AddActions G Fresh calls).PendingAddActions.map (fun a => a.HandleId)
      = CreatedHandles G Fresh calls ∧
    (∀ a ∈ (AddActions G Fresh calls).PendingAddActions,
      a.HandleId.Handle ≤ (AddActions G Fresh calls).LastHandleId.Handle) ∧
    ((HeldActions (AddActions G Fresh calls)).map (fun a => a.HandleId)).Nodup := by
  obtain ⟨_, _, hA, hP, hInc, hB⟩ := AddActions_invariant G calls Fresh
    (by simpa [Fresh, FECFHandle.Invalid] using hCounter)
  have hP2 : (AddActions G Fresh calls).PendingAddActions.map (fun a => a.HandleId)
      = CreatedHandles G Fresh calls := by
    rw [hP]; simp [Fresh]
  have hNodup : (CreatedHandles G Fresh calls).Nodup := by
    apply List.Nodup.of_map (fun h => h.Handle)
    exact hInc.imp (fun hlt => Nat.ne_of_lt hlt)
  refine ⟨hInc, hNodup, ?_, hP2, ?_, ?_⟩
  · intro h hh
    have := (hB h hh).1
    simp only [FECFHandle.IsValid, bne_iff_ne, ne_eq]
    omega
  · intro a ha
    have hmem : a.HandleId ∈ CreatedHandles G Fresh calls := by
      rw [← hP2]; exact List.mem_map.2 ⟨a, ha, rfl⟩
    exact (hB _ hmem).2
  · have hA2 : (AddActions G Fresh calls).Actions = [] := hA
    simp only [HeldActions, hA2, List.nil_append]
    rw [hP2]; exact hNodup

/-- Witness for C4: three calls, the second with a failing Setup; the created handles are
distinct. -/
theorem AddActions_handles_strictly_increasing_witness :
    SampleCalls.length < 2 ^ 64 ∧
    (CreatedHandles (fun _ _ => FECFHandle.Invalid) Fresh SampleCalls).Nodup ∧
    CreatedHandles (fun _ _ => FECFHandle.Invalid) Fresh SampleCalls = [⟨1⟩, ⟨3⟩] :=
  ⟨by decide,
   (AddActions_handles_strictly_increasing (fun _ _ => FECFHandle.Invalid) SampleCalls
      (by decide)).2.1,
   by decide⟩

/-- Counterexample to C6 as stated: on a fresh subsystem an add whose Setup fails changes the
handle counter (from 0 to 1) although no handle was handed out, and the next successful add
receives handle 2, not the handle following the last one handed out. -/
theorem AddAction_setup_failure_counter_counterexample :
    (SampleClass.Setup false (NewAction SampleClass Fresh none {} 0)).1 = false ∧
    (AddAction (fun _ _ => FECFHandle.Invalid) SampleClass Fresh none {} 0
      false).Subsystem.LastHandleId ≠ (Fresh : UECFSubsystem Nat).LastHandleId ∧
    (AddAction (fun _ _ => FECFHandle.Invalid) SampleClass
      (AddAction (fun _ _ => FECFHandle.Invalid) SampleClass Fresh none {} 0 false).Subsystem
      none {} 0 true).Result = ⟨2⟩ := by
  refine ⟨rfl, ?_, ?_⟩
  · decide
  · decide

/-- C6 (as amended): an add whose lookup finds nothing and whose Setup fails leaves
`PendingAddActions` and `Actions` unchanged and returns an invalid handle, but the handle
counter has been pre-incremented before Setup ran: `LastHandleId` afterwards is the previous
`LastHandleId` plus one (modulo `2 ^ 64`). The next add that creates an action therefore
receives the second handle after the previous `LastHandleId`, one handle being skipped. -/
theorem AddAction_setup_failure_counter (G : UECFSubsystem P → Int → FECFHandle)
    (T T2 : ActionClass Args P) (self : UECFSubsystem P) (InOwner InOwner2 : Option Nat)
    (Settings Settings2 : FECFActionSettings) (InstanceId InstanceId2 : Int) (args args2 : Args)
    (hLookup : (G self InstanceId).IsValid = false)
    (hSetup : (T.Setup args (NewAction T self InOwner Settings InstanceId)).1 = false)
    (hLookup2 : (G (AddAction G T self InOwner Settings InstanceId args).Subsystem
      InstanceId2).IsValid = false)
    (hSetup2 : (T2.Setup args2 (NewAction T2
      (AddAction G T self InOwner Settings InstanceId args).Subsystem InOwner2 Settings2
      InstanceId2)).1 = true) :
    (AddAction G T self InOwner Settings InstanceId args).Result.IsValid = false ∧
    (AddAction G T self InOwner Settings InstanceId args).Subsystem.PendingAddActions
      = self.PendingAddActions ∧
    (AddAction G T self InOwner Settings InstanceId args).Subsystem.Actions = self.Actions ∧
    (AddAction G T self InOwner Settings InstanceId args).Subsystem.LastHandleId.Handle
      = (self.LastHandleId.Handle + 1) % 2 ^ 64 ∧
    (AddAction G T2 (AddAction G T self InOwner Settings InstanceId args).Subsystem InOwner2
      Settings2 InstanceId2 args2).Result.Handle
      = ((self.LastHandleId.Handle + 1) % 2 ^ 64 + 1) % 2 ^ 64 ∧
    (self.LastHandleId.Handle + 2 < 2 ^ 64 →
      (AddAction G T2 (AddAction G T self InOwner Settings InstanceId args).Subsystem InOwner2
        Settings2 InstanceId2 args2).Result.Handle = self.LastHandleId.Handle + 2) := by
  have h2 := AddAction_of_setup_true G T2 _ InOwner2 Settings2 InstanceId2 args2 hLookup2 hSetup2
  rw [h2]
  rw [AddAction_of_setup_false G T self InOwner Settings InstanceId args hLookup hSetup]
  refine ⟨rfl, rfl, rfl, rfl, rfl, ?_⟩
  intro hlt
  show ((self.LastHandleId.Handle + 1) % 2 ^ 64 + 1) % 2 ^ 64 = self.LastHandleId.Handle + 2
  rw [Nat.mod_eq_of_lt (by omega : self.LastHandleId.Handle + 1 < 2 ^ 64)]
  exact Nat.mod_eq_of_lt hlt

/-- Witness for C6: the failing add followed by a successful one on the sample subsystem,
whose counter is at 3: the counter moves to 4 and the next action gets handle 5. -/
theorem AddAction_setup_failure_counter_witness :
    (AddAction (fun _ _ => FECFHandle.Invalid) SampleClass SampleSubsystem none {} 0
      false).Subsystem.LastHandleId.Handle = 4 ∧
    (AddAction (fun _ _ => FECFHandle.Invalid) SampleClass
      (AddAction (fun _ _ => FECFHandle.Invalid) SampleClass SampleSubsystem none {} 0
        false).Subsystem none {} 0 true).Result.Handle = 5 :=
  have h := AddAction_setup_failure_counter (fun _ _ => FECFHandle.Invalid) SampleClass
    SampleClass SampleSubsystem none none {} {} 0 0 false true rfl rfl rfl rfl
  ⟨h.2.2.2.1, h.2.2.2.2.2 (by decide)⟩

/-- The lookup on a state in which no held action carries the instance id. -/
theorem GetInstancedAction_of_count_zero (IsSet : Int → Bool) (self : UECFSubsystem P)
    (InstanceId : Int) (h : InstanceCount self InstanceId = 0) :
    GetInstancedAction IsSet self InstanceId = FECFHandle.Invalid := by
  unfold GetInstancedAction
  split
  · have hnone : (HeldActions self).find? (fun a => a.InstanceId == InstanceId) = none := by
      rw [List.find?_eq_none]
      intro a ha hp
      exact (List.countP_eq_zero.1 h) a ha hp
    rw [hnone]
  · rfl

/-- The lookup on a state in which some held action carries the (set) instance id returns
the handle of a held action with that id. -/
theorem GetInstancedAction_of_count_pos (IsSet : Int → Bool) (self : UECFSubsystem P)
    (InstanceId : Int) (hI : IsSet InstanceId = true) (h : 0 < InstanceCount self InstanceId) :
    ∃ a ∈ HeldActions self, a.InstanceId = InstanceId ∧
      GetInstancedAction IsSet self InstanceId = a.HandleId := by
  unfold GetInstancedAction
  rw [if_pos hI]
  obtain ⟨b, hb, hpb⟩ := List.countP_pos_iff.1 h
  cases hf : (HeldActions self).find? (fun a => a.InstanceId == InstanceId) with
  | none =>
    rw [List.find?_eq_none] at hf
    exact absurd hpb (hf b hb)
  | some a =>
    refine ⟨a, List.mem_of_find?_eq_some hf, ?_, rfl⟩
    have := List.find?_some hf
    simpa using this

/-- Counting the carriers of an instance id after one more action has been enqueued. -/
theorem InstanceCount_enqueue (self : UECFSubsystem P) (a : UECFActionBase P) (h : FECFHandle)
    (InstanceId : Int) (ha : a.InstanceId = InstanceId) :
    InstanceCount
      { Actions := self.Actions, PendingAddActions := self.PendingAddActions ++ [a],
        LastHandleId := h } InstanceId = InstanceCount self InstanceId + 1 := by
  simp [InstanceCount, HeldActions, List.countP_append, ha, Nat.add_assoc]

/-- C5 (as amended): for a set instance id `I`, on a state whose counter is not exhausted
and in which at most one held action carries `I`, with a valid handle: two consecutive calls
of `AddAction` with `I` (the first with a Setup that succeeds) return the same valid handle,
the second call constructs nothing and changes nothing, and afterwards exactly one action
with instance id `I` is held in `Actions` together with `PendingAddActions`. -/
theorem AddAction_twice_same_instance (IsSet : Int → Bool) (T T2 : ActionClass Args P)
    (self : UECFSubsystem P) (InOwner InOwner2 : Option Nat)
    (Settings Settings2 : FECFActionSettings) (InstanceId : Int) (args args2 : Args)
    (hI : IsSet InstanceId = true)
    (hSetup : (T.Setup args (NewAction T self InOwner Settings InstanceId)).1 = true)
    (hCounter : self.LastHandleId.Handle + 1 < 2 ^ 64)
    (hValid : ∀ a ∈ HeldActions self, a.InstanceId = InstanceId → a.HandleId.IsValid = true)
    (hUnique : InstanceCount self InstanceId ≤ 1) :
    (AddAction (GetInstancedAction IsSet) T self InOwner Settings InstanceId args).Result.IsValid
      = true ∧
    (AddAction (GetInstancedAction IsSet) T2
      (AddAction (GetInstancedAction IsSet) T self InOwner Settings InstanceId args).Subsystem
      InOwner2 Settings2 InstanceId args2).Result
      = (AddAction (GetInstancedAction IsSet) T self InOwner Settings InstanceId args).Result ∧
    (AddAction (GetInstancedAction IsSet) T2
      (AddAction (GetInstancedAction IsSet) T self InOwner Settings InstanceId args).Subsystem
      InOwner2 Settings2 InstanceId args2).Calls = [] ∧
    (AddAction (GetInstancedAction IsSet) T2
      (AddAction (GetInstancedAction IsSet) T self InOwner Settings InstanceId args).Subsystem
      InOwner2 Settings2 InstanceId args2).Subsystem
      = (AddAction (GetInstancedAction IsSet) T self InOwner Settings InstanceId args).Subsystem ∧
    InstanceCount (AddAction (GetInstancedAction IsSet) T2
      (AddAction (GetInstancedAction IsSet) T self InOwner Settings InstanceId args).Subsystem
      InOwner2 Settings2 InstanceId args2).Subsystem InstanceId = 1 := by
  by_cases hc : InstanceCount self InstanceId = 0
  · -- nothing carries the id: the first call creates, the second finds the new action
    have hL : (GetInstancedAction IsSet self InstanceId).IsValid = false := by
      rw [GetInstancedAction_of_count_zero IsSet self InstanceId hc]; rfl
    have hinc := Increment_Handle_of_lt self.LastHandleId hCounter
    have hincValid : self.LastHandleId.Increment.IsValid = true := by
      simp [FECFHandle.IsValid, hinc]
    rw [AddAction_of_setup_true (GetInstancedAction IsSet) T self InOwner Settings InstanceId
      args hL hSetup]
    have hcount := InstanceCount_enqueue self (InitAction T self InOwner Settings InstanceId args)
      self.LastHandleId.Increment InstanceId rfl
    rw [hc] at hcount
    obtain ⟨a, ha, haI, hG⟩ := GetInstancedAction_of_count_pos IsSet _ InstanceId hI
      (by rw [hcount]; exact Nat.one_pos)
    have haH : a.HandleId = self.LastHandleId.Increment := by
      simp only [HeldActions, List.mem_append, List.mem_singleton] at ha
      rcases ha with ha | ha | ha
      · have := (List.countP_eq_zero.1 hc) a (List.mem_append_left _ ha)
        exact absurd (by simpa using haI) this
      · have := (List.countP_eq_zero.1 hc) a (List.mem_append_right _ ha)
        exact absurd (by simpa using haI) this
      · rw [ha]; rfl
    rw [haH] at hG
    have hL2 := hG ▸ hincValid
    rw [AddAction_of_found (GetInstancedAction IsSet) T2 _ InOwner2 Settings2 InstanceId args2 hL2]
    exact ⟨hincValid, hG, rfl, rfl, hcount⟩
  · -- one held action carries the id: both calls return its handle
    obtain ⟨a, ha, haI, hG⟩ := GetInstancedAction_of_count_pos IsSet self InstanceId hI
      (Nat.pos_of_ne_zero hc)
    have hL : (GetInstancedAction IsSet self InstanceId).IsValid = true := by
      rw [hG]; exact hValid a ha haI
    rw [AddAction_of_found (GetInstancedAction IsSet) T self InOwner Settings InstanceId args hL]
    rw [AddAction_of_found (GetInstancedAction IsSet) T2 self InOwner2 Settings2 InstanceId args2
      hL]
    have hone : InstanceCount self InstanceId = 1 := by omega
    exact ⟨hL, rfl, rfl, rfl, hone⟩

/-- Witness for C5: instance id 9 is new to the sample subsystem; both adds return handle 4
and one action carries the id afterwards. -/
theorem AddAction_twice_same_instance_witness :
    (AddAction (GetInstancedAction (fun i => i != 0)) SampleClass SampleSubsystem (some 5) {} 9
      true).Result.IsValid = true ∧
    (AddAction (GetInstancedAction (fun i => i != 0)) SampleClass
      (AddAction (GetInstancedAction (fun i => i != 0)) SampleClass SampleSubsystem (some 5) {} 9
        true).Subsystem (some 5) {} 9 true).Result
      = (AddAction (GetInstancedAction (fun i => i != 0)) SampleClass SampleSubsystem (some 5) {} 9
        true).Result ∧
    InstanceCount (AddAction (GetInstancedAction (fun i => i != 0)) SampleClass
      (AddAction (GetInstancedAction (fun i => i != 0)) SampleClass SampleSubsystem (some 5) {} 9
        true).Subsystem (some 5) {} 9 true).Subsystem 9 = 1 :=
  have h := AddAction_twice_same_instance (fun i => i != 0) SampleClass SampleClass
    SampleSubsystem (some 5) (some 5) {} {} 9 true true (by decide) rfl (by decide)
    (by decide) (by decide)
  ⟨h.1, h.2.1, h.2.2.2.2⟩

/-- Counterexample to C5 as stated: with the `uint64` counter at its last value, the first
add with instance id 7 creates an action whose handle wraps to the invalid handle 0; the
lookup of the second add then returns that invalid handle, a second action with the same
instance id is created with handle 1, and two held actions carry the id. -/
theorem AddAction_twice_same_instance_counterexample :
    (SampleClass.Setup true (NewAction SampleClass Exhausted none {} 7)).1 = true ∧
    (AddAction (GetInstancedAction (fun i => i != 0)) SampleClass Exhausted none {} 7 true).Result
      = ⟨0⟩ ∧
    (AddAction (GetInstancedAction (fun i => i != 0)) SampleClass
      (AddAction (GetInstancedAction (fun i => i != 0)) SampleClass Exhausted none {} 7
        true).Subsystem none {} 7 true).Result = ⟨1⟩ ∧
    InstanceCount (AddAction (GetInstancedAction (fun i => i != 0)) SampleClass
      (AddAction (GetInstancedAction (fun i => i != 0)) SampleClass Exhausted none {} 7
        true).Subsystem none {} 7 true).Subsystem 7 = 2 := by
  refine ⟨rfl, ?_, ?_, ?_⟩
  · decide
  · decide
  · decide

/-- The hypotheses of the dedup property form an invariant of the scheduler: a fresh
subsystem holds no action, and a call of `AddAction` (with the modelled lookup, on a counter
that is not exhausted) keeps every held handle valid and every set instance id carried by at
most one held action. -/
theorem AddAction_instance_invariant (IsSet : Int → Bool) (T : ActionClass Args P)
    (self : UECFSubsystem P) (InOwner : Option Nat) (Settings : FECFActionSettings)
    (InstanceId : Int) (args : Args)
    (hCounter : self.LastHandleId.Handle + 1 < 2 ^ 64)
    (hValid : ∀ a ∈ HeldActions self, a.HandleId.IsValid = true)
    (hUnique : ∀ J, IsSet J = true → InstanceCount self J ≤ 1) :
    HeldActions (Fresh : UECFSubsystem P) = [] ∧
    (∀ a ∈ HeldActions
        (AddAction (GetInstancedAction IsSet) T self InOwner Settings InstanceId args).Subsystem,
      a.HandleId.IsValid = true) ∧
    (∀ J, IsSet J = true →
      InstanceCount
        (AddAction (GetInstancedAction IsSet) T self InOwner Settings InstanceId args).Subsystem
        J ≤ 1) := by
  refine ⟨rfl, ?_⟩
  cases hL : (GetInstancedAction IsSet self InstanceId).IsValid with
  | true =>
    rw [AddAction_of_found _ T self InOwner Settings InstanceId args hL]
    exact ⟨hValid, hUnique⟩
  | false =>
    cases hS : (T.Setup args (NewAction T self InOwner Settings InstanceId)).1 with
    | false =>
      rw [AddAction_of_setup_false _ T self InOwner Settings InstanceId args hL hS]
      exact ⟨hValid, hUnique⟩
    | true =>
      rw [AddAction_of_setup_true _ T self InOwner Settings InstanceId args hL hS]
      have hinc := Increment_Handle_of_lt self.LastHandleId hCounter
      constructor
      · intro a ha
        simp only [HeldActions, List.mem_append, List.mem_singleton] at ha
        rcases ha with ha | ha | ha
        · exact hValid a (List.mem_append_left _ ha)
        · exact hValid a (List.mem_append_right _ ha)
        · rw [ha]
          show self.LastHandleId.Increment.IsValid = true
          simp [FECFHandle.IsValid, hinc]
      · intro J hJ
        by_cases hJI : InstanceId = J
        · subst hJI
          rw [InstanceCount_enqueue self _ _ InstanceId rfl]
          by_cases hc : InstanceCount self InstanceId = 0
          · omega
          · obtain ⟨a, ha, _, hG⟩ := GetInstancedAction_of_count_pos IsSet self InstanceId hJ
              (Nat.pos_of_ne_zero hc)
            rw [hG, hValid a ha] at hL
            exact absurd hL (by simp)
        · have hsame : InstanceCount
              { Actions := self.Actions,
                PendingAddActions :=
                  self.PendingAddActions ++ [InitAction T self InOwner Settings InstanceId args],
                LastHandleId := self.LastHandleId.Increment } J = InstanceCount self J := by
            have hne : ((InitAction T self InOwner Settings InstanceId args).InstanceId == J)
                = false := by
              show (InstanceId == J) = false
              simpa using hJI
            simp [InstanceCount, HeldActions, List.countP_append, hne]
          rw [hsame]
          exact hUnique J hJ

end UECFSubsystem

namespace Binary32

/-- Rounding to the nearest integer stays within the two neighbouring integers. -/
theorem RoundHalfEven_bounds (q : ℚ) : ⌊q⌋ ≤ RoundHalfEven q ∧ RoundHalfEven q ≤ ⌊q⌋ + 1 := by
  unfold RoundHalfEven
  split_ifs <;> constructor <;> omega

/-- An integer rounds to itself. -/
theorem RoundHalfEven_intCast (n : ℤ) : RoundHalfEven (n : ℚ) = n := by
  unfold RoundHalfEven
  rw [Int.floor_intCast]
  simp

/-- Rounding to the nearest integer, ties to even, is monotone. -/
theorem RoundHalfEven_mono {q r : ℚ} (h : q ≤ r) : RoundHalfEven q ≤ RoundHalfEven r := by
  have hf : ⌊q⌋ ≤ ⌊r⌋ := Int.floor_mono h
  rcases lt_or_eq_of_le hf with hlt | heq
  · have h1 := (RoundHalfEven_bounds q).2
    have h2 := (RoundHalfEven_bounds r).1
    omega
  · unfold RoundHalfEven
    rw [← heq]
    split_ifs <;> first | omega | (exfalso; linarith)

/-- The unit in the last place is positive. -/
theorem Ulp_pos (x : ℚ) : 0 < Ulp x := by
  unfold Ulp
  positivity

/-- Zero is a binary32 value. -/
theorem Round_zero : Round 0 = 0 := by
  unfold Round
  rw [zero_div]
  have h : RoundHalfEven 0 = 0 := by
    have := RoundHalfEven_intCast 0
    simpa using this
  rw [h]
  simp

/-- One is a binary32 value. -/
theorem Round_one : Round 1 = 1 := by decide!

/-- A power of two times the unit in the last place. -/
theorem Ulp_mul (x : ℚ) (k : ℤ) : (2 : ℚ) ^ k * Ulp x = 2 ^ (k + (Int.log 2 |x| - 23)) := by
  unfold Ulp
  rw [zpow_add₀ (by norm_num : (2 : ℚ) ≠ 0)]

/-- The smallest significand, `2^23`, times the unit in the last place is the lower end of
the binade. -/
theorem Ulp_scale_low (x : ℚ) : (8388608 : ℚ) * Ulp x = 2 ^ Int.log 2 |x| := by
  have h : (8388608 : ℚ) = 2 ^ (23 : ℤ) := by norm_num
  rw [h, Ulp_mul]; congr 1; ring

/-- The significand `2^24` times the unit in the last place is the upper end of the binade. -/
theorem Ulp_scale_high (x : ℚ) : (16777216 : ℚ) * Ulp x = 2 ^ (Int.log 2 |x| + 1) := by
  have h : (16777216 : ℚ) = 2 ^ (24 : ℤ) := by norm_num
  rw [h, Ulp_mul]; congr 1; ring

/-- A positive rational is at least the lower end of its binade. -/
theorem binade_le {x : ℚ} (hx : 0 < x) : (2 : ℚ) ^ Int.log 2 |x| ≤ x := by
  rw [abs_of_pos hx]
  have := Int.zpow_log_le_self (b := 2) (by norm_num) hx
  simpa using this

/-- A positive rational is below the upper end of its binade. -/
theorem lt_binade_succ {x : ℚ} (hx : 0 < x) : x < (2 : ℚ) ^ (Int.log 2 |x| + 1) := by
  rw [abs_of_pos hx]
  have := Int.lt_zpow_succ_log_self (b := 2) (by norm_num) x
  simpa using this

/-- The significand of a positive rational before rounding lies between `2^23` and `2^24`. -/
theorem scaled_bounds {x : ℚ} (hx : 0 < x) :
    ((8388608 : ℤ) : ℚ) ≤ x / Ulp x ∧ x / Ulp x ≤ ((16777216 : ℤ) : ℚ) := by
  have h1 := binade_le hx
  have h2 := lt_binade_succ hx
  constructor
  · rw [le_div_iff₀ (Ulp_pos x)]
    push_cast
    rw [Ulp_scale_low]; exact h1
  · rw [div_le_iff₀ (Ulp_pos x)]
    push_cast
    rw [Ulp_scale_high]; exact le_of_lt h2

/-- Rounding keeps a positive rational within the closure of its binade. -/
theorem Round_bounds {x : ℚ} (hx : 0 < x) :
    (2 : ℚ) ^ Int.log 2 |x| ≤ Round x ∧ Round x ≤ (2 : ℚ) ^ (Int.log 2 |x| + 1) := by
  obtain ⟨h1, h2⟩ := scaled_bounds hx
  have m1 := RoundHalfEven_mono h1
  have m2 := RoundHalfEven_mono h2
  rw [RoundHalfEven_intCast] at m1 m2
  have c1 : (8388608 : ℚ) ≤ (RoundHalfEven (x / Ulp x) : ℚ) := by exact_mod_cast m1
  have c2 : (RoundHalfEven (x / Ulp x) : ℚ) ≤ (16777216 : ℚ) := by exact_mod_cast m2
  have hu := Ulp_pos x
  unfold Round
  constructor
  · rw [← Ulp_scale_low]
    exact mul_le_mul_of_nonneg_right c1 (le_of_lt hu)
  · rw [← Ulp_scale_high]
    exact mul_le_mul_of_nonneg_right c2 (le_of_lt hu)

/-- A positive rational rounds to a positive value (the exponent range being unbounded). -/
theorem Round_pos {x : ℚ} (hx : 0 < x) : 0 < Round x :=
  lt_of_lt_of_le (by positivity) (Round_bounds hx).1

/-- A non-negative rational rounds to a non-negative value. -/
theorem Round_nonneg {x : ℚ} (hx : 0 ≤ x) : 0 ≤ Round x := by
  rcases lt_or_eq_of_le hx with h | h
  · exact le_of_lt (Round_pos h)
  · rw [← h, Round_zero]

/-- Rounding is monotone above a positive rational. -/
theorem Round_mono_pos {x y : ℚ} (hx : 0 < x) (hxy : x ≤ y) : Round x ≤ Round y := by
  have hy : 0 < y := lt_of_lt_of_le hx hxy
  have hlog : Int.log 2 |x| ≤ Int.log 2 |y| := by
    rw [abs_of_pos hx, abs_of_pos hy]
    exact Int.log_mono_right hx hxy
  rcases lt_or_eq_of_le hlog with hlt | heq
  · have h1 := (Round_bounds hx).2
    have h2 := (Round_bounds hy).1
    have h3 : (2 : ℚ) ^ (Int.log 2 |x| + 1) ≤ 2 ^ Int.log 2 |y| :=
      zpow_le_zpow_right₀ (by norm_num) (by omega)
    linarith
  · have hu : Ulp x = Ulp y := by unfold Ulp; rw [heq]
    unfold Round
    rw [hu]
    have hq : x / Ulp y ≤ y / Ulp y := div_le_div_of_nonneg_right hxy (le_of_lt (Ulp_pos y))
    have hm := RoundHalfEven_mono hq
    have hc : (RoundHalfEven (x / Ulp y) : ℚ) ≤ (RoundHalfEven (y / Ulp y) : ℚ) := by
      exact_mod_cast hm
    exact mul_le_mul_of_nonneg_right hc (le_of_lt (Ulp_pos y))

/-- Rounding is monotone on the non-negative rationals. -/
theorem Round_mono {x y : ℚ} (hx : 0 ≤ x) (hxy : x ≤ y) : Round x ≤ Round y := by
  rcases lt_or_eq_of_le hx with h | h
  · exact Round_mono_pos h hxy
  · rw [← h, Round_zero]
    exact Round_nonneg (by linarith)

/-- Adding zero to a binary32 value is exact. -/
theorem Add_zero_right {a : ℚ} (ha : IsValue a) : Add a 0 = a := by
  unfold Add
  rw [add_zero]
  exact ha

/-- Adding a binary32 value to zero is exact. -/
theorem Add_zero_left {a : ℚ} (ha : IsValue a) : Add 0 a = a := by
  unfold Add
  rw [zero_add]
  exact ha

/-- Subtracting zero from a binary32 value is exact. -/
theorem Sub_zero_right {a : ℚ} (ha : IsValue a) : Sub a 0 = a := by
  unfold Sub
  rw [sub_zero]
  exact ha

/-- The product of zero and anything is zero. -/
theorem Mul_zero_left (b : ℚ) : Mul 0 b = 0 := by
  unfold Mul
  rw [zero_mul, Round_zero]

/-- The product of anything and zero is zero. -/
theorem Mul_zero_right (a : ℚ) : Mul a 0 = 0 := by
  unfold Mul
  rw [mul_zero, Round_zero]

/-- The product of one and a binary32 value is exact. -/
theorem Mul_one_left {b : ℚ} (hb : IsValue b) : Mul 1 b = b := by
  unfold Mul
  rw [one_mul]
  exact hb

/-- Zero divided by anything is zero. -/
theorem Div_zero_left (b : ℚ) : Div 0 b = 0 := by
  unfold Div
  rw [zero_div, Round_zero]

/-- A value other than zero divided by itself is one. -/
theorem Div_self {b : ℚ} (hb : b ≠ 0) : Div b b = 1 := by
  unfold Div
  rw [div_self hb, Round_one]

/-- The quotient of two positive values is positive. -/
theorem Div_pos {a b : ℚ} (ha : 0 < a) (hb : 0 < b) : 0 < Div a b :=
  Round_pos (div_pos ha hb)

/-- The quotient of a clock within `[0, b]` by the positive `b` lies within `[0, 1]`. -/
theorem Div_unit_interval {a b : ℚ} (ha : 0 ≤ a) (hab : a ≤ b) (hb : 0 < b) :
    0 ≤ Div a b ∧ Div a b ≤ 1 := by
  unfold Div
  constructor
  · exact Round_nonneg (div_nonneg ha (le_of_lt hb))
  · have h := Round_mono (div_nonneg ha (le_of_lt hb)) ((div_le_one hb).2 hab)
    rwa [Round_one] at h

/-- Adding a positive delta to a clock that is not negative gives a positive clock. -/
theorem Add_pos {a d : ℚ} (ha : 0 ≤ a) (hd : 0 < d) : 0 < Add a d :=
  Round_pos (by linarith)

/-- Adding a positive delta to a clock that has reached the binary32 value `T` gives a clock
that has reached `T`. -/
theorem Add_reached {T a d : ℚ} (hT : IsValue T) (hT0 : 0 ≤ T) (ha : T ≤ a) (hd : 0 < d) :
    T ≤ Add a d := by
  have h : Round T ≤ Round (a + d) := Round_mono hT0 (by linarith)
  rw [hT] at h
  exact h

/-- The accumulation of a sequence of deltas that begins with `d`, from the clock `c`. -/
theorem foldl_Add_cons (c d : ℚ) (ds : List ℚ) :
    (d :: ds).foldl Add c = ds.foldl Add (Add c d) := rfl

/-- Accumulating positive deltas from a clock that is not negative gives a clock that is not
negative. -/
theorem foldl_Add_nonneg : ∀ (ds : List ℚ) (c : ℚ), 0 ≤ c → (∀ d ∈ ds, 0 < d) →
    0 ≤ ds.foldl Add c := by
  intro ds
  induction ds with
  | nil => intro c hc _; exact hc
  | cons d ds ih =>
    intro c hc hPos
    rw [foldl_Add_cons]
    exact ih _ (le_of_lt (Add_pos hc (hPos d (List.mem_cons_self _ _))))
      (fun x hx => hPos x (List.mem_cons_of_mem _ hx))

/-- Accumulating positive deltas from a clock that has reached the binary32 value `T` gives a
clock that has reached `T`. -/
theorem foldl_Add_reached {T : ℚ} (hT : IsValue T) (hT0 : 0 ≤ T) :
    ∀ (ds : List ℚ) (c : ℚ), T ≤ c → (∀ d ∈ ds, 0 < d) → T ≤ ds.foldl Add c := by
  intro ds
  induction ds with
  | nil => intro c hc _; exact hc
  | cons d ds ih =>
    intro c hc hPos
    rw [foldl_Add_cons]
    exact ih _ (Add_reached hT hT0 hc (hPos d (List.mem_cons_self _ _)))
      (fun x hx => hPos x (List.mem_cons_of_mem _ hx))

end Binary32

namespace UECFTimelineLinearColor

/-- The engine's `operator!=` on colours is inequality of the colours. -/
theorem NotEqual_iff (a b : FLinearColor) : a.NotEqual b = true ↔ a ≠ b := by
  cases a; cases b
  simp only [FLinearColor.NotEqual, Bool.or_eq_true, bne_iff_ne, ne_eq, FLinearColor.mk.injEq]
  tauto

/-- C7: for every input, `Setup` returns true if and only if the tick callback is present,
`Time > 0`, `BlendExp != 0` and `StartValue != StopValue`, whatever the blend function and
whatever the completion callback (it may be absent); whenever it returns true, `CurrentTime`
is 0 afterwards. The same holds for the overload without the stopped flag. -/
theorem Setup_true_iff (self : UECFTimelineLinearColor) (InStartValue InStopValue : FLinearColor)
    (InTime : ℚ) (InTickFunc : Bool) (InCallbackFunc : CallbackBinding)
    (InBlendFunc : EECFBlendFunc) (InBlendExp : ℚ) (InCallbackFuncNoStopped : Bool) :
    ((Setup self InStartValue InStopValue InTime InTickFunc InCallbackFunc InBlendFunc
        InBlendExp).1 = true ↔
      (InTickFunc = true ∧ InTime > 0 ∧ InBlendExp ≠ 0 ∧ InStartValue ≠ InStopValue)) ∧
    ((Setup self InStartValue InStopValue InTime InTickFunc InCallbackFunc InBlendFunc
        InBlendExp).1 = true →
      (Setup self InStartValue InStopValue InTime InTickFunc InCallbackFunc InBlendFunc
        InBlendExp).2.CurrentTime = 0) ∧
    (Setup self InStartValue InStopValue InTime InTickFunc .Unbound InBlendFunc InBlendExp).1
      = (Setup self InStartValue InStopValue InTime InTickFunc InCallbackFunc InBlendFunc
        InBlendExp).1 ∧
    ((SetupNoStopped self InStartValue InStopValue InTime InTickFunc InCallbackFuncNoStopped
        InBlendFunc InBlendExp).1 = true ↔
      (InTickFunc = true ∧ InTime > 0 ∧ InBlendExp ≠ 0 ∧ InStartValue ≠ InStopValue)) := by
  have key : ∀ (o : UECFTimelineLinearColor) (cb : CallbackBinding),
      ((Setup o InStartValue InStopValue InTime InTickFunc cb InBlendFunc InBlendExp).1 = true ↔
        (InTickFunc = true ∧ InTime > 0 ∧ InBlendExp ≠ 0 ∧ InStartValue ≠ InStopValue)) ∧
      ((Setup o InStartValue InStopValue InTime InTickFunc cb InBlendFunc InBlendExp).1 = true →
        (Setup o InStartValue InStopValue InTime InTickFunc cb InBlendFunc
          InBlendExp).2.CurrentTime = 0) := by
    intro o cb
    unfold Setup
    by_cases hc : (InTickFunc && decide (InTime > 0) && decide (InBlendExp ≠ 0)
        && InStartValue.NotEqual InStopValue) = true
    · have hc2 := hc
      simp only [Bool.and_eq_true, decide_eq_true_eq, NotEqual_iff] at hc2
      simp only [hc, if_true, true_iff, implies_true, and_true]
      tauto
    · have hc2 := hc
      simp only [Bool.and_eq_true, decide_eq_true_eq, NotEqual_iff] at hc2
      simp only [hc, if_false, Bool.false_eq_true, false_iff, false_implies, and_true]
      tauto
  refine ⟨(key self InCallbackFunc).1, (key self InCallbackFunc).2, ?_, ?_⟩
  · rw [Bool.eq_iff_iff, (key self .Unbound).1, (key self InCallbackFunc).1]
  · exact (key _ .ForwardNoStopped).1

/-- The clamped clock lies between zero and the duration. -/
theorem Clamp_bounds (X Max : ℚ) (hMax : 0 ≤ Max) :
    0 ≤ FMath.Clamp X 0 Max ∧ FMath.Clamp X 0 Max ≤ Max := by
  unfold FMath.Clamp
  split
  · exact ⟨le_refl _, hMax⟩
  · split
    · constructor <;> linarith
    · exact ⟨hMax, le_refl _⟩

/-- The clamped clock has reached a positive duration exactly when the unclamped sum has. -/
theorem Clamp_reached_iff (X Max : ℚ) (hMax : 0 < Max) :
    Max ≤ FMath.Clamp X 0 Max ↔ Max ≤ X := by
  unfold FMath.Clamp
  split
  · constructor <;> intro h <;> linarith
  · split
    · constructor <;> intro h <;> linarith
    · constructor
      · intro _; linarith
      · intro _; exact le_refl _

/-- Unfolding of `Tick` with a bound tick function, on the branch where the clock reaches the duration. -/
theorem Tick_of_reached (M : EngineMath) (self : UECFTimelineLinearColor) (DeltaTime : ℚ)
    (hTick : self.TickFunc = true)
    (hReached : self.Time ≤ (Advanced M self DeltaTime).CurrentTime) :
    Tick M self DeltaTime
      = some ({ Advanced M self DeltaTime with bHasFinished := true },
          [.TickFunc (Advanced M self DeltaTime).CurrentValue
              (Advanced M self DeltaTime).CurrentTime]
            ++ (Complete (Advanced M self DeltaTime) false).2 ++ [.MarkAsFinished]) := by
  have hT : (Advanced M self DeltaTime).TickFunc = true := hTick
  have hR : (Advanced M self DeltaTime).CurrentTime ≥ (Advanced M self DeltaTime).Time := hReached
  unfold Tick
  dsimp only
  rw [if_pos hT, if_pos hR]
  rfl

/-- Unfolding of `Tick` with a bound tick function, on the branch where the clock stays below the
duration. -/
theorem Tick_of_not_reached (M : EngineMath) (self : UECFTimelineLinearColor) (DeltaTime : ℚ)
    (hTick : self.TickFunc = true)
    (hBelow : ¬ self.Time ≤ (Advanced M self DeltaTime).CurrentTime) :
    Tick M self DeltaTime
      = some (Advanced M self DeltaTime,
          [.TickFunc (Advanced M self DeltaTime).CurrentValue
              (Advanced M self DeltaTime).CurrentTime]) := by
  have hT : (Advanced M self DeltaTime).TickFunc = true := hTick
  have hR : ¬ (Advanced M self DeltaTime).CurrentTime ≥ (Advanced M self DeltaTime).Time := hBelow
  unfold Tick
  dsimp only
  rw [if_pos hT, if_neg hR]

/-- The events of `Complete` contain no call of the tick function and no `MarkAsFinished`,
at most one callback call, and that call reports the arguments it was given. -/
theorem InvokeCallbackFunc_events (self : UECFTimelineLinearColor) (Value : FLinearColor)
    (Time : ℚ) (bStopped : Bool) :
    (InvokeCallbackFunc self Value Time bStopped).countP TimelineEvent.IsTickFunc = 0 ∧
    TimelineEvent.MarkAsFinished ∉ InvokeCallbackFunc self Value Time bStopped ∧
    (InvokeCallbackFunc self Value Time bStopped).length ≤ 1 ∧
    ∀ e ∈ InvokeCallbackFunc self Value Time bStopped,
      e.IsCallbackFunc = true ∧ e.ReportedTime = some Time := by
  unfold InvokeCallbackFunc
  cases self.CallbackFunc with
  | Unbound => simp
  | User => simp [TimelineEvent.IsTickFunc, TimelineEvent.IsCallbackFunc, TimelineEvent.ReportedTime]
  | ForwardNoStopped =>
    cases self.CallbackFunc_NoStopped <;>
      simp [TimelineEvent.IsTickFunc, TimelineEvent.IsCallbackFunc, TimelineEvent.ReportedTime]

/-- C9: for every timeline state with a bound tick function and a positive duration (in
particular every state satisfying the Setup precondition) and every delta, `Tick` returns,
invokes the tick callback exactly once and first, with the new value and the clamped time;
if the clamped clock has reached the duration (equivalently the `float` sum of the old
`CurrentTime` and `DeltaTime` is at least `Time`) the clock is exactly `Time`, and `Tick` then
runs `Complete(false)` once, which calls the bound completion callback once with the new
value, the time `Time` and `stopped = false` (a caller-supplied callback gets exactly these
three arguments, the forwarding lambda hands the first two to the callback without the stopped
flag), and marks the action finished; otherwise it makes no further call, so no completion
callback runs and the action is not marked finished. -/
theorem Tick_callbacks (M : EngineMath) (self : UECFTimelineLinearColor) (DeltaTime : ℚ)
    (hTick : self.TickFunc = true) (hTime : self.Time > 0) :
    ∃ post events, Tick M self DeltaTime = some (post, events) ∧
      post.CurrentTime = FMath.Clamp (Binary32.Add self.CurrentTime DeltaTime) 0 self.Time ∧
      post.Time = self.Time ∧
      (post.Time ≤ post.CurrentTime ↔ self.Time ≤ Binary32.Add self.CurrentTime DeltaTime) ∧
      events.countP TimelineEvent.IsTickFunc = 1 ∧
      events.head? = some (.TickFunc post.CurrentValue post.CurrentTime) ∧
      (self.Time ≤ Binary32.Add self.CurrentTime DeltaTime →
        post.CurrentTime = self.Time ∧
        events = .TickFunc post.CurrentValue post.CurrentTime
          :: ((Complete post false).2 ++ [.MarkAsFinished]) ∧
        events = .TickFunc post.CurrentValue self.Time
          :: ((match self.CallbackFunc with
                | .Unbound => []
                | .User => [.CallbackFunc post.CurrentValue self.Time false]
                | .ForwardNoStopped =>
                  if self.CallbackFunc_NoStopped then
                    [.CallbackFunc_NoStopped post.CurrentValue self.Time]
                  else []) ++ [.MarkAsFinished]) ∧
        (self.CallbackFunc = .User →
          events = [.TickFunc post.CurrentValue self.Time,
            .CallbackFunc post.CurrentValue self.Time false, .MarkAsFinished]) ∧
        events.countP TimelineEvent.IsCallbackFunc ≤ 1 ∧
        post.bHasFinished = true) ∧
      (¬ self.Time ≤ Binary32.Add self.CurrentTime DeltaTime →
        events = [.TickFunc post.CurrentValue post.CurrentTime] ∧
        events.countP TimelineEvent.IsCallbackFunc = 0 ∧
        post.bHasFinished = self.bHasFinished) ∧
      (TimelineEvent.MarkAsFinished ∈ events ↔
        self.Time ≤ Binary32.Add self.CurrentTime DeltaTime) := by
  have hiff := Clamp_reached_iff (Binary32.Add self.CurrentTime DeltaTime) self.Time hTime
  have hb := Clamp_bounds (Binary32.Add self.CurrentTime DeltaTime) self.Time (le_of_lt hTime)
  have hct : (Advanced M self DeltaTime).CurrentTime
      = FMath.Clamp (Binary32.Add self.CurrentTime DeltaTime) 0 self.Time := rfl
  by_cases hR : self.Time ≤ Binary32.Add self.CurrentTime DeltaTime
  · have hR2 : self.Time ≤ (Advanced M self DeltaTime).CurrentTime := by
      rw [hct]; exact hiff.2 hR
    have hEq : (Advanced M self DeltaTime).CurrentTime = self.Time :=
      le_antisymm (by rw [hct]; exact hb.2) hR2
    have hComplete : (Complete (Advanced M self DeltaTime) false).2
        = (match self.CallbackFunc with
            | .Unbound => []
            | .User => [.CallbackFunc (Advanced M self DeltaTime).CurrentValue self.Time false]
            | .ForwardNoStopped =>
              if self.CallbackFunc_NoStopped then
                [.CallbackFunc_NoStopped (Advanced M self DeltaTime).CurrentValue self.Time]
              else []) := by
      show InvokeCallbackFunc (Advanced M self DeltaTime)
        (Advanced M self DeltaTime).CurrentValue (Advanced M self DeltaTime).CurrentTime false = _
      rw [hEq]
      rfl
    have hEvents : [TimelineEvent.TickFunc (Advanced M self DeltaTime).CurrentValue
          (Advanced M self DeltaTime).CurrentTime]
          ++ (Complete (Advanced M self DeltaTime) false).2 ++ [TimelineEvent.MarkAsFinished]
        = .TickFunc (Advanced M self DeltaTime).CurrentValue self.Time
          :: ((match self.CallbackFunc with
                | .Unbound => []
                | .User => [.CallbackFunc (Advanced M self DeltaTime).CurrentValue self.Time false]
                | .ForwardNoStopped =>
                  if self.CallbackFunc_NoStopped then
                    [.CallbackFunc_NoStopped (Advanced M self DeltaTime).CurrentValue self.Time]
                  else []) ++ [.MarkAsFinished]) := by
      rw [hComplete, hEq]
      rfl
    have h0 := InvokeCallbackFunc_events (Advanced M self DeltaTime)
      (Advanced M self DeltaTime).CurrentValue (Advanced M self DeltaTime).CurrentTime false
    refine ⟨_, _, Tick_of_reached M self DeltaTime hTick hR2, rfl, rfl, ?_, ?_, rfl, ?_, ?_, ?_⟩
    · exact ⟨fun _ => hR, fun _ => hR2⟩
    · simp only [Complete, List.countP_append, h0.1, List.countP_cons, List.countP_nil,
        TimelineEvent.IsTickFunc]
      simp
    · intro _
      refine ⟨hEq, rfl, hEvents, ?_, ?_, rfl⟩
      · intro hUser
        rw [hEvents, hUser]
        rfl
      · have hle : ((Complete (Advanced M self DeltaTime) false).2).countP
            TimelineEvent.IsCallbackFunc ≤ 1 :=
          le_trans (List.countP_le_length _) h0.2.2.1
        simp only [List.countP_append, List.countP_cons, List.countP_nil,
          TimelineEvent.IsCallbackFunc]
        simp only [Bool.false_eq_true, if_false, Nat.add_zero, Nat.zero_add]
        exact hle
    · intro hn
      exact absurd hR hn
    · constructor
      · intro _; exact hR
      · intro _; simp
  · have hR2 : ¬ self.Time ≤ (Advanced M self DeltaTime).CurrentTime := by
      rw [hct]; exact fun h => hR (hiff.1 h)
    refine ⟨_, _, Tick_of_not_reached M self DeltaTime hTick hR2, rfl, rfl, ?_, ?_, rfl, ?_, ?_,
      ?_⟩
    · exact ⟨fun h => absurd h hR2, fun h => absurd h hR⟩
    · simp [TimelineEvent.IsTickFunc]
    · intro h
      exact absurd h hR
    · intro _
      exact ⟨rfl, by simp [TimelineEvent.IsCallbackFunc], rfl⟩
    · constructor
      · intro h; simp at h
      · intro h; exact absurd h hR

/-- Witness for C9, a completing tick that turns on the rounding of the sum: the timeline of
duration `0.3f` (from 0 to 10) with the clock at `0.2f = 13421773 / 2^26` is ticked by
`0.1f = 13421773 / 2^27`. The exact sum of the clock and the delta is below the duration,
their `float` sum is the duration, and the tick calls the tick callback and then the
completion callback with `stopped = false`, and marks the action finished. -/
theorem Tick_callbacks_witness :
    SampleTenthsTimeline.TickFunc = true ∧ SampleTenthsTimeline.Time > 0 ∧
    (13421773 / 67108864 + 13421773 / 134217728 : ℚ) < SampleTenthsTimeline.Time ∧
    Binary32.Add (13421773 / 67108864) (13421773 / 134217728) = SampleTenthsTimeline.Time ∧
    ∃ post,
      Tick SampleMath { SampleTenthsTimeline with CurrentTime := 13421773 / 67108864 }
          (13421773 / 134217728)
        = some (post,
            [.TickFunc ⟨10, 10, 10, 10⟩ (5033165 / 16777216),
             .CallbackFunc ⟨10, 10, 10, 10⟩ (5033165 / 16777216) false,
             .MarkAsFinished]) ∧
      post.CurrentTime = 5033165 / 16777216 ∧ post.bHasFinished = true := by
  have hSum : Binary32.Add (13421773 / 67108864) (13421773 / 134217728)
      = SampleTenthsTimeline.Time := by decide!
  obtain ⟨post, events, hT, _, _, _, _, _, hReached, _, _⟩ :=
    Tick_callbacks SampleMath { SampleTenthsTimeline with CurrentTime := 13421773 / 67108864 }
      (13421773 / 134217728) rfl (by decide!)
  obtain ⟨hClock, _, _, hUser, _, hFin⟩ := hReached (le_of_eq hSum.symm)
  have hValue : post.CurrentValue = ⟨10, 10, 10, 10⟩ := by
    have hEval : (Tick SampleMath
        { SampleTenthsTimeline with CurrentTime := 13421773 / 67108864 }
        (13421773 / 134217728)).map (fun r => r.1.CurrentValue)
          = some ⟨10, 10, 10, 10⟩ := by decide!
    rw [hT] at hEval
    exact Option.some.inj hEval
  have hE := hUser rfl
  rw [hValue] at hE
  refine ⟨rfl, by decide!, by decide!, hSum, post, ?_, hClock, hFin⟩
  rw [hT, hE]
  rfl

/-- One method call on an object with a bound tick function, a positive duration and a clock
within `[0, Time]` returns, keeps these three properties and the duration, and reports only
times within `[0, Time]`. -/
theorem Perform_clock (M : EngineMath) (self : UECFTimelineLinearColor) (c : Call)
    (hTick : self.TickFunc = true) (hTime : 0 < self.Time)
    (hLo : 0 ≤ self.CurrentTime) (hHi : self.CurrentTime ≤ self.Time) :
    ∃ next events, Perform M self c = some (next, events) ∧
      next.TickFunc = true ∧ next.Time = self.Time ∧
      0 ≤ next.CurrentTime ∧ next.CurrentTime ≤ self.Time ∧
      ∀ e ∈ events, ∀ t, e.ReportedTime = some t → 0 ≤ t ∧ t ≤ self.Time := by
  cases c with
  | Tick DeltaTime =>
    have hb := Clamp_bounds (Binary32.Add self.CurrentTime DeltaTime) self.Time (le_of_lt hTime)
    have hct : (Advanced M self DeltaTime).CurrentTime
        = FMath.Clamp (Binary32.Add self.CurrentTime DeltaTime) 0 self.Time := rfl
    by_cases hR : self.Time ≤ (Advanced M self DeltaTime).CurrentTime
    · refine ⟨_, _, Tick_of_reached M self DeltaTime hTick hR, hTick, rfl, hb.1, hb.2, ?_⟩
      intro e he t ht
      simp only [List.singleton_append, List.mem_cons, List.mem_append, List.mem_singleton,
        List.not_mem_nil, or_false] at he
      rcases he with (rfl | he) | rfl
      · simp only [TimelineEvent.ReportedTime, Option.some.injEq] at ht
        rw [← ht, hct]; exact hb
      · have := ((InvokeCallbackFunc_events _ _ _ _).2.2.2 e he).2
        rw [this, Option.some.injEq] at ht
        rw [← ht, hct]; exact hb
      · simp [TimelineEvent.ReportedTime] at ht
    · refine ⟨_, _, Tick_of_not_reached M self DeltaTime hTick hR, hTick, rfl, hb.1, hb.2, ?_⟩
      intro e he t ht
      simp only [List.mem_singleton] at he
      subst he
      simp only [TimelineEvent.ReportedTime, Option.some.injEq] at ht
      rw [← ht, hct]; exact hb
  | Reset bCallUpdate =>
    have hT : (Rewound M self).TickFunc = true := hTick
    cases bCallUpdate with
    | true =>
      refine ⟨Rewound M self, [.TickFunc (Rewound M self).CurrentValue (Rewound M self).CurrentTime],
        ?_, hTick, rfl, le_refl _, le_of_lt hTime, ?_⟩
      · simp only [Perform, Reset, hT, if_true]
      · intro e he t ht
        simp only [List.mem_singleton] at he
        subst he
        simp only [TimelineEvent.ReportedTime, Option.some.injEq] at ht
        have h0 : (Rewound M self).CurrentTime = 0 := rfl
        rw [← ht, h0]
        exact ⟨le_refl _, le_of_lt hTime⟩
    | false =>
      refine ⟨Rewound M self, [], ?_, hTick, rfl, le_refl _, le_of_lt hTime, ?_⟩
      · simp only [Perform, Reset, Bool.false_eq_true, if_false]
      · intro e he
        simp at he
  | Complete bStopped =>
    refine ⟨self, _, rfl, hTick, rfl, hLo, hHi, ?_⟩
    intro e he t ht
    have := ((InvokeCallbackFunc_events _ _ _ _).2.2.2 e he).2
    rw [this, Option.some.injEq] at ht
    rw [← ht]; exact ⟨hLo, hHi⟩

/-- Every sequence of method calls on an object with a bound tick function, a positive
duration and a clock within `[0, Time]` returns, and keeps the clock and every reported time
within `[0, Time]`. -/
theorem PerformAll_clock (M : EngineMath) :
    ∀ (calls : List Call) (self : UECFTimelineLinearColor),
      self.TickFunc = true → 0 < self.Time → 0 ≤ self.CurrentTime →
      self.CurrentTime ≤ self.Time →
      ∃ final traces, PerformAll M self calls = some (final, traces) ∧
        final.TickFunc = true ∧ final.Time = self.Time ∧
        0 ≤ final.CurrentTime ∧ final.CurrentTime ≤ self.Time ∧
        ∀ events ∈ traces, ∀ e ∈ events, ∀ t, e.ReportedTime = some t → 0 ≤ t ∧ t ≤ self.Time := by
  intro calls
  induction calls with
  | nil =>
    intro self hTick _ hLo hHi
    exact ⟨self, [], rfl, hTick, rfl, hLo, hHi, by simp⟩
  | cons c cs ih =>
    intro self hTick hTime hLo hHi
    obtain ⟨next, events, hP, hT1, hTime1, hLo1, hHi1, hEv⟩ :=
      Perform_clock M self c hTick hTime hLo hHi
    obtain ⟨final, traces, hPA, hT2, hTime2, hLo2, hHi2, hTr⟩ :=
      ih next hT1 (by rw [hTime1]; exact hTime) hLo1 (by rw [hTime1]; exact hHi1)
    rw [hTime1] at hTime2 hHi2 hTr
    refine ⟨final, events :: traces, ?_, hT2, hTime2, hLo2, hHi2, ?_⟩
    · simp only [PerformAll, hP, hPA]
    · intro evs hevs
      simp only [List.mem_cons] at hevs
      rcases hevs with rfl | hevs
      · exact hEv
      · exact hTr evs hevs

/-- What a successful `Setup` establishes. -/
theorem Setup_of_true (self : UECFTimelineLinearColor) (InStartValue InStopValue : FLinearColor)
    (InTime : ℚ) (InTickFunc : Bool) (InCallbackFunc : CallbackBinding)
    (InBlendFunc : EECFBlendFunc) (InBlendExp : ℚ)
    (hSetup : (Setup self InStartValue InStopValue InTime InTickFunc InCallbackFunc InBlendFunc
      InBlendExp).1 = true) :
    (Setup self InStartValue InStopValue InTime InTickFunc InCallbackFunc InBlendFunc
      InBlendExp).2.TickFunc = true ∧
    (Setup self InStartValue InStopValue InTime InTickFunc InCallbackFunc InBlendFunc
      InBlendExp).2.Time = InTime ∧
    0 < InTime ∧
    (Setup self InStartValue InStopValue InTime InTickFunc InCallbackFunc InBlendFunc
      InBlendExp).2.CurrentTime = 0 := by
  unfold Setup at hSetup ⊢
  by_cases hc : (InTickFunc && decide (InTime > 0) && decide (InBlendExp ≠ 0)
      && InStartValue.NotEqual InStopValue) = true
  · have hc2 := hc
    simp only [Bool.and_eq_true, decide_eq_true_eq] at hc2
    rw [if_pos hc]
    exact ⟨hc2.1.1.1, rfl, hc2.1.1.2, rfl⟩
  · rw [if_neg hc] at hSetup
    exact absurd hSetup (by simp)

/-- C10 (clock clamp): after a successful `Setup`, every sequence of `Tick` (with any delta),
`Reset` and `Complete` calls returns, and after each call `0 <= CurrentTime <= Time` holds,
the blend parameter `CurrentTime / Time` lies in `[0, 1]` (the exact quotient, and the `float`
quotient that `GetValue` computes as well), and every time reported to the tick or completion
callback lies in `[0, Time]`. -/
theorem CurrentTime_clamped (M : EngineMath) (self : UECFTimelineLinearColor)
    (InStartValue InStopValue : FLinearColor) (InTime : ℚ) (InTickFunc : Bool)
    (InCallbackFunc : CallbackBinding) (InBlendFunc : EECFBlendFunc) (InBlendExp : ℚ)
    (calls : List Call)
    (hSetup : (Setup self InStartValue InStopValue InTime InTickFunc InCallbackFunc InBlendFunc
      InBlendExp).1 = true) :
    ∀ n : Nat, ∃ mid traces,
      PerformAll M (Setup self InStartValue InStopValue InTime InTickFunc InCallbackFunc
        InBlendFunc InBlendExp).2 (calls.take n) = some (mid, traces) ∧
      mid.Time = InTime ∧ 0 < mid.Time ∧
      0 ≤ mid.CurrentTime ∧ mid.CurrentTime ≤ mid.Time ∧
      0 ≤ mid.CurrentTime / mid.Time ∧ mid.CurrentTime / mid.Time ≤ 1 ∧
      0 ≤ Binary32.Div mid.CurrentTime mid.Time ∧ Binary32.Div mid.CurrentTime mid.Time ≤ 1 ∧
      ∀ events ∈ traces, ∀ e ∈ events, ∀ t, e.ReportedTime = some t → 0 ≤ t ∧ t ≤ InTime := by
  intro n
  obtain ⟨hT, hTime, hPos, hZero⟩ := Setup_of_true self InStartValue InStopValue InTime
    InTickFunc InCallbackFunc InBlendFunc InBlendExp hSetup
  obtain ⟨mid, traces, hP, _, hTime2, hLo, hHi, hEv⟩ := PerformAll_clock M (calls.take n)
    (Setup self InStartValue InStopValue InTime InTickFunc InCallbackFunc InBlendFunc
      InBlendExp).2 hT (by rw [hTime]; exact hPos) (by rw [hZero])
    (by rw [hZero, hTime]; exact le_of_lt hPos)
  rw [hTime] at hTime2 hHi hEv
  have hPos2 : 0 < mid.Time := by rw [hTime2]; exact hPos
  have hHi2 : mid.CurrentTime ≤ mid.Time := by rw [hTime2]; exact hHi
  refine ⟨mid, traces, hP, hTime2, hPos2, hLo, hHi2, ?_, ?_,
    (Binary32.Div_unit_interval hLo hHi2 hPos2).1, (Binary32.Div_unit_interval hLo hHi2 hPos2).2,
    hEv⟩
  · exact div_nonneg hLo (le_of_lt hPos2)
  · rw [div_le_one hPos2, hTime2]; exact hHi

/-- Witness for C10: the sample call sequence after a successful `Setup` of a two second
timeline. -/
theorem CurrentTime_clamped_witness :
    (Setup Zeroed ⟨0, 0, 0, 0⟩ ⟨10, 10, 10, 10⟩ 2 true .User .ECFBlend_Linear 1).1 = true ∧
    ∃ mid traces,
      PerformAll SampleMath
        (Setup Zeroed ⟨0, 0, 0, 0⟩ ⟨10, 10, 10, 10⟩ 2 true .User .ECFBlend_Linear 1).2
        (SampleCallSequence.take 5) = some (mid, traces) ∧
      0 ≤ mid.CurrentTime ∧ mid.CurrentTime ≤ mid.Time :=
  ⟨by simp [Setup, Zeroed, FLinearColor.NotEqual],
    (CurrentTime_clamped SampleMath Zeroed ⟨0, 0, 0, 0⟩ ⟨10, 10, 10, 10⟩ 2 true .User
      .ECFBlend_Linear 1 SampleCallSequence
      (by simp [Setup, Zeroed, FLinearColor.NotEqual]) 5).imp
      (fun _ h => h.imp (fun _ h2 => ⟨h2.1, h2.2.2.2.1, h2.2.2.2.2.1⟩))⟩

/-- Clamping a non-negative sum to `[0, Max]` is taking the minimum with `Max`. -/
theorem Clamp_eq_min (X Max : ℚ) (hX : 0 ≤ X) : FMath.Clamp X 0 Max = min X Max := by
  unfold FMath.Clamp
  rw [if_neg (not_lt.2 hX)]
  split
  · rename_i h; exact (min_eq_left (le_of_lt h)).symm
  · rename_i h; exact (min_eq_right (not_lt.1 h)).symm

/-- Linear interpolation from the zero colour to a colour of binary32 values, at parameter
one, is exactly that colour. -/
theorem Lerp_one_of_zero (B : FLinearColor) (hB : B.IsBinary32) :
    FMath.Lerp ⟨0, 0, 0, 0⟩ B 1 = B := by
  obtain ⟨h1, h2, h3, h4⟩ := hB
  cases B
  simp only [FMath.Lerp, FLinearColor.Add, FLinearColor.Sub, FLinearColor.Scale,
    Binary32.Sub_zero_right h1, Binary32.Sub_zero_right h2, Binary32.Sub_zero_right h3,
    Binary32.Sub_zero_right h4, Binary32.Mul_one_left h1, Binary32.Mul_one_left h2,
    Binary32.Mul_one_left h3, Binary32.Mul_one_left h4, Binary32.Add_zero_left h1,
    Binary32.Add_zero_left h2, Binary32.Add_zero_left h3, Binary32.Add_zero_left h4]

/-- The described events depend on the object only through the fields that `Tick` leaves
unchanged. -/
theorem LinearTickEvents_congr (a b : UECFTimelineLinearColor) (Elapsed : ℚ)
    (h1 : a.StartValue = b.StartValue) (h2 : a.StopValue = b.StopValue) (h3 : a.Time = b.Time)
    (h4 : a.CallbackFunc = b.CallbackFunc)
    (h5 : a.CallbackFunc_NoStopped = b.CallbackFunc_NoStopped) :
    LinearTickEvents a Elapsed = LinearTickEvents b Elapsed := by
  simp only [LinearTickEvents, InvokeCallbackFunc, h1, h2, h3, h4, h5]

/-- The described events are the same for two accumulated times that have both reached the
duration. -/
theorem LinearTickEvents_reached (self : UECFTimelineLinearColor) (X Y : ℚ)
    (hX : self.Time ≤ X) (hY : self.Time ≤ Y) :
    LinearTickEvents self X = LinearTickEvents self Y := by
  simp only [LinearTickEvents, min_eq_right hX, min_eq_right hY, if_pos hX, if_pos hY]

/-- Once the clock is clamped, later positive deltas see the same events as on the unclamped
accumulated time. -/
theorem LinearTickEvents_clamped (self : UECFTimelineLinearColor) (X : ℚ) (ds : List ℚ)
    (hFloat : Binary32.IsValue self.Time) (hTime : 0 < self.Time)
    (hPos : ∀ d ∈ ds, 0 < d) :
    LinearTickEvents self (ds.foldl Binary32.Add (min X self.Time))
      = LinearTickEvents self (ds.foldl Binary32.Add X) := by
  by_cases hX : X ≤ self.Time
  · rw [min_eq_left hX]
  · have hX2 : self.Time ≤ X := le_of_lt (not_le.1 hX)
    rw [min_eq_right hX2]
    exact LinearTickEvents_reached self _ _
      (Binary32.foldl_Add_reached hFloat (le_of_lt hTime) ds _ (le_refl _) hPos)
      (Binary32.foldl_Add_reached hFloat (le_of_lt hTime) ds _ hX2 hPos)

/-- One tick of a linear timeline with a positive delta, from a clock within `[0, Time]`. -/
theorem Tick_linear (M : EngineMath) (self : UECFTimelineLinearColor) (DeltaTime : ℚ)
    (hLinear : self.BlendFunc = .ECFBlend_Linear) (hTime : 0 < self.Time)
    (hTick : self.TickFunc = true) (hLo : 0 ≤ self.CurrentTime) (hDelta : 0 < DeltaTime) :
    ∃ next, Tick M self DeltaTime
        = some (next, LinearTickEvents self (Binary32.Add self.CurrentTime DeltaTime)) ∧
      next.CurrentTime = min (Binary32.Add self.CurrentTime DeltaTime) self.Time ∧
      next.BlendFunc = self.BlendFunc ∧ next.Time = self.Time ∧ next.TickFunc = self.TickFunc ∧
      next.StartValue = self.StartValue ∧ next.StopValue = self.StopValue ∧
      next.CallbackFunc = self.CallbackFunc ∧
      next.CallbackFunc_NoStopped = self.CallbackFunc_NoStopped := by
  have hct : (Advanced M self DeltaTime).CurrentTime
      = min (Binary32.Add self.CurrentTime DeltaTime) self.Time := by
    show FMath.Clamp (Binary32.Add self.CurrentTime DeltaTime) 0 self.Time = _
    exact Clamp_eq_min _ _ (le_of_lt (Binary32.Add_pos hLo hDelta))
  have hcv : (Advanced M self DeltaTime).CurrentValue
      = FMath.Lerp self.StartValue self.StopValue
          (Binary32.Div (min (Binary32.Add self.CurrentTime DeltaTime) self.Time) self.Time) := by
    rw [← hct]
    show GetValue M _ = _
    unfold GetValue
    rw [show (_ : UECFTimelineLinearColor).BlendFunc = self.BlendFunc from rfl, hLinear]
    rfl
  by_cases hR : self.Time ≤ Binary32.Add self.CurrentTime DeltaTime
  · have hmin : min (Binary32.Add self.CurrentTime DeltaTime) self.Time = self.Time :=
      min_eq_right hR
    have hR2 : self.Time ≤ (Advanced M self DeltaTime).CurrentTime := by
      rw [hct, hmin]
    have hstop : (Advanced M self DeltaTime).CurrentValue
        = FMath.Lerp self.StartValue self.StopValue 1 := by
      rw [hcv, hmin, Binary32.Div_self (ne_of_gt hTime)]
    have hcomp : (Complete (Advanced M self DeltaTime) false).2
        = InvokeCallbackFunc self (FMath.Lerp self.StartValue self.StopValue 1) self.Time
            false := by
      simp only [Complete, hstop, hct, hmin]
      rfl
    have hev : [TimelineEvent.TickFunc (Advanced M self DeltaTime).CurrentValue
          (Advanced M self DeltaTime).CurrentTime]
          ++ (Complete (Advanced M self DeltaTime) false).2 ++ [TimelineEvent.MarkAsFinished]
        = LinearTickEvents self (Binary32.Add self.CurrentTime DeltaTime) := by
      rw [hcomp, hcv, hct]
      simp only [LinearTickEvents, if_pos hR, List.singleton_append, List.cons_append,
        List.nil_append]
    refine ⟨{ Advanced M self DeltaTime with bHasFinished := true }, ?_, hct, rfl, rfl, rfl, rfl,
      rfl, rfl, rfl⟩
    rw [Tick_of_reached M self DeltaTime hTick hR2, hev]
  · have hlt : Binary32.Add self.CurrentTime DeltaTime < self.Time := not_le.1 hR
    have hmin : min (Binary32.Add self.CurrentTime DeltaTime) self.Time
        = Binary32.Add self.CurrentTime DeltaTime :=
      min_eq_left (le_of_lt hlt)
    have hR2 : ¬ self.Time ≤ (Advanced M self DeltaTime).CurrentTime := by
      rw [hct, hmin]; exact hR
    have hev : [TimelineEvent.TickFunc (Advanced M self DeltaTime).CurrentValue
          (Advanced M self DeltaTime).CurrentTime]
        = LinearTickEvents self (Binary32.Add self.CurrentTime DeltaTime) := by
      rw [hcv, hct]
      simp only [LinearTickEvents, if_neg hR]
    refine ⟨Advanced M self DeltaTime, ?_, hct, rfl, rfl, rfl, rfl, rfl, rfl, rfl⟩
    rw [Tick_of_not_reached M self DeltaTime hTick hR2, hev]

/-- A sequence of ticks of a linear timeline with positive deltas, from a clock that is not
negative: the events of the tick number `k` are the described events at the accumulated
time. -/
theorem Ticks_linear (M : EngineMath) :
    ∀ (deltas : List ℚ) (self : UECFTimelineLinearColor),
      self.BlendFunc = .ECFBlend_Linear → 0 < self.Time → Binary32.IsValue self.Time →
      self.TickFunc = true → 0 ≤ self.CurrentTime → (∀ d ∈ deltas, 0 < d) →
      ∃ final traces, PerformAll M self (deltas.map Call.Tick) = some (final, traces) ∧
        traces.length = deltas.length ∧
        ∀ k, k < deltas.length →
          traces[k]? = some (LinearTickEvents self
            ((deltas.take (k + 1)).foldl Binary32.Add self.CurrentTime)) := by
  intro deltas
  induction deltas with
  | nil =>
    intro self _ _ _ _ _ _
    exact ⟨self, [], rfl, rfl, by simp⟩
  | cons d ds ih =>
    intro self hLinear hTime hFloat hTick hLo hPos
    have hd : 0 < d := hPos d (List.mem_cons_self _ _)
    obtain ⟨next, hN, hct, hbf, htime, htf, hsv, hev, hcb, hcn⟩ :=
      Tick_linear M self d hLinear hTime hTick hLo hd
    have hLo2 : 0 ≤ next.CurrentTime := by
      rw [hct]; exact le_min (le_of_lt (Binary32.Add_pos hLo hd)) (le_of_lt hTime)
    obtain ⟨final, traces, hP, hlen, hk⟩ := ih next (by rw [hbf]; exact hLinear)
      (by rw [htime]; exact hTime) (by rw [htime]; exact hFloat) (by rw [htf]; exact hTick) hLo2
      (fun x hx => hPos x (List.mem_cons_of_mem _ hx))
    refine ⟨final, LinearTickEvents self (Binary32.Add self.CurrentTime d) :: traces, ?_, ?_, ?_⟩
    · simp only [List.map_cons, PerformAll, Perform, hN, hP]
    · simp only [List.length_cons, hlen]
    · intro k hklt
      cases k with
      | zero => simp
      | succ j =>
        have hj : j < ds.length := by
          simp only [List.length_cons] at hklt
          omega
        have hPos2 : ∀ x ∈ ds.take (j + 1), 0 < x := fun x hx =>
          hPos x (List.mem_cons_of_mem _ (List.mem_of_mem_take hx))
        rw [List.getElem?_cons_succ, hk j hj, hct,
          LinearTickEvents_congr next self _ hsv hev htime hcb hcn,
          LinearTickEvents_clamped self _ _ hFloat hTime hPos2]
        rfl

/-- C8 (as amended): a linear timeline with a bound tick function whose duration `Time > 0`
is a binary32 value, ticked from `CurrentTime = 0` with positive deltas `d1..dn`, every sum
being the `float` sum: every tick returns; the tick number `k` calls the tick callback with
the time `min(d1+..+dk, Time)` and the value `lerp(StartValue, StopValue, that time / Time)`;
every tick whose accumulated time has reached `Time` (the first one in particular) reports
exactly `Time` and the value `lerp(StartValue, StopValue, 1)`, that is
`StartValue + 1 * (StopValue - StartValue)` in `float` arithmetic (it is exactly `StopValue`
when `StartValue` is the zero colour and `StopValue` holds binary32 values), then runs the
completion callback with that same value, `Time` and `stopped = false` on that same tick and
marks the action finished; a tick whose accumulated time is below `Time` calls nothing
else. -/
theorem Tick_linear_sequence (M : EngineMath) (self : UECFTimelineLinearColor) (deltas : List ℚ)
    (hLinear : self.BlendFunc = .ECFBlend_Linear) (hTime : self.Time > 0)
    (hFloat : Binary32.IsValue self.Time)
    (hTick : self.TickFunc = true) (hZero : self.CurrentTime = 0)
    (hPos : ∀ d ∈ deltas, 0 < d) :
    ∃ final traces, PerformAll M self (deltas.map Call.Tick) = some (final, traces) ∧
      traces.length = deltas.length ∧
      ∀ k, k < deltas.length →
        traces[k]? = some (LinearTickEvents self (Binary32.Sum (deltas.take (k + 1)))) ∧
        (self.Time ≤ Binary32.Sum (deltas.take (k + 1)) →
          traces[k]? = some (.TickFunc (FMath.Lerp self.StartValue self.StopValue 1) self.Time
            :: (InvokeCallbackFunc self (FMath.Lerp self.StartValue self.StopValue 1)
                  self.Time false ++ [.MarkAsFinished])) ∧
          (self.CallbackFunc = .User →
            traces[k]? = some
              [.TickFunc (FMath.Lerp self.StartValue self.StopValue 1) self.Time,
               .CallbackFunc (FMath.Lerp self.StartValue self.StopValue 1) self.Time false,
               .MarkAsFinished]) ∧
          (self.StartValue = ⟨0, 0, 0, 0⟩ → self.StopValue.IsBinary32 →
            FMath.Lerp self.StartValue self.StopValue 1 = self.StopValue)) ∧
        (¬ self.Time ≤ Binary32.Sum (deltas.take (k + 1)) →
          traces[k]? = some [.TickFunc
            (FMath.Lerp self.StartValue self.StopValue
              (Binary32.Div (Binary32.Sum (deltas.take (k + 1))) self.Time))
            (Binary32.Sum (deltas.take (k + 1)))]) := by
  obtain ⟨final, traces, hP, hlen, hk⟩ := Ticks_linear M deltas self hLinear hTime hFloat hTick
    (by rw [hZero]) hPos
  refine ⟨final, traces, hP, hlen, ?_⟩
  intro k hklt
  have h : traces[k]? = some (LinearTickEvents self (Binary32.Sum (deltas.take (k + 1)))) := by
    have h0 := hk k hklt
    rw [hZero] at h0
    exact h0
  refine ⟨h, ?_, ?_⟩
  · intro hR
    have hE : LinearTickEvents self (Binary32.Sum (deltas.take (k + 1)))
        = .TickFunc (FMath.Lerp self.StartValue self.StopValue 1) self.Time
            :: (InvokeCallbackFunc self (FMath.Lerp self.StartValue self.StopValue 1)
                  self.Time false ++ [.MarkAsFinished]) := by
      simp only [LinearTickEvents, if_pos hR, min_eq_right hR,
        Binary32.Div_self (ne_of_gt hTime)]
    refine ⟨by rw [h, hE], ?_, ?_⟩
    · intro hUser
      rw [h, hE]
      simp only [InvokeCallbackFunc, hUser, List.singleton_append]
    · intro hS hB
      rw [hS]
      exact Lerp_one_of_zero _ hB
  · intro hR
    rw [h]
    simp only [LinearTickEvents, if_neg hR, min_eq_left (le_of_lt (not_le.1 hR))]

/-- Witness for C8, the timeline-boundary property: start 0, stop 10, duration 2, deltas
`[1, 1]`: the tick values are 5 and then 10, and the completion callback runs on the second
tick with `stopped = false`. -/
theorem Tick_linear_sequence_witness :
    ∃ final, PerformAll SampleMath SampleTimeline [.Tick 1, .Tick 1]
      = some (final,
          [[.TickFunc ⟨5, 5, 5, 5⟩ 1],
           [.TickFunc ⟨10, 10, 10, 10⟩ 2, .CallbackFunc ⟨10, 10, 10, 10⟩ 2 false,
            .MarkAsFinished]]) := by
  obtain ⟨final, traces, hP, hlen, hk⟩ := Tick_linear_sequence SampleMath SampleTimeline [1, 1]
    rfl (by decide!) (by decide!) rfl rfl (by simp)
  refine ⟨final, ?_⟩
  have h0 := (hk 0 (by simp)).1
  have h1 := (hk 1 (by simp)).1
  have e0 : LinearTickEvents SampleTimeline (Binary32.Sum (List.take (0 + 1) [(1 : ℚ), 1]))
      = [.TickFunc ⟨5, 5, 5, 5⟩ 1] := by decide!
  have e1 : LinearTickEvents SampleTimeline (Binary32.Sum (List.take (1 + 1) [(1 : ℚ), 1]))
      = [.TickFunc ⟨10, 10, 10, 10⟩ 2, .CallbackFunc ⟨10, 10, 10, 10⟩ 2 false,
          .MarkAsFinished] := by decide!
  rw [e0] at h0
  rw [e1] at h1
  have hl : traces = [[.TickFunc ⟨5, 5, 5, 5⟩ 1],
      [.TickFunc ⟨10, 10, 10, 10⟩ 2, .CallbackFunc ⟨10, 10, 10, 10⟩ 2 false,
        .MarkAsFinished]] := by
    match traces, hlen, h0, h1 with
    | [a, b], _, h0, h1 =>
      simp only [List.getElem?_cons_zero, List.getElem?_cons_succ, Option.some.injEq] at h0 h1
      rw [h0, h1]
  rw [← hl]
  exact hP

/-- Counterexample to C8 as stated. (1) The timeline from 1 to `0.1f` lasting one second,
ticked once by one second, reaches its duration on that tick, and both the tick callback and
the completion callback get the value `838861 / 2^23 = 0.10000002...`, not the stop value
`0.1f = 13421773 / 2^27`: `1 + 1 * (0.1f - 1)` is not `0.1f` in `float` arithmetic. (2) The
timeline of duration `0.3f` ticked three times by `0.1f` completes on the third tick, on which
the accumulated `float` time is `0.3f`, although the exact sum of the three deltas is below
the duration. -/
theorem Tick_linear_sequence_counterexample :
    SampleRoundingTimeline.BlendFunc = .ECFBlend_Linear ∧
    SampleRoundingTimeline.StartValue ≠ SampleRoundingTimeline.StopValue ∧
    SampleRoundingTimeline.Time > 0 ∧ SampleRoundingTimeline.CurrentTime = 0 ∧
    (Setup Zeroed SampleRoundingTimeline.StartValue SampleRoundingTimeline.StopValue 1 true
      .User .ECFBlend_Linear 1) = (true, SampleRoundingTimeline) ∧
    (∃ final, PerformAll SampleMath SampleRoundingTimeline [.Tick 1]
      = some (final,
          [[.TickFunc ⟨838861 / 8388608, 838861 / 8388608, 838861 / 8388608,
              838861 / 8388608⟩ 1,
            .CallbackFunc ⟨838861 / 8388608, 838861 / 8388608, 838861 / 8388608,
              838861 / 8388608⟩ 1 false,
            .MarkAsFinished]])) ∧
    SampleRoundingTimeline.StopValue
      ≠ ⟨838861 / 8388608, 838861 / 8388608, 838861 / 8388608, 838861 / 8388608⟩ ∧
    ((13421773 / 134217728 + 13421773 / 134217728 + 13421773 / 134217728 : ℚ)
      < SampleTenthsTimeline.Time) ∧
    (∃ final traces,
      PerformAll SampleMath SampleTenthsTimeline
          [.Tick (13421773 / 134217728), .Tick (13421773 / 134217728),
           .Tick (13421773 / 134217728)]
        = some (final, traces) ∧
      traces.map (fun events => events.map TimelineEvent.ReportedTime)
        = [[some (13421773 / 134217728)], [some (13421773 / 67108864)],
           [some (5033165 / 16777216), some (5033165 / 16777216), none]] ∧
      traces[2]? = some
        [.TickFunc ⟨10, 10, 10, 10⟩ (5033165 / 16777216),
         .CallbackFunc ⟨10, 10, 10, 10⟩ (5033165 / 16777216) false, .MarkAsFinished]) := by
  refine ⟨rfl, by decide!, by decide!, rfl, by decide!,
    ⟨{ SampleRoundingTimeline with
        CurrentTime := 1,
        CurrentValue := ⟨838861 / 8388608, 838861 / 8388608, 838861 / 8388608,
          838861 / 8388608⟩,
        bHasFinished := true }, by decide!⟩,
    by decide!, by decide!, ?_⟩
  have hEval : (PerformAll SampleMath SampleTenthsTimeline
      [.Tick (13421773 / 134217728), .Tick (13421773 / 134217728),
       .Tick (13421773 / 134217728)]).isSome = true := by decide!
  obtain ⟨⟨final, traces⟩, hP⟩ := Option.isSome_iff_exists.1 hEval
  refine ⟨final, traces, hP, ?_, ?_⟩
  · have h : (PerformAll SampleMath SampleTenthsTimeline
        [.Tick (13421773 / 134217728), .Tick (13421773 / 134217728),
         .Tick (13421773 / 134217728)]).map
          (fun r => r.2.map (fun events => events.map TimelineEvent.ReportedTime))
        = some [[some (13421773 / 134217728)], [some (13421773 / 67108864)],
           [some (5033165 / 16777216), some (5033165 / 16777216), none]] := by decide!
    rw [hP] at h
    exact Option.some.inj h
  · have h : (PerformAll SampleMath SampleTenthsTimeline
        [.Tick (13421773 / 134217728), .Tick (13421773 / 134217728),
         .Tick (13421773 / 134217728)]).map (fun r => r.2[2]?)
        = some (some
            [.TickFunc ⟨10, 10, 10, 10⟩ (5033165 / 16777216),
             .CallbackFunc ⟨10, 10, 10, 10⟩ (5033165 / 16777216) false, .MarkAsFinished]) := by
      decide!
    rw [hP] at h
    exact Option.some.inj h

/-- C18: for every timeline state and every `bStopped`, `Complete(bStopped)` calls the member
`CallbackFunc` exactly once with `(CurrentValue, CurrentTime, bStopped)` when it is bound and
not at all when it is unbound; a caller-supplied callback receives exactly these three
arguments (so a stop with completion reports `stopped = true` and natural completion
`stopped = false`), the forwarding lambda of the overload without the stopped flag hands
`(CurrentValue, CurrentTime)` unchanged to `CallbackFunc_NoStopped` when that is bound; no
user code runs when no callback is bound; the tick callback is never called, the action is
not marked finished, and no field of the timeline changes. -/
theorem Complete_callback (self : UECFTimelineLinearColor) (bStopped : Bool) :
    (Complete self bStopped).1 = self ∧
    CompleteCalls self bStopped
      = (if self.CallbackFunc = .Unbound then []
          else [(self.CurrentValue, self.CurrentTime, bStopped)]) ∧
    (Complete self bStopped).2 = (CompleteCalls self bStopped).flatMap (RunCallbackFunc self) ∧
    (Complete self bStopped).2
      = (match self.CallbackFunc with
          | .Unbound => []
          | .User => [.CallbackFunc self.CurrentValue self.CurrentTime bStopped]
          | .ForwardNoStopped =>
            if self.CallbackFunc_NoStopped then
              [.CallbackFunc_NoStopped self.CurrentValue self.CurrentTime]
            else []) ∧
    (Complete self bStopped).2.length ≤ 1 ∧
    (Complete self bStopped).2.countP TimelineEvent.IsTickFunc = 0 ∧
    TimelineEvent.MarkAsFinished ∉ (Complete self bStopped).2 ∧
    (Complete self bStopped).2.length
      = (Complete self bStopped).2.countP TimelineEvent.IsCallbackFunc := by
  have h := InvokeCallbackFunc_events self self.CurrentValue self.CurrentTime bStopped
  refine ⟨rfl, ?_, ?_, rfl, h.2.2.1, h.1, h.2.1, ?_⟩
  · unfold CompleteCalls
    cases self.CallbackFunc <;> simp
  · unfold Complete CompleteCalls RunCallbackFunc InvokeCallbackFunc
    cases self.CallbackFunc <;> simp
  · unfold Complete InvokeCallbackFunc
    cases self.CallbackFunc with
    | Unbound => simp
    | User => simp [TimelineEvent.IsCallbackFunc]
    | ForwardNoStopped =>
      cases self.CallbackFunc_NoStopped <;> simp [TimelineEvent.IsCallbackFunc]

/-- For the linear and the cubic blend, `GetValue` reads only the start and stop values, the
duration and the clock. -/
theorem GetValue_congr (M : EngineMath) (a b : UECFTimelineLinearColor)
    (hStart : a.StartValue = b.StartValue) (hStop : a.StopValue = b.StopValue)
    (hTime : a.Time = b.Time) (hClock : a.CurrentTime = b.CurrentTime)
    (hBlend : a.BlendFunc = b.BlendFunc)
    (hKind : a.BlendFunc = .ECFBlend_Linear ∨ a.BlendFunc = .ECFBlend_Cubic) :
    GetValue M a = GetValue M b := by
  unfold GetValue
  rw [← hBlend, ← hStart, ← hStop, ← hTime, ← hClock]
  rcases hKind with h | h <;> rw [h]

/-- The tick reports among the events of a completing tick are the one call of the tick
callback. -/
theorem TickReports_of_reached (self : UECFTimelineLinearColor) (Value : FLinearColor)
    (Time : ℚ) :
    TickReports ([TimelineEvent.TickFunc Value Time] ++ (Complete self false).2
      ++ [TimelineEvent.MarkAsFinished]) = [TimelineEvent.TickFunc Value Time] := by
  have h0 := (InvokeCallbackFunc_events self self.CurrentValue self.CurrentTime false).1
  have hnil : List.filter TimelineEvent.IsTickFunc (Complete self false).2 = [] := by
    rw [List.filter_eq_nil_iff]
    exact List.countP_eq_zero.1 h0
  simp only [TickReports, List.filter_append, hnil, List.append_nil]
  simp [TimelineEvent.IsTickFunc]

/-- One tick of two timelines that run the same linear or cubic curve: both return, they
still run the same curve, and they report the same tick value and time. -/
theorem Tick_same_curve (M : EngineMath) (a b : UECFTimelineLinearColor) (DeltaTime : ℚ)
    (hTickA : a.TickFunc = true) (hTickB : b.TickFunc = true)
    (hStart : a.StartValue = b.StartValue) (hStop : a.StopValue = b.StopValue)
    (hTime : a.Time = b.Time) (hClock : a.CurrentTime = b.CurrentTime)
    (hBlend : a.BlendFunc = b.BlendFunc)
    (hKind : a.BlendFunc = .ECFBlend_Linear ∨ a.BlendFunc = .ECFBlend_Cubic) :
    ∃ a2 ea b2 eb, Tick M a DeltaTime = some (a2, ea) ∧ Tick M b DeltaTime = some (b2, eb) ∧
      a2.TickFunc = true ∧ b2.TickFunc = true ∧
      a2.StartValue = b2.StartValue ∧ a2.StopValue = b2.StopValue ∧ a2.Time = b2.Time ∧
      a2.CurrentTime = b2.CurrentTime ∧ a2.BlendFunc = b2.BlendFunc ∧
      a2.BlendFunc = a.BlendFunc ∧ a2.CurrentValue = b2.CurrentValue ∧
      TickReports ea = TickReports eb := by
  have hct : (Advanced M a DeltaTime).CurrentTime = (Advanced M b DeltaTime).CurrentTime := by
    show FMath.Clamp (Binary32.Add a.CurrentTime DeltaTime) 0 a.Time
      = FMath.Clamp (Binary32.Add b.CurrentTime DeltaTime) 0 b.Time
    rw [hClock, hTime]
  have hcv : (Advanced M a DeltaTime).CurrentValue = (Advanced M b DeltaTime).CurrentValue := by
    show GetValue M _ = GetValue M _
    exact GetValue_congr M _ _ hStart hStop hTime hct hBlend hKind
  by_cases hR : a.Time ≤ (Advanced M a DeltaTime).CurrentTime
  · have hRb : b.Time ≤ (Advanced M b DeltaTime).CurrentTime := by
      rw [← hTime, ← hct]; exact hR
    refine ⟨_, _, _, _, Tick_of_reached M a DeltaTime hTickA hR,
      Tick_of_reached M b DeltaTime hTickB hRb, hTickA, hTickB, hStart, hStop, hTime, hct,
      hBlend, rfl, hcv, ?_⟩
    rw [TickReports_of_reached, TickReports_of_reached, hcv, hct]
  · have hRb : ¬ b.Time ≤ (Advanced M b DeltaTime).CurrentTime := by
      rw [← hTime, ← hct]; exact hR
    refine ⟨_, _, _, _, Tick_of_not_reached M a DeltaTime hTickA hR,
      Tick_of_not_reached M b DeltaTime hTickB hRb, hTickA, hTickB, hStart, hStop, hTime, hct,
      hBlend, rfl, hcv, ?_⟩
    rw [hcv, hct]

/-- Sequences of ticks of two timelines that run the same linear or cubic curve report the
same tick values and times. -/
theorem Ticks_same_curve (M : EngineMath) :
    ∀ (deltas : List ℚ) (a b : UECFTimelineLinearColor),
      a.TickFunc = true → b.TickFunc = true →
      a.StartValue = b.StartValue → a.StopValue = b.StopValue → a.Time = b.Time →
      a.CurrentTime = b.CurrentTime → a.BlendFunc = b.BlendFunc →
      (a.BlendFunc = .ECFBlend_Linear ∨ a.BlendFunc = .ECFBlend_Cubic) →
      ∃ fa ta fb tb, PerformAll M a (deltas.map Call.Tick) = some (fa, ta) ∧
        PerformAll M b (deltas.map Call.Tick) = some (fb, tb) ∧
        ta.map TickReports = tb.map TickReports := by
  intro deltas
  induction deltas with
  | nil =>
    intro a b _ _ _ _ _ _ _ _
    exact ⟨a, [], b, [], rfl, rfl, rfl⟩
  | cons d ds ih =>
    intro a b hTickA hTickB hStart hStop hTime hClock hBlend hKind
    obtain ⟨a2, ea, b2, eb, hA, hB, hTA, hTB, hS1, hS2, hT, hC, hBl, hK, _, hRep⟩ :=
      Tick_same_curve M a b d hTickA hTickB hStart hStop hTime hClock hBlend hKind
    obtain ⟨fa, ta, fb, tb, hPA, hPB, hEq⟩ := ih a2 b2 hTA hTB hS1 hS2 hT hC hBl
      (by rw [hK]; exact hKind)
    refine ⟨fa, ea :: ta, fb, eb :: tb, ?_, ?_, ?_⟩
    · simp only [List.map_cons, PerformAll, Perform, hA, hPA]
    · simp only [List.map_cons, PerformAll, Perform, hB, hPB]
    · simp only [List.map_cons, hRep, hEq]

/-- C19: the blend exponent is not read by the linear and the cubic blend. Two timelines
with the same linear or cubic blend function that agree on `StartValue`, `StopValue`, `Time`
and `CurrentTime`, whatever their `BlendExp` (and whatever else differs), return the same
`GetValue`, and, their tick functions being bound, report the same sequence of tick values
and times for the same sequence of deltas. -/
theorem BlendExp_unused_by_linear_and_cubic (M : EngineMath) (a b : UECFTimelineLinearColor)
    (deltas : List ℚ)
    (hStart : a.StartValue = b.StartValue) (hStop : a.StopValue = b.StopValue)
    (hTime : a.Time = b.Time) (hClock : a.CurrentTime = b.CurrentTime)
    (hBlend : a.BlendFunc = b.BlendFunc)
    (hKind : a.BlendFunc = .ECFBlend_Linear ∨ a.BlendFunc = .ECFBlend_Cubic) :
    GetValue M a = GetValue M b ∧
    (a.TickFunc = true → b.TickFunc = true →
      ∃ fa ta fb tb, PerformAll M a (deltas.map Call.Tick) = some (fa, ta) ∧
        PerformAll M b (deltas.map Call.Tick) = some (fb, tb) ∧
        ta.map TickReports = tb.map TickReports) :=
  ⟨GetValue_congr M a b hStart hStop hTime hClock hBlend hKind,
    fun hTickA hTickB =>
      Ticks_same_curve M deltas a b hTickA hTickB hStart hStop hTime hClock hBlend hKind⟩

/-- Witness for C19: the sample timeline and a copy with blend exponent 7 report the same tick
values for the deltas `[1, 1]`. -/
theorem BlendExp_unused_by_linear_and_cubic_witness :
    GetValue SampleMath SampleTimeline
      = GetValue SampleMath { SampleTimeline with BlendExp := 7 } ∧
    ∃ fa ta fb tb,
      PerformAll SampleMath SampleTimeline ([1, 1].map Call.Tick) = some (fa, ta) ∧
      PerformAll SampleMath { SampleTimeline with BlendExp := 7 } ([1, 1].map Call.Tick)
        = some (fb, tb) ∧
      ta.map TickReports = tb.map TickReports :=
  have h := BlendExp_unused_by_linear_and_cubic SampleMath SampleTimeline
    { SampleTimeline with BlendExp := 7 } [1, 1] rfl rfl rfl rfl rfl (Or.inl rfl)
  ⟨h.1, h.2 rfl rfl⟩

/-- The value/time consistency `CurrentValue = GetValue()` is established by every `Tick` and
every `Reset` (with a bound tick function) and kept by `Complete`; the pair handed to the tick
callback is then a point of the curve. -/
theorem Perform_value_on_curve (M : EngineMath) (self : UECFTimelineLinearColor) (c : Call)
    (hTick : self.TickFunc = true) :
    ∃ next events, Perform M self c = some (next, events) ∧ next.TickFunc = true ∧
      (match c with
        | .Tick _ => next.CurrentValue = GetValue M next ∧
            events.head? = some (.TickFunc (GetValue M next) next.CurrentTime)
        | .Reset _ => next.CurrentValue = GetValue M next ∧
            ∀ e ∈ events, e = .TickFunc (GetValue M next) next.CurrentTime
        | .Complete _ => next = self) := by
  cases c with
  | Tick DeltaTime =>
    by_cases hR : self.Time ≤ (Advanced M self DeltaTime).CurrentTime
    · exact ⟨_, _, Tick_of_reached M self DeltaTime hTick hR, hTick, rfl, rfl⟩
    · exact ⟨_, _, Tick_of_not_reached M self DeltaTime hTick hR, hTick, rfl, rfl⟩
  | Reset bCallUpdate =>
    have hT : (Rewound M self).TickFunc = true := hTick
    cases bCallUpdate with
    | true =>
      refine ⟨Rewound M self,
        [.TickFunc (Rewound M self).CurrentValue (Rewound M self).CurrentTime], ?_, hTick, rfl,
        ?_⟩
      · simp only [Perform, Reset, hT, if_true]
      · intro e he
        simp only [List.mem_singleton] at he
        rw [he]; rfl
    | false =>
      refine ⟨Rewound M self, [], ?_, hTick, rfl, ?_⟩
      · simp only [Perform, Reset, Bool.false_eq_true, if_false]
      · intro e he
        simp at he
  | Complete bStopped =>
    exact ⟨self, _, rfl, hTick, rfl⟩

/-- C20, evaluation at the failing input: `Setup` of a new object with start value 1, stop
value 2 and duration 1 succeeds and sets `CurrentTime` to 0 but leaves `CurrentValue` as it
was (the zero colour), while the blend function at time 0 is the start value 1; a completion
requested before the first tick hands the pair `(0, 0)` with `stopped = true` to the
completion callback, which is not a point of the curve. -/
theorem Setup_leaves_CurrentValue_unset :
    (Setup Zeroed ⟨1, 1, 1, 1⟩ ⟨2, 2, 2, 2⟩ 1 true .User .ECFBlend_Linear 1).1 = true ∧
    FreshlySetUp.CurrentTime = 0 ∧
    FreshlySetUp.CurrentValue = ⟨0, 0, 0, 0⟩ ∧
    GetValue SampleMath FreshlySetUp = ⟨1, 1, 1, 1⟩ ∧
    FreshlySetUp.CurrentValue ≠ GetValue SampleMath FreshlySetUp ∧
    PerformAll SampleMath FreshlySetUp [.Complete true]
      = some (FreshlySetUp, [[.CallbackFunc ⟨0, 0, 0, 0⟩ 0 true]]) ∧
    (Rewound SampleMath FreshlySetUp).CurrentValue = ⟨1, 1, 1, 1⟩ := by
  have hS : (Setup Zeroed ⟨1, 1, 1, 1⟩ ⟨2, 2, 2, 2⟩ 1 true .User .ECFBlend_Linear 1).1 = true := by
    simp [Setup, Zeroed, FLinearColor.NotEqual]
  have hF : FreshlySetUp
      = { TickFunc := true, CallbackFunc := .User, CallbackFunc_NoStopped := false,
          StartValue := ⟨1, 1, 1, 1⟩, StopValue := ⟨2, 2, 2, 2⟩, Time := 1,
          BlendFunc := .ECFBlend_Linear, BlendExp := 1, CurrentTime := 0,
          CurrentValue := ⟨0, 0, 0, 0⟩, MaxActionTime := 1, bHasFinished := false } := by
    simp [FreshlySetUp, Setup, Zeroed, FLinearColor.NotEqual]
  have h0 : Binary32.Div 0 1 = 0 := by decide!
  have h1 : Binary32.Sub 2 1 = 1 := by decide!
  have h2 : Binary32.Mul 0 1 = 0 := by decide!
  have h3 : Binary32.Add 1 0 = 1 := by decide!
  have hV : GetValue SampleMath FreshlySetUp = ⟨1, 1, 1, 1⟩ := by
    rw [hF]
    simp only [GetValue, FMath.Lerp, FLinearColor.Add, FLinearColor.Sub, FLinearColor.Scale,
      h0, h1, h2, h3]
  have hC : FreshlySetUp.CurrentValue = ⟨0, 0, 0, 0⟩ := by rw [hF]
  have hT : FreshlySetUp.CurrentTime = 0 := by rw [hF]
  refine ⟨hS, hT, hC, hV, ?_, ?_, ?_⟩
  · rw [hC, hV]; simp
  · simp only [PerformAll, Perform, Complete, hC, hT]
    rw [hF]
    rfl
  · rw [hF]
    simp only [Rewound, GetValue, FMath.Lerp, FLinearColor.Add, FLinearColor.Sub,
      FLinearColor.Scale, h0, h1, h2, h3]

/-- What `GetValue` returns for each blend function, with `t = CurrentTime / Time`: the
linear, ease-in and ease-out blends are the stated interpolations, `lerp(a, b, x)` being
`a + x * (b - a)` on every channel; the cubic blend is the cubic interpolation whose two
tangents are `FLinearColor::Black`. Every operation is the `float` operation. -/
theorem GetValue_formulas (M : EngineMath) (self : UECFTimelineLinearColor) :
    (self.BlendFunc = .ECFBlend_Linear →
      GetValue M self
        = FMath.Lerp self.StartValue self.StopValue
            (Binary32.Div self.CurrentTime self.Time)) ∧
    (self.BlendFunc = .ECFBlend_EaseIn →
      GetValue M self = FMath.Lerp self.StartValue self.StopValue
        (M.Pow (Binary32.Div self.CurrentTime self.Time) self.BlendExp)) ∧
    (self.BlendFunc = .ECFBlend_EaseOut →
      GetValue M self = FMath.Lerp self.StartValue self.StopValue
        (M.Pow (Binary32.Div self.CurrentTime self.Time) (Binary32.Div 1 self.BlendExp))) ∧
    (self.BlendFunc = .ECFBlend_Cubic →
      GetValue M self = M.CubicInterp self.StartValue FLinearColor.Black self.StopValue
        FLinearColor.Black (Binary32.Div self.CurrentTime self.Time)) ∧
    (∀ (a b : FLinearColor) (x : ℚ),
      FMath.Lerp a b x
        = ⟨Binary32.Add a.R (Binary32.Mul x (Binary32.Sub b.R a.R)),
            Binary32.Add a.G (Binary32.Mul x (Binary32.Sub b.G a.G)),
            Binary32.Add a.B (Binary32.Mul x (Binary32.Sub b.B a.B)),
            Binary32.Add a.A (Binary32.Mul x (Binary32.Sub b.A a.A))⟩) := by
  refine ⟨?_, ?_, ?_, ?_, fun _ _ _ => rfl⟩ <;> intro h <;> unfold GetValue <;> rw [h]

/-- With the engine's cubic interpolation, the tangents `FLinearColor::Black` are zero on the
red, green and blue channels but one on the alpha channel: against the interpolation with
both tangents zero, the colour channels agree for every input, and the alpha channel is the
one of the interpolation with both tangents one. -/
theorem CubicInterp_Black_tangents (P0 P1 : FLinearColor) (t : ℚ) :
    (FMath.CubicInterp P0 FLinearColor.Black P1 FLinearColor.Black t).R
      = (FMath.CubicInterp P0 ⟨0, 0, 0, 0⟩ P1 ⟨0, 0, 0, 0⟩ t).R ∧
    (FMath.CubicInterp P0 FLinearColor.Black P1 FLinearColor.Black t).G
      = (FMath.CubicInterp P0 ⟨0, 0, 0, 0⟩ P1 ⟨0, 0, 0, 0⟩ t).G ∧
    (FMath.CubicInterp P0 FLinearColor.Black P1 FLinearColor.Black t).B
      = (FMath.CubicInterp P0 ⟨0, 0, 0, 0⟩ P1 ⟨0, 0, 0, 0⟩ t).B ∧
    (FMath.CubicInterp P0 FLinearColor.Black P1 FLinearColor.Black t).A
      = (FMath.CubicInterp P0 ⟨1, 1, 1, 1⟩ P1 ⟨1, 1, 1, 1⟩ t).A := by
  simp only [FMath.CubicInterp, FLinearColor.Black, FLinearColor.Add, FLinearColor.Scale,
    and_self]

/-- C11, evaluation at the failing input: for the cubic timeline from opaque black to opaque
white, a quarter into its duration, `GetValue` returns alpha `35/32`, whereas the cubic
interpolation of the start and stop values with both tangents zero has alpha 1 there (the
colour channels agree at `5/32`). -/
theorem GetValue_cubic_alpha_tangent :
    SampleCubicTimeline.Time > 0 ∧
    SampleCubicTimeline.CurrentTime / SampleCubicTimeline.Time = 1 / 4 ∧
    GetValue CubicMath SampleCubicTimeline = ⟨5 / 32, 5 / 32, 5 / 32, 35 / 32⟩ ∧
    FMath.CubicInterp SampleCubicTimeline.StartValue ⟨0, 0, 0, 0⟩ SampleCubicTimeline.StopValue
      ⟨0, 0, 0, 0⟩ (1 / 4) = ⟨5 / 32, 5 / 32, 5 / 32, 1⟩ ∧
    GetValue CubicMath SampleCubicTimeline
      ≠ FMath.CubicInterp SampleCubicTimeline.StartValue ⟨0, 0, 0, 0⟩
          SampleCubicTimeline.StopValue ⟨0, 0, 0, 0⟩
          (SampleCubicTimeline.CurrentTime / SampleCubicTimeline.Time) := by
  have h0 : Binary32.Div (1 / 4) 1 = 1 / 4 := by decide!
  have h1 : Binary32.Mul (1 / 4) (1 / 4) = 1 / 16 := by decide!
  have h2 : Binary32.Mul (1 / 16) (1 / 4) = 1 / 64 := by decide!
  have h3 : Binary32.Mul 2 (1 / 64) = 1 / 32 := by decide!
  have h4 : Binary32.Mul 3 (1 / 16) = 3 / 16 := by decide!
  have h5 : Binary32.Sub (1 / 32) (3 / 16) = -5 / 32 := by decide!
  have h6 : Binary32.Add (-5 / 32) 1 = 27 / 32 := by decide!
  have h7 : Binary32.Mul 2 (1 / 16) = 1 / 8 := by decide!
  have h8 : Binary32.Sub (1 / 64) (1 / 8) = -7 / 64 := by decide!
  have h9 : Binary32.Add (-7 / 64) (1 / 4) = 9 / 64 := by decide!
  have h10 : Binary32.Sub (1 / 64) (1 / 16) = -3 / 64 := by decide!
  have h11 : Binary32.Mul (-2) (1 / 64) = -1 / 32 := by decide!
  have h12 : Binary32.Add (-1 / 32) (3 / 16) = 5 / 32 := by decide!
  have h13 : Binary32.Mul (27 / 32) 0 = 0 := by decide!
  have h14 : Binary32.Mul (9 / 64) 0 = 0 := by decide!
  have h15 : Binary32.Add 0 0 = 0 := by decide!
  have h16 : Binary32.Mul (-3 / 64) 0 = 0 := by decide!
  have h17 : Binary32.Mul (5 / 32) 1 = 5 / 32 := by decide!
  have h18 : Binary32.Add 0 (5 / 32) = 5 / 32 := by decide!
  have h19 : Binary32.Mul (27 / 32) 1 = 27 / 32 := by decide!
  have h20 : Binary32.Mul (9 / 64) 1 = 9 / 64 := by decide!
  have h21 : Binary32.Add (27 / 32) (9 / 64) = 63 / 64 := by decide!
  have h22 : Binary32.Mul (-3 / 64) 1 = -3 / 64 := by decide!
  have h23 : Binary32.Add (63 / 64) (-3 / 64) = 15 / 16 := by decide!
  have h24 : Binary32.Add (15 / 16) (5 / 32) = 35 / 32 := by decide!
  have h25 : Binary32.Add (27 / 32) 0 = 27 / 32 := by decide!
  have h26 : Binary32.Add (27 / 32) (5 / 32) = 1 := by decide!
  have hG : GetValue CubicMath SampleCubicTimeline = ⟨5 / 32, 5 / 32, 5 / 32, 35 / 32⟩ := by
    simp only [GetValue, SampleCubicTimeline, CubicMath, FMath.CubicInterp, FLinearColor.Black,
      FLinearColor.Add, FLinearColor.Scale, h0, h1, h2, h3, h4, h5, h6, h7, h8, h9, h10, h11,
      h12, h13, h14, h15, h16, h17, h18, h19, h20, h21, h22, h23, h24]
  have hZ : FMath.CubicInterp SampleCubicTimeline.StartValue ⟨0, 0, 0, 0⟩
      SampleCubicTimeline.StopValue ⟨0, 0, 0, 0⟩ (1 / 4) = ⟨5 / 32, 5 / 32, 5 / 32, 1⟩ := by
    simp only [SampleCubicTimeline, FMath.CubicInterp, FLinearColor.Add, FLinearColor.Scale,
      h1, h2, h3, h4, h5, h6, h7, h8, h9, h10, h11, h12, h13, h14, h15, h16, h17, h18, h19,
      h25, h26]
  have hT : SampleCubicTimeline.CurrentTime / SampleCubicTimeline.Time = 1 / 4 := by
    norm_num [SampleCubicTimeline]
  refine ⟨by norm_num [SampleCubicTimeline], hT, hG, hZ, ?_⟩
  rw [hT, hG, hZ]
  norm_num

/-- Linear interpolation at parameter zero is exactly the start value, when that is a colour
of binary32 values. -/
theorem Lerp_zero (A B : FLinearColor) (hA : A.IsBinary32) : FMath.Lerp A B 0 = A := by
  obtain ⟨h1, h2, h3, h4⟩ := hA
  cases A; cases B
  simp only [FMath.Lerp, FLinearColor.Add, FLinearColor.Sub, FLinearColor.Scale,
    Binary32.Mul_zero_left, Binary32.Add_zero_right h1, Binary32.Add_zero_right h2,
    Binary32.Add_zero_right h3, Binary32.Add_zero_right h4]

/-- The engine's cubic interpolation at parameter zero is exactly its first point, whatever
the tangents, when that point is a colour of binary32 values. -/
theorem CubicInterp_at_zero (P0 T0 P1 T1 : FLinearColor) (hP0 : P0.IsBinary32) :
    FMath.CubicInterp P0 T0 P1 T1 0 = P0 := by
  obtain ⟨h1, h2, h3, h4⟩ := hP0
  have e1 : Binary32.Sub 0 0 = 0 := by decide!
  have e2 : Binary32.Add 0 1 = 1 := by decide!
  have e3 : Binary32.Add 0 0 = 0 := by decide!
  cases P0; cases T0; cases P1; cases T1
  simp only [FMath.CubicInterp, FLinearColor.Add, FLinearColor.Scale, Binary32.Mul_zero_left,
    Binary32.Mul_zero_right, e1, e2, e3, Binary32.Mul_one_left h1, Binary32.Mul_one_left h2, Binary32.Mul_one_left h3,
    Binary32.Mul_one_left h4, Binary32.Add_zero_right h1, Binary32.Add_zero_right h2,
    Binary32.Add_zero_right h3, Binary32.Add_zero_right h4]

/-- The state change of `Reset` is idempotent, for every blend function: a second rewind
finds the clock at zero and recomputes the same value. -/
theorem Rewound_idempotent (M : EngineMath) (self : UECFTimelineLinearColor) :
    Rewound M (Rewound M self) = Rewound M self := by
  have hv : GetValue M { Rewound M self with CurrentTime := 0 }
      = GetValue M { self with CurrentTime := 0 } := by
    unfold GetValue
    rfl
  show ({ ({ Rewound M self with CurrentTime := 0 } : UECFTimelineLinearColor) with
      CurrentValue := GetValue M { Rewound M self with CurrentTime := 0 } }
        : UECFTimelineLinearColor) = Rewound M self
  rw [hv]
  rfl

/-- The value that `Reset` computes, for the linear, cubic, ease-in and ease-out blends with a
positive exponent and a start value of binary32 values, given that the engine's power of zero
with a positive exponent is zero and that its cubic interpolation at parameter zero is the
first point. -/
theorem Rewound_value (M : EngineMath) (self : UECFTimelineLinearColor)
    (hExp : self.BlendExp > 0)
    (hBlend : self.BlendFunc = .ECFBlend_Linear ∨ self.BlendFunc = .ECFBlend_Cubic ∨
      self.BlendFunc = .ECFBlend_EaseIn ∨ self.BlendFunc = .ECFBlend_EaseOut)
    (hStart : self.StartValue.IsBinary32)
    (hPow : ∀ e : ℚ, 0 < e → M.Pow 0 e = 0)
    (hCubic : ∀ P0 T0 P1 T1 : FLinearColor, P0.IsBinary32 → M.CubicInterp P0 T0 P1 T1 0 = P0) :
    (Rewound M self).CurrentValue = self.StartValue := by
  show GetValue M { self with CurrentTime := 0 } = self.StartValue
  unfold GetValue
  have hb : ({ self with CurrentTime := 0 } : UECFTimelineLinearColor).BlendFunc
      = self.BlendFunc := rfl
  rw [hb]
  rcases hBlend with h | h | h | h <;> rw [h]
  · show FMath.Lerp self.StartValue self.StopValue (Binary32.Div 0 self.Time) = self.StartValue
    rw [Binary32.Div_zero_left, Lerp_zero _ _ hStart]
  · show M.CubicInterp self.StartValue FLinearColor.Black self.StopValue FLinearColor.Black
      (Binary32.Div 0 self.Time) = self.StartValue
    rw [Binary32.Div_zero_left, hCubic _ _ _ _ hStart]
  · show FMath.Lerp self.StartValue self.StopValue
      (M.Pow (Binary32.Div 0 self.Time) self.BlendExp) = self.StartValue
    rw [Binary32.Div_zero_left, hPow _ hExp, Lerp_zero _ _ hStart]
  · show FMath.Lerp self.StartValue self.StopValue
      (M.Pow (Binary32.Div 0 self.Time) (Binary32.Div 1 self.BlendExp)) = self.StartValue
    rw [Binary32.Div_zero_left, hPow _ (Binary32.Div_pos one_pos hExp), Lerp_zero _ _ hStart]

/-- Unfolding of `Reset` with a bound tick function. -/
theorem Reset_of_bound (M : EngineMath) (self : UECFTimelineLinearColor) (bCallUpdate : Bool)
    (hTick : self.TickFunc = true) :
    Reset M self bCallUpdate
      = some (Rewound M self,
          if bCallUpdate then
            [.TickFunc (Rewound M self).CurrentValue (Rewound M self).CurrentTime]
          else []) := by
  have hT : (Rewound M self).TickFunc = true := hTick
  unfold Reset
  dsimp only
  cases bCallUpdate with
  | true => rw [if_pos rfl, if_pos hT, if_pos rfl]
  | false => rw [if_neg (by simp), if_neg (by simp)]

/-- C21: for every timeline state with a bound tick function, `Time > 0`, `BlendExp > 0`, a
start value whose channels are binary32 values (as every `float` is) and the linear, cubic,
ease-in or ease-out blend (the engine's power of zero with a positive exponent being zero and
its cubic interpolation at parameter zero being the first point, for a first point of binary32
values), `Reset(bCallUpdate)` returns, sets `CurrentTime` to 0 and `CurrentValue` to exactly
`StartValue` and changes no other field; it calls the tick callback exactly once, with
`(StartValue, 0)`, if `bCallUpdate` is true and makes no call otherwise; it never calls a
completion callback and never marks the action finished; and it is idempotent on the state: a
second `Reset` leaves the state as the first one left it. -/
theorem Reset_to_start (M : EngineMath) (self : UECFTimelineLinearColor) (bCallUpdate : Bool)
    (hTick : self.TickFunc = true) (hTime : self.Time > 0) (hExp : self.BlendExp > 0)
    (hBlend : self.BlendFunc = .ECFBlend_Linear ∨ self.BlendFunc = .ECFBlend_Cubic ∨
      self.BlendFunc = .ECFBlend_EaseIn ∨ self.BlendFunc = .ECFBlend_EaseOut)
    (hStart : self.StartValue.IsBinary32)
    (hPow : ∀ e : ℚ, 0 < e → M.Pow 0 e = 0)
    (hCubic : ∀ P0 T0 P1 T1 : FLinearColor, P0.IsBinary32 → M.CubicInterp P0 T0 P1 T1 0 = P0) :
    ∃ post events, Reset M self bCallUpdate = some (post, events) ∧
      post.CurrentTime = 0 ∧ post.CurrentTime ≤ post.Time ∧
      post.CurrentValue = self.StartValue ∧
      events = (if bCallUpdate then [.TickFunc self.StartValue 0] else []) ∧
      events.countP TimelineEvent.IsTickFunc = (if bCallUpdate then 1 else 0) ∧
      events.countP TimelineEvent.IsCallbackFunc = 0 ∧
      TimelineEvent.MarkAsFinished ∉ events ∧
      post.StartValue = self.StartValue ∧ post.StopValue = self.StopValue ∧
      post.Time = self.Time ∧ post.BlendFunc = self.BlendFunc ∧
      post.BlendExp = self.BlendExp ∧
      post = { self with CurrentTime := 0, CurrentValue := self.StartValue } ∧
      (∀ b2 : Bool, Reset M post b2
        = some (post, if b2 then [.TickFunc self.StartValue 0] else [])) := by
  have hv := Rewound_value M self hExp hBlend hStart hPow hCubic
  have ht : (Rewound M self).CurrentTime = 0 := rfl
  have hev : (if bCallUpdate then
        [TimelineEvent.TickFunc (Rewound M self).CurrentValue (Rewound M self).CurrentTime]
      else []) = (if bCallUpdate then [TimelineEvent.TickFunc self.StartValue 0] else []) := by
    rw [hv, ht]
  have hshape : Rewound M self
      = { self with CurrentTime := 0, CurrentValue := (Rewound M self).CurrentValue } := rfl
  have hpost : Rewound M self
      = { self with CurrentTime := 0, CurrentValue := self.StartValue } :=
    hshape.trans (by rw [hv])
  refine ⟨Rewound M self, _, (Reset_of_bound M self bCallUpdate hTick).trans (by rw [hev]), ht,
    ?_, hv, rfl, ?_, ?_, ?_, rfl, rfl, rfl, rfl, rfl, hpost, ?_⟩
  · rw [ht]
    exact le_of_lt hTime
  · cases bCallUpdate <;> simp [TimelineEvent.IsTickFunc]
  · cases bCallUpdate <;> simp [TimelineEvent.IsCallbackFunc]
  · cases bCallUpdate <;> simp
  · intro b2
    have hT2 : (Rewound M self).TickFunc = true := hTick
    rw [Reset_of_bound M (Rewound M self) b2 hT2, Rewound_idempotent, hv, ht]

/-- Witness for C21: the sample cubic timeline (exponent 1, duration 1) a quarter into its
run is reset with an update; the tick callback gets the start value and time zero. -/
theorem Reset_to_start_witness :
    SampleCubicTimeline.BlendExp > 0 ∧ SampleCubicTimeline.StartValue.IsBinary32 ∧
    ∃ post, Reset CubicMath SampleCubicTimeline true
        = some (post, [.TickFunc ⟨0, 0, 0, 1⟩ 0]) ∧
      post.CurrentTime = 0 ∧ post.CurrentValue = ⟨0, 0, 0, 1⟩ := by
  have hStart : SampleCubicTimeline.StartValue.IsBinary32 := by decide!
  obtain ⟨post, events, hR, hT, _, hV, hE, _⟩ := Reset_to_start CubicMath SampleCubicTimeline true
    rfl (by norm_num [SampleCubicTimeline]) (by norm_num [SampleCubicTimeline])
    (Or.inr (Or.inl rfl)) hStart (fun _ _ => rfl)
    (fun P0 T0 P1 T1 h => CubicInterp_at_zero P0 T0 P1 T1 h)
  refine ⟨by norm_num [SampleCubicTimeline], hStart, post, ?_, hT, hV⟩
  rw [hR, hE]
  rfl

end UECFTimelineLinearColor

namespace FECFActionSettings

/-- C17: a default-constructed `FECFActionSettings` has `TickInterval = 0`, `FirstDelay = 0`
and the three flags false (it is also what the in-class initialisers give); the five-argument
constructor stores each argument in the like-named field; and each preset macro differs from
the default in exactly the options it names. -/
theorem Settings_constructors_and_presets (InTickInterval InFirstDelay x d : ℚ)
    (InIgnorePause InIgnoreTimeDilation InStartPaused : Bool) :
    (Default.TickInterval = 0 ∧ Default.FirstDelay = 0 ∧ Default.bIgnorePause = false ∧
      Default.bIgnoreGlobalTimeDilation = false ∧ Default.bStartPaused = false ∧
      Default = {}) ∧
    ((Construct InTickInterval InFirstDelay InIgnorePause InIgnoreTimeDilation
        InStartPaused).TickInterval = InTickInterval ∧
      (Construct InTickInterval InFirstDelay InIgnorePause InIgnoreTimeDilation
        InStartPaused).FirstDelay = InFirstDelay ∧
      (Construct InTickInterval InFirstDelay InIgnorePause InIgnoreTimeDilation
        InStartPaused).bIgnorePause = InIgnorePause ∧
      (Construct InTickInterval InFirstDelay InIgnorePause InIgnoreTimeDilation
        InStartPaused).bIgnoreGlobalTimeDilation = InIgnoreTimeDilation ∧
      (Construct InTickInterval InFirstDelay InIgnorePause InIgnoreTimeDilation
        InStartPaused).bStartPaused = InStartPaused) ∧
    ECF_TICKINTERVAL x = { Default with TickInterval := x } ∧
    ECF_DELAYFIRST d = { Default with FirstDelay := d } ∧
    ECF_IGNOREPAUSE = { Default with bIgnorePause := true } ∧
    ECF_IGNORETIMEDILATION = { Default with bIgnoreGlobalTimeDilation := true } ∧
    ECF_IGNOREPAUSEDILATION
      = { Default with bIgnorePause := true, bIgnoreGlobalTimeDilation := true } ∧
    ECF_STARTPAUSED = { Default with bStartPaused := true } :=
  ⟨⟨rfl, rfl, rfl, rfl, rfl, rfl⟩, ⟨rfl, rfl, rfl, rfl, rfl⟩, rfl, rfl, rfl, rfl, rfl, rfl⟩

end FECFActionSettings

namespace FEnhancedCodeFlow

variable {F P : Type}

/-- Counterexample to C12 as stated: the object 2 resolves to no subsystem, so `StopAction`
does nothing and the caller's valid handle 3 is still valid afterwards. -/
theorem StopAction_handle_counterexample :
    SampleExternals.Get (some 2) = none ∧
    (StopAction SampleExternals SampleWorld (some 2) ⟨3⟩ true).2 = ⟨3⟩ ∧
    (StopAction SampleExternals SampleWorld (some 2) ⟨3⟩ true).2.IsValid = true := by
  refine ⟨by decide, ?_, ?_⟩
  · have h : SampleExternals.Get (some 2) = none := by decide
    simp only [StopAction, h]
  · have h : SampleExternals.Get (some 2) = none := by decide
    simp only [StopAction, h]
    decide

/-- C12 (as amended): given that `RemoveAction` invalidates its handle argument (as the spec
says of `Stop`), after `StopAction` the caller's handle is invalid whenever a subsystem is
resolved from the world context, whether or not the handle identified an action: it is the
handle that `RemoveAction` leaves, and the resolved subsystem is the one `RemoveAction`
leaves; when no subsystem can be resolved `StopAction` does nothing: the world and the
caller's handle keep their values. -/
theorem StopAction_handle (E : ECFExternals F P) (World : ECFWorld P)
    (WorldContextObject : Option Nat) (Handle : FECFHandle) (bComplete : Bool)
    (hRemove : RemoveActionInvalidates E) :
    (∀ ECF, E.Get WorldContextObject = some ECF →
      (StopAction E World WorldContextObject Handle bComplete).2.IsValid = false ∧
      (StopAction E World WorldContextObject Handle bComplete).2
        = (E.RemoveAction (World ECF) Handle bComplete).2 ∧
      (StopAction E World WorldContextObject Handle bComplete).1 ECF
        = (E.RemoveAction (World ECF) Handle bComplete).1) ∧
    (E.Get WorldContextObject = none →
      StopAction E World WorldContextObject Handle bComplete = (World, Handle)) := by
  constructor
  · intro ECF hSome
    have hS : StopAction E World WorldContextObject Handle bComplete
        = (Function.update World ECF (E.RemoveAction (World ECF) Handle bComplete).1,
            (E.RemoveAction (World ECF) Handle bComplete).2) := by
      simp only [StopAction, hSome]
    rw [hS]
    exact ⟨hRemove _ _ _, rfl, Function.update_same _ _ _⟩
  · intro hNone
    simp only [StopAction, hNone]

/-- Witness for C12: the object 1 resolves to the subsystem object 0; stopping the pending
action with handle 3 leaves the caller's handle invalid. -/
theorem StopAction_handle_witness :
    SampleExternals.Get (some 1) = some 0 ∧
    (StopAction SampleExternals SampleWorld (some 1) ⟨3⟩ false).2.IsValid = false :=
  ⟨by decide,
    ((StopAction_handle SampleExternals SampleWorld (some 1) ⟨3⟩ false
      (fun _ _ _ => rfl)).1 0 (by decide)).1⟩

/-- C14 (global pause round trip): with a resolvable subsystem, `GetPause` right after
`SetPause(b)` returns `b`; `SetPause(b)` followed by `SetPause(c)` is `SetPause(c)`; and
`SetPause` changes only the pause flag of the resolved subsystem: its `Actions`,
`PendingAddActions` and `LastHandleId` and every other subsystem object are unchanged. -/
theorem SetPause_GetPause (E : ECFExternals F P) (World : ECFWorld P)
    (WorldContextObject : Option Nat) (ECF : Nat) (b c : Bool)
    (hSome : E.Get WorldContextObject = some ECF) :
    GetPause E (SetPause E World WorldContextObject b) WorldContextObject = b ∧
    SetPause E (SetPause E World WorldContextObject b) WorldContextObject c
      = SetPause E World WorldContextObject c ∧
    (SetPause E World WorldContextObject b ECF).bIsECFPaused = b ∧
    (SetPause E World WorldContextObject b ECF).Declared = (World ECF).Declared ∧
    (SetPause E World WorldContextObject b ECF).Declared.Actions = (World ECF).Declared.Actions ∧
    (SetPause E World WorldContextObject b ECF).Declared.PendingAddActions
      = (World ECF).Declared.PendingAddActions ∧
    (SetPause E World WorldContextObject b ECF).Declared.LastHandleId
      = (World ECF).Declared.LastHandleId ∧
    (∀ Other, Other ≠ ECF → SetPause E World WorldContextObject b Other = World Other) := by
  have hSet : ∀ (W : ECFWorld P) (x : Bool), SetPause E W WorldContextObject x
      = Function.update W ECF { W ECF with bIsECFPaused := x } := by
    intro W x
    simp only [SetPause, hSome]
  have hAt : ∀ x, SetPause E World WorldContextObject x ECF
      = { World ECF with bIsECFPaused := x } := by
    intro x
    rw [hSet, Function.update_same]
  refine ⟨?_, ?_, ?_, ?_, ?_, ?_, ?_, ?_⟩
  · simp only [GetPause, hSome]
    rw [hAt]
  · rw [hSet (SetPause E World WorldContextObject b) c, hAt, hSet World b, hSet World c,
      Function.update_idem]
  · rw [hAt]
  · rw [hAt]
  · rw [hAt]
  · rw [hAt]
  · rw [hAt]
  · intro Other hne
    rw [hSet, Function.update_noteq hne]

/-- Witness for C14: pausing through the object 1, which resolves to the subsystem 0. -/
theorem SetPause_GetPause_witness :
    SampleExternals.Get (some 1) = some 0 ∧
    GetPause SampleExternals (SetPause SampleExternals SampleWorld (some 1) true) (some 1)
      = true :=
  ⟨by decide,
    (SetPause_GetPause SampleExternals SampleWorld (some 1) 0 true false (by decide)).1⟩

/-- C15: each of the two `AddTicker` overloads that take no ticking time gives the same
result (the same returned handle and the same world afterwards) as the corresponding overload
called with `InTickingTime = -1`, for every world, owner, tick function, callback and
settings. -/
theorem AddTicker_without_time (E : ECFExternals F P) (World : ECFWorld P)
    (InOwner : Option Nat) (InTickFunc InCallbackFunc : F) (Settings : FECFActionSettings) :
    AddTicker E World InOwner InTickFunc InCallbackFunc Settings
      = AddTicker_Time E World InOwner (-1) InTickFunc InCallbackFunc Settings ∧
    AddTicker_WithHandle E World InOwner InTickFunc InCallbackFunc Settings
      = AddTicker_Time_WithHandle E World InOwner (-1) InTickFunc InCallbackFunc Settings ∧
    (∀ ECF, E.Get InOwner = some ECF →
      AddTicker E World InOwner InTickFunc InCallbackFunc Settings
        = CallAddAction E E.UECFTicker World ECF InOwner Settings E.DefaultInstanceId
            (-1, InTickFunc, InCallbackFunc) ∧
      AddTicker_WithHandle E World InOwner InTickFunc InCallbackFunc Settings
        = CallAddAction E E.UECFTicker_WithHandle World ECF InOwner Settings
            E.DefaultInstanceId (-1, InTickFunc, InCallbackFunc)) := by
  refine ⟨rfl, rfl, ?_⟩
  intro ECF hSome
  simp only [AddTicker, AddTicker_WithHandle, AddTicker_Time, AddTicker_Time_WithHandle, hSome,
    and_self]

/-- C13: when no subsystem can be resolved from the owner or world context object, every
facade call fails softly: `IsActionRunning`, `IsActionPaused` and `GetPause` return false
(`IsActionPaused` leaving `bIsPaused` untouched), the pause, resume, stop and remove-all
functions leave the world as it is (`StopAction` also leaving the handle as it is), and every
add-style function returns the default invalid handle and leaves the world as it is; and when
a subsystem is resolved, `IsActionRunning` returns exactly `HasAction(Handle)`. -/
theorem NoSubsystem_fails_softly (E : ECFExternals F P) (World : ECFWorld P)
    (WorldContextObject InOwner CurveFloat : Option Nat) (Handle : FECFHandle)
    (bIsPaused bPaused bComplete : Bool) (InstanceId InDelayTicks InMaxExecsEnqueue : Int)
    (InTimes : Nat) (InTime InStartValue InStopValue InBlendExp : ℚ)
    (InBlendFunc : EECFBlendFunc) (InPredicate InTickFunc InCallbackFunc : F)
    (Settings : FECFActionSettings)
    (hNone : E.Get WorldContextObject = none) :
    IsActionRunning E World WorldContextObject Handle = false ∧
    IsActionPaused E World WorldContextObject Handle bIsPaused = (false, bIsPaused) ∧
    GetPause E World WorldContextObject = false ∧
    PauseAction E World WorldContextObject Handle = World ∧
    ResumeAction E World WorldContextObject Handle = World ∧
    SetPause E World WorldContextObject bPaused = World ∧
    StopAction E World WorldContextObject Handle bComplete = (World, Handle) ∧
    StopInstancedAction E World WorldContextObject InstanceId bComplete = World ∧
    StopAllActions E World WorldContextObject bComplete InOwner = World ∧
    RemoveAllTickers E World WorldContextObject bComplete InOwner = World ∧
    RemoveAllDelays E World WorldContextObject bComplete InOwner = World ∧
    RemoveAllDelayTicks E World WorldContextObject bComplete InOwner = World ∧
    RemoveAllWaitAndExecutes E World WorldContextObject bComplete InOwner = World ∧
    RemoveAllWhileTrueExecutes E World WorldContextObject bComplete InOwner = World ∧
    RemoveAllTimelines E World WorldContextObject bComplete InOwner = World ∧
    RemoveAllCustomTimelines E World WorldContextObject bComplete InOwner = World ∧
    RemoveAllTimeLocks E World WorldContextObject InOwner = World ∧
    RemoveAllDoOnce E World WorldContextObject InOwner = World ∧
    RemoveAllDoNTimes E World WorldContextObject InOwner = World ∧
    RemoveAllDoNoMoreThanXTimes E World WorldContextObject InOwner = World ∧
    RemoveAllWaitSeconds E World WorldContextObject InOwner = World ∧
    RemoveAllWaitTicks E World WorldContextObject InOwner = World ∧
    RemoveAllWaitUntil E World WorldContextObject InOwner = World ∧
    AddTicker E World WorldContextObject InTickFunc InCallbackFunc Settings = (World, FECFHandle.Invalid) ∧
    AddTicker_Time E World WorldContextObject InTime InTickFunc InCallbackFunc Settings = (World, FECFHandle.Invalid) ∧
    AddTicker_WithHandle E World WorldContextObject InTickFunc InCallbackFunc Settings = (World, FECFHandle.Invalid) ∧
    AddTicker_Time_WithHandle E World WorldContextObject InTime InTickFunc InCallbackFunc Settings = (World, FECFHandle.Invalid) ∧
    Delay E World WorldContextObject InTime InCallbackFunc Settings = (World, FECFHandle.Invalid) ∧
    DelayTicks E World WorldContextObject InDelayTicks InCallbackFunc Settings = (World, FECFHandle.Invalid) ∧
    WaitAndExecute E World WorldContextObject InPredicate InCallbackFunc InTime Settings = (World, FECFHandle.Invalid) ∧
    WaitAndExecute_WithDeltaTime E World WorldContextObject InPredicate InCallbackFunc InTime Settings = (World, FECFHandle.Invalid) ∧
    WhileTrueExecute E World WorldContextObject InPredicate InTickFunc InCallbackFunc InTime Settings = (World, FECFHandle.Invalid) ∧
    AddTimeline E World WorldContextObject InStartValue InStopValue InTime InTickFunc InCallbackFunc InBlendFunc InBlendExp Settings = (World, FECFHandle.Invalid) ∧
    AddCustomTimeline E World WorldContextObject CurveFloat InTickFunc InCallbackFunc Settings = (World, FECFHandle.Invalid) ∧
    TimeLock E World WorldContextObject InTime InTickFunc InstanceId Settings = (World, FECFHandle.Invalid) ∧
    DoOnce E World WorldContextObject InTickFunc InstanceId = (World, FECFHandle.Invalid) ∧
    DoNTimes E World WorldContextObject InTimes InTickFunc InstanceId = (World, FECFHandle.Invalid) ∧
    DoNoMoreThanXTime E World WorldContextObject InTickFunc InTime InMaxExecsEnqueue InstanceId Settings = (World, FECFHandle.Invalid) ∧
    (∀ (Resolved : Option Nat) (ECF : Nat), E.Get Resolved = some ECF →
      IsActionRunning E World Resolved Handle = E.HasAction (World ECF) Handle) :=
  ⟨
    by simp only [IsActionRunning, hNone],
    by simp only [IsActionPaused, hNone],
    by simp only [GetPause, hNone],
    by simp only [PauseAction, hNone],
    by simp only [ResumeAction, hNone],
    by simp only [SetPause, hNone],
    by simp only [StopAction, hNone],
    by simp only [StopInstancedAction, hNone],
    by simp only [StopAllActions, hNone],
    by simp only [RemoveAllTickers, hNone],
    by simp only [RemoveAllDelays, RemoveAllOfClass, hNone],
    by simp only [RemoveAllDelayTicks, RemoveAllOfClass, hNone],
    by simp only [RemoveAllWaitAndExecutes, hNone],
    by simp only [RemoveAllWhileTrueExecutes, RemoveAllOfClass, hNone],
    by simp only [RemoveAllTimelines, RemoveAllOfClass, hNone],
    by simp only [RemoveAllCustomTimelines, RemoveAllOfClass, hNone],
    by simp only [RemoveAllTimeLocks, RemoveAllOfClass, hNone],
    by simp only [RemoveAllDoOnce, RemoveAllOfClass, hNone],
    by simp only [RemoveAllDoNTimes, RemoveAllOfClass, hNone],
    by simp only [RemoveAllDoNoMoreThanXTimes, RemoveAllOfClass, hNone],
    by simp only [RemoveAllWaitSeconds, RemoveAllOfClass, hNone],
    by simp only [RemoveAllWaitTicks, RemoveAllOfClass, hNone],
    by simp only [RemoveAllWaitUntil, RemoveAllOfClass, hNone],
    by simp only [AddTicker, AddTicker_Time, hNone],
    by simp only [AddTicker_Time, hNone],
    by simp only [AddTicker_WithHandle, AddTicker_Time_WithHandle, hNone],
    by simp only [AddTicker_Time_WithHandle, hNone],
    by simp only [Delay, hNone],
    by simp only [DelayTicks, hNone],
    by simp only [WaitAndExecute, hNone],
    by simp only [WaitAndExecute_WithDeltaTime, hNone],
    by simp only [WhileTrueExecute, hNone],
    by simp only [AddTimeline, hNone],
    by simp only [AddCustomTimeline, hNone],
    by simp only [TimeLock, hNone],
    by simp only [DoOnce, hNone],
    by simp only [DoNTimes, hNone],
    by simp only [DoNoMoreThanXTime, hNone],
    fun Resolved ECF hSome => by simp only [IsActionRunning, hSome]⟩

/-- Witness for C13: the object 2 resolves to no subsystem; a delay launched for it returns
the invalid handle and a query for a handle held by the sample subsystem returns false. -/
theorem NoSubsystem_fails_softly_witness :
    SampleExternals.Get (some 2) = none ∧
    IsActionRunning SampleExternals SampleWorld (some 2) ⟨3⟩ = false ∧
    (Delay SampleExternals SampleWorld (some 2) 1 0 FECFActionSettings.Default).2
      = FECFHandle.Invalid :=
  have h := NoSubsystem_fails_softly SampleExternals SampleWorld (some 2) none none ⟨3⟩ false
    false false 0 0 0 0 1 0 0 0 .ECFBlend_Linear 0 0 0 FECFActionSettings.Default (by decide)
  ⟨by decide, h.1, congrArg Prod.snd h.2.2.2.2.2.2.2.2.2.2.2.2.2.2.2.2.2.2.2.2.2.2.2.2.2.2.2.1⟩

/-- The call `ECF->AddAction<T>(...)` that finds a valid handle for the instance id returns
that handle and leaves every subsystem object as it is. -/
theorem CallAddAction_of_found {Args : Type} (E : ECFExternals F P) (T : ActionClass Args P)
    (World : ECFWorld P) (ECF : Nat) (InOwner : Option Nat) (Settings : FECFActionSettings)
    (InstanceId : Int) (args : Args)
    (hFound : (E.GetInstancedAction (World ECF).Declared InstanceId).IsValid = true) :
    CallAddAction E T World ECF InOwner Settings InstanceId args
      = (World, E.GetInstancedAction (World ECF).Declared InstanceId) := by
  unfold CallAddAction
  rw [UECFSubsystem.AddAction_of_found E.GetInstancedAction T (World ECF).Declared InOwner
    Settings InstanceId args hFound]
  exact Prod.ext (Function.update_eq_self ECF World) rfl

/-- C16: with a resolved subsystem `ECF`, the result of every add-style facade function (the
handle it returns and the world it leaves) is the result of one call of
`UECFSubsystem::AddAction` on the state of `ECF`, the subsystem afterwards being stored back
into `ECF`. In that call `AddTicker` (all four overloads), `Delay`, `DelayTicks`,
`WaitAndExecute` (both overloads), `WhileTrueExecute`, `AddTimeline` and `AddCustomTimeline`
pass the default-constructed instance id, whatever the arguments; `TimeLock`, `DoOnce`,
`DoNTimes` and `DoNoMoreThanXTime` pass the caller's `InstanceId` unchanged; `DoOnce` and
`DoNTimes` pass default-constructed settings, the other functions the caller's settings. As a
consequence the four singleton flavours are deduplicated by the caller's `InstanceId`: when
the lookup of that id finds a valid handle they return it and change nothing. -/
theorem Facade_instance_ids (E : ECFExternals F P) (World : ECFWorld P)
    (InOwner CurveFloat : Option Nat) (ECF : Nat)
    (InstanceId InDelayTicks InMaxExecsEnqueue : Int)
    (InTimes : Nat) (InTime InStartValue InStopValue InBlendExp : ℚ)
    (InBlendFunc : EECFBlendFunc) (InPredicate InTickFunc InCallbackFunc : F)
    (Settings : FECFActionSettings)
    (hSome : E.Get InOwner = some ECF) :
    AddTicker E World InOwner InTickFunc InCallbackFunc Settings
      = (Function.update World ECF { World ECF with Declared :=
          (UECFSubsystem.AddAction E.GetInstancedAction E.UECFTicker (World ECF).Declared
            InOwner Settings E.DefaultInstanceId
            (-1, InTickFunc, InCallbackFunc)).Subsystem },
        (UECFSubsystem.AddAction E.GetInstancedAction E.UECFTicker (World ECF).Declared
            InOwner Settings E.DefaultInstanceId
            (-1, InTickFunc, InCallbackFunc)).Result) ∧
    AddTicker_Time E World InOwner InTime InTickFunc InCallbackFunc Settings
      = (Function.update World ECF { World ECF with Declared :=
          (UECFSubsystem.AddAction E.GetInstancedAction E.UECFTicker (World ECF).Declared
            InOwner Settings E.DefaultInstanceId
            (InTime, InTickFunc, InCallbackFunc)).Subsystem },
        (UECFSubsystem.AddAction E.GetInstancedAction E.UECFTicker (World ECF).Declared
            InOwner Settings E.DefaultInstanceId
            (InTime, InTickFunc, InCallbackFunc)).Result) ∧
    AddTicker_WithHandle E World InOwner InTickFunc InCallbackFunc Settings
      = (Function.update World ECF { World ECF with Declared :=
          (UECFSubsystem.AddAction E.GetInstancedAction E.UECFTicker_WithHandle (World ECF).Declared
            InOwner Settings E.DefaultInstanceId
            (-1, InTickFunc, InCallbackFunc)).Subsystem },
        (UECFSubsystem.AddAction E.GetInstancedAction E.UECFTicker_WithHandle (World ECF).Declared
            InOwner Settings E.DefaultInstanceId
            (-1, InTickFunc, InCallbackFunc)).Result) ∧
    AddTicker_Time_WithHandle E World InOwner InTime InTickFunc InCallbackFunc Settings
      = (Function.update World ECF { World ECF with Declared :=
          (UECFSubsystem.AddAction E.GetInstancedAction E.UECFTicker_WithHandle (World ECF).Declared
            InOwner Settings E.DefaultInstanceId
            (InTime, InTickFunc, InCallbackFunc)).Subsystem },
        (UECFSubsystem.AddAction E.GetInstancedAction E.UECFTicker_WithHandle (World ECF).Declared
            InOwner Settings E.DefaultInstanceId
            (InTime, InTickFunc, InCallbackFunc)).Result) ∧
    Delay E World InOwner InTime InCallbackFunc Settings
      = (Function.update World ECF { World ECF with Declared :=
          (UECFSubsystem.AddAction E.GetInstancedAction E.UECFDelay (World ECF).Declared
            InOwner Settings E.DefaultInstanceId
            (InTime, InCallbackFunc)).Subsystem },
        (UECFSubsystem.AddAction E.GetInstancedAction E.UECFDelay (World ECF).Declared
            InOwner Settings E.DefaultInstanceId
            (InTime, InCallbackFunc)).Result) ∧
    DelayTicks E World InOwner InDelayTicks InCallbackFunc Settings
      = (Function.update World ECF { World ECF with Declared :=
          (UECFSubsystem.AddAction E.GetInstancedAction E.UECFDelayTicks (World ECF).Declared
            InOwner Settings E.DefaultInstanceId
            (InDelayTicks, InCallbackFunc)).Subsystem },
        (UECFSubsystem.AddAction E.GetInstancedAction E.UECFDelayTicks (World ECF).Declared
            InOwner Settings E.DefaultInstanceId
            (InDelayTicks, InCallbackFunc)).Result) ∧
    WaitAndExecute E World InOwner InPredicate InCallbackFunc InTime Settings
      = (Function.update World ECF { World ECF with Declared :=
          (UECFSubsystem.AddAction E.GetInstancedAction E.UECFWaitAndExecute (World ECF).Declared
            InOwner Settings E.DefaultInstanceId
            (InPredicate, InCallbackFunc, InTime)).Subsystem },
        (UECFSubsystem.AddAction E.GetInstancedAction E.UECFWaitAndExecute (World ECF).Declared
            InOwner Settings E.DefaultInstanceId
            (InPredicate, InCallbackFunc, InTime)).Result) ∧
    WaitAndExecute_WithDeltaTime E World InOwner InPredicate InCallbackFunc InTime Settings
      = (Function.update World ECF { World ECF with Declared :=
          (UECFSubsystem.AddAction E.GetInstancedAction E.UECFWaitAndExecute_WithDeltaTime (World ECF).Declared
            InOwner Settings E.DefaultInstanceId
            (InPredicate, InCallbackFunc, InTime)).Subsystem },
        (UECFSubsystem.AddAction E.GetInstancedAction E.UECFWaitAndExecute_WithDeltaTime (World ECF).Declared
            InOwner Settings E.DefaultInstanceId
            (InPredicate, InCallbackFunc, InTime)).Result) ∧
    WhileTrueExecute E World InOwner InPredicate InTickFunc InCallbackFunc InTime Settings
      = (Function.update World ECF { World ECF with Declared :=
          (UECFSubsystem.AddAction E.GetInstancedAction E.UECFWhileTrueExecute (World ECF).Declared
            InOwner Settings E.DefaultInstanceId
            (InPredicate, InTickFunc, InCallbackFunc, InTime)).Subsystem },
        (UECFSubsystem.AddAction E.GetInstancedAction E.UECFWhileTrueExecute (World ECF).Declared
            InOwner Settings E.DefaultInstanceId
            (InPredicate, InTickFunc, InCallbackFunc, InTime)).Result) ∧
    AddTimeline E World InOwner InStartValue InStopValue InTime InTickFunc InCallbackFunc
        InBlendFunc InBlendExp Settings
      = (Function.update World ECF { World ECF with Declared :=
          (UECFSubsystem.AddAction E.GetInstancedAction E.UECFTimeline (World ECF).Declared
            InOwner Settings E.DefaultInstanceId
            (InStartValue, InStopValue, InTime, InTickFunc, InCallbackFunc, InBlendFunc,
            InBlendExp)).Subsystem },
        (UECFSubsystem.AddAction E.GetInstancedAction E.UECFTimeline (World ECF).Declared
            InOwner Settings E.DefaultInstanceId
            (InStartValue, InStopValue, InTime, InTickFunc, InCallbackFunc, InBlendFunc,
            InBlendExp)).Result) ∧
    AddCustomTimeline E World InOwner CurveFloat InTickFunc InCallbackFunc Settings
      = (Function.update World ECF { World ECF with Declared :=
          (UECFSubsystem.AddAction E.GetInstancedAction E.UECFCustomTimeline (World ECF).Declared
            InOwner Settings E.DefaultInstanceId
            (CurveFloat, InTickFunc, InCallbackFunc)).Subsystem },
        (UECFSubsystem.AddAction E.GetInstancedAction E.UECFCustomTimeline (World ECF).Declared
            InOwner Settings E.DefaultInstanceId
            (CurveFloat, InTickFunc, InCallbackFunc)).Result) ∧
    TimeLock E World InOwner InTime InTickFunc InstanceId Settings
      = (Function.update World ECF { World ECF with Declared :=
          (UECFSubsystem.AddAction E.GetInstancedAction E.UECFTimeLock (World ECF).Declared
            InOwner Settings InstanceId
            (InTime, InTickFunc)).Subsystem },
        (UECFSubsystem.AddAction E.GetInstancedAction E.UECFTimeLock (World ECF).Declared
            InOwner Settings InstanceId
            (InTime, InTickFunc)).Result) ∧
    DoOnce E World InOwner InTickFunc InstanceId
      = (Function.update World ECF { World ECF with Declared :=
          (UECFSubsystem.AddAction E.GetInstancedAction E.UECFDoOnce (World ECF).Declared
            InOwner FECFActionSettings.Default InstanceId
            InTickFunc).Subsystem },
        (UECFSubsystem.AddAction E.GetInstancedAction E.UECFDoOnce (World ECF).Declared
            InOwner FECFActionSettings.Default InstanceId
            InTickFunc).Result) ∧
    DoNTimes E World InOwner InTimes InTickFunc InstanceId
      = (Function.update World ECF { World ECF with Declared :=
          (UECFSubsystem.AddAction E.GetInstancedAction E.UECFDoNTimes (World ECF).Declared
            InOwner FECFActionSettings.Default InstanceId
            (InTimes, InTickFunc)).Subsystem },
        (UECFSubsystem.AddAction E.GetInstancedAction E.UECFDoNTimes (World ECF).Declared
            InOwner FECFActionSettings.Default InstanceId
            (InTimes, InTickFunc)).Result) ∧
    DoNoMoreThanXTime E World InOwner InTickFunc InTime InMaxExecsEnqueue InstanceId Settings
      = (Function.update World ECF { World ECF with Declared :=
          (UECFSubsystem.AddAction E.GetInstancedAction E.UECFDoNoMoreThanXTime (World ECF).Declared
            InOwner Settings InstanceId
            (InTickFunc, InTime, InMaxExecsEnqueue)).Subsystem },
        (UECFSubsystem.AddAction E.GetInstancedAction E.UECFDoNoMoreThanXTime (World ECF).Declared
            InOwner Settings InstanceId
            (InTickFunc, InTime, InMaxExecsEnqueue)).Result) ∧
    ((E.GetInstancedAction (World ECF).Declared InstanceId).IsValid = true →
      TimeLock E World InOwner InTime InTickFunc InstanceId Settings
        = (World, E.GetInstancedAction (World ECF).Declared InstanceId) ∧
      DoOnce E World InOwner InTickFunc InstanceId
        = (World, E.GetInstancedAction (World ECF).Declared InstanceId) ∧
      DoNTimes E World InOwner InTimes InTickFunc InstanceId
        = (World, E.GetInstancedAction (World ECF).Declared InstanceId) ∧
      DoNoMoreThanXTime E World InOwner InTickFunc InTime InMaxExecsEnqueue InstanceId Settings
        = (World, E.GetInstancedAction (World ECF).Declared InstanceId)) :=
  ⟨
    by simp only [AddTicker, AddTicker_Time, CallAddAction, hSome],
    by simp only [AddTicker_Time, CallAddAction, hSome],
    by simp only [AddTicker_WithHandle, AddTicker_Time_WithHandle, CallAddAction, hSome],
    by simp only [AddTicker_Time_WithHandle, CallAddAction, hSome],
    by simp only [Delay, CallAddAction, hSome],
    by simp only [DelayTicks, CallAddAction, hSome],
    by simp only [WaitAndExecute, CallAddAction, hSome],
    by simp only [WaitAndExecute_WithDeltaTime, CallAddAction, hSome],
    by simp only [WhileTrueExecute, CallAddAction, hSome],
    by simp only [AddTimeline, CallAddAction, hSome],
    by simp only [AddCustomTimeline, CallAddAction, hSome],
    by simp only [TimeLock, CallAddAction, hSome],
    by simp only [DoOnce, CallAddAction, hSome],
    by simp only [DoNTimes, CallAddAction, hSome],
    by simp only [DoNoMoreThanXTime, CallAddAction, hSome],
    fun hFound => ⟨
      by simp only [TimeLock, hSome]; exact CallAddAction_of_found E E.UECFTimeLock World ECF InOwner Settings InstanceId _ hFound,
      by simp only [DoOnce, hSome]; exact CallAddAction_of_found E E.UECFDoOnce World ECF InOwner FECFActionSettings.Default InstanceId _ hFound,
      by simp only [DoNTimes, hSome]; exact CallAddAction_of_found E E.UECFDoNTimes World ECF InOwner FECFActionSettings.Default InstanceId _ hFound,
      by simp only [DoNoMoreThanXTime, hSome]; exact CallAddAction_of_found E E.UECFDoNoMoreThanXTime World ECF InOwner Settings InstanceId _ hFound⟩⟩

/-- Witness for C16, on the sample world, whose subsystem object 0 holds a pending action with
instance id 7 and handle 3 and has handed out three handles: a time lock requested for the
object 1 with the unused instance id 9 creates the action with handle 4 carrying the instance
id 9 and the caller's settings; a time lock with the instance id 7 returns the existing handle
3 and creates nothing; a delay creates an action carrying the default instance id 0; and
do-once with the instance id 9 creates an action carrying the id 9 and default settings. -/
theorem Facade_instance_ids_witness :
    SampleExternals.Get (some 1) = some 0 ∧
    (TimeLock SampleExternals SampleWorld (some 1) 2 0 9 ECF_IGNOREPAUSE).2.Handle = 4 ∧
    (((TimeLock SampleExternals SampleWorld (some 1) 2 0 9 ECF_IGNOREPAUSE).1 0).Declared.PendingAddActions.map
      (fun a => (a.HandleId.Handle, a.InstanceId, a.Settings.bIgnorePause)))
        = [(3, 7, false), (4, 9, true)] ∧
    (TimeLock SampleExternals SampleWorld (some 1) 2 0 7 ECF_IGNOREPAUSE).2.Handle = 3 ∧
    (((TimeLock SampleExternals SampleWorld (some 1) 2 0 7 ECF_IGNOREPAUSE).1 0).Declared.PendingAddActions.map
      (fun a => (a.HandleId.Handle, a.InstanceId, a.Settings.bIgnorePause)))
        = [(3, 7, false)] ∧
    (((Delay SampleExternals SampleWorld (some 1) 2 0 ECF_IGNOREPAUSE).1 0).Declared.PendingAddActions.map
      (fun a => (a.HandleId.Handle, a.InstanceId, a.Settings.bIgnorePause)))
        = [(3, 7, false), (4, 0, true)] ∧
    (((DoOnce SampleExternals SampleWorld (some 1) 0 9).1 0).Declared.PendingAddActions.map
      (fun a => (a.HandleId.Handle, a.InstanceId, a.Settings.bIgnorePause)))
        = [(3, 7, false), (4, 9, false)] := by
  have h9 := Facade_instance_ids SampleExternals SampleWorld (some 1) none 0 9 0 0 0 2 0 0 0
    .ECFBlend_Linear 0 0 0 ECF_IGNOREPAUSE (by decide)
  have h7 := Facade_instance_ids SampleExternals SampleWorld (some 1) none 0 7 0 0 0 2 0 0 0
    .ECFBlend_Linear 0 0 0 ECF_IGNOREPAUSE (by decide)
  refine ⟨by decide, ?_, ?_, ?_, ?_, ?_, ?_⟩
  · rw [h9.2.2.2.2.2.2.2.2.2.2.2.1]; decide
  · rw [h9.2.2.2.2.2.2.2.2.2.2.2.1]; decide
  · rw [h7.2.2.2.2.2.2.2.2.2.2.2.1]; decide
  · rw [h7.2.2.2.2.2.2.2.2.2.2.2.1]; decide
  · rw [h9.2.2.2.2.1]; decide
  · rw [h9.2.2.2.2.2.2.2.2.2.2.2.2.1]; decide

end FEnhancedCodeFlow

end ECF
